import Mathlib

/-!
# restsyncbase: the HTTP front end of a database / table / row store

A shallow embedding of `main.go`: the request router `handler`, the
existence-gated dispatchers `handleDatabase`, `handleTable`, `handleRow`
(reached through `handleRest`), the query forwarder `handleQuery` and the
stub `handleSyncgroup`.

Modelling choices.
* A Go `string` is a sequence of bytes (`GoString`).
* The backing store (package `syncbase`) is a parameter: a record `Backend σ`
  of operations over an arbitrary state `σ`, each of which may fail.  Every
  call the handlers make is appended, with its outcome, to the trace of the
  `World`.  `memBackend` is a reference in-memory store whose calls do not
  fail spuriously.
* The response writer is written at most once on every path through the
  handlers, so a handler returns the response it produced.  A handler that
  returns without writing yields status 200 with an empty body, as `net/http`
  does.  Writes to the client are taken to succeed, and the diagnostic
  `fmt.Printf` output is not modelled.
* The parts of the Go standard library that depend on Unicode tables
  (`strings.ToLower` on non-ASCII text, JSON escaping of unsafe bytes) are
  parameters collected in `Stdlib`; their ASCII fast paths are concrete.
-/

namespace RestSyncbase

/-! ## Strings -/

/-- A Go string: a sequence of bytes. -/
abbrev GoString := List UInt8

/-- The bytes (UTF-8) of a string literal. -/
def str (s : String) : GoString := s.data.flatMap String.utf8EncodeChar

/-- The path separator, the byte of "/". -/
def slash : UInt8 := 47

/-- Go `strings.TrimLeft(s, cutset)` for a cutset of ASCII bytes: drop the
leading bytes of `s` that occur in the cutset. -/
def TrimLeft (s cutset : GoString) : GoString :=
  s.dropWhile (fun c => decide (c ∈ cutset))

/-- Split `s` at the first occurrence of the byte `sep` (Go `strings.Index`
followed by the two slices `s[:m]` and `s[m+1:]`); `none` when `sep` does not
occur. -/
def cut (sep : UInt8) : GoString → Option (GoString × GoString)
  | [] => none
  | c :: cs =>
    if c = sep then some ([], cs)
    else
      match cut sep cs with
      | none => none
      | some (a, rest) => some (c :: a, rest)

/-- Go `strings.SplitN(s, sep, n)` for a one-byte separator and `n ≥ 0`: at
most `n` pieces, the last one being the unsplit remainder.  For `n > 0` the
result always has at least one element (for the empty string, the one
element is the empty string). -/
def SplitN (sep : UInt8) : GoString → Nat → List GoString
  | _, 0 => []
  | s, 1 => [s]
  | s, n + 2 =>
    match cut sep s with
    | none => [s]
    | some (a, rest) => a :: SplitN sep rest (n + 1)

/-- The parts of the Go standard library that depend on Unicode tables. -/
structure Stdlib where
  /-- Computes `strings.Map(unicode.ToLower, s)`, used by `strings.ToLower`
  for a string with a non-ASCII byte. -/
  unicodeToLower : GoString → GoString
  /-- The quoted JSON encoding (`encoding/json`) of a string that holds a byte
  outside the HTML-safe ASCII set, escapes included. -/
  jsonQuote : GoString → GoString

/-- Go `strings.ToLower`: an ASCII-only string has its letters `A`..`Z`
shifted to `a`..`z`; any other string goes through the Unicode mapping. -/
def ToLower (lib : Stdlib) (s : GoString) : GoString :=
  if s.all (fun c => decide (c < 128)) then
    s.map (fun c => if 65 ≤ c ∧ c ≤ 90 then c + 32 else c)
  else lib.unicodeToLower s

/-- Byte-wise lexicographic order of Go strings (`<` on `string`). -/
def strLt : GoString → GoString → Bool
  | _, [] => false
  | [], _ :: _ => true
  | a :: as, b :: bs => decide (a < b) || (decide (a = b) && strLt as bs)

/-! ## JSON (`encoding/json`) -/

/-- Bytes that `encoding/json` copies unescaped into a string (its
`htmlSafeSet`): ASCII from the space on, except the double quote, `&`, `<`, `>`
and the backslash. -/
def htmlSafe (c : UInt8) : Bool :=
  decide (32 ≤ c) && decide (c < 128) && !(c == 34 || c == 38 || c == 60 || c == 62 || c == 92)

/-- The JSON encoding of a string. -/
def jsonString (lib : Stdlib) (s : GoString) : GoString :=
  if s.all htmlSafe then str "\"" ++ s ++ str "\"" else lib.jsonQuote s

/-- Go `json.Marshal` of a non-nil `[]string`. -/
def marshalStrings (lib : Stdlib) (l : List GoString) : GoString :=
  str "[" ++ List.intercalate (str ",") (l.map (jsonString lib)) ++ str "]"

/-- A Go `map[string]string`, kept as a list of entries with distinct keys in
increasing key order (the order in which `json.Marshal` emits them). -/
abbrev GoMap := List (GoString × GoString)

/-- The assignment `m[k] = v`. -/
def GoMap.set (k v : GoString) : GoMap → GoMap
  | [] => [(k, v)]
  | (k1, v1) :: m =>
    if k = k1 then (k, v) :: m
    else if strLt k k1 then (k, v) :: (k1, v1) :: m
    else (k1, v1) :: GoMap.set k v m

/-- Go `json.Marshal` of a `map[string]string`. -/
def marshalMap (lib : Stdlib) (m : GoMap) : GoString :=
  str "\x7b" ++
    List.intercalate (str ",") (m.map (fun e => jsonString lib e.1 ++ str ":" ++ jsonString lib e.2)) ++
    str "\x7d"

/-- Go `json.Marshal` of a non-nil `[]map[string]string`. -/
def marshalMaps (lib : Stdlib) (l : List GoMap) : GoString :=
  str "[" ++ List.intercalate (str ",") (l.map (marshalMap lib)) ++ str "]"

/-! ## HTTP requests and responses -/

/-- The fields of `*http.Request` the handlers read.  `Body` is the result of
`ioutil.ReadAll(r.Body)`. -/
structure Request where
  Method : GoString
  Path : GoString
  Body : Except GoString GoString

/-- What the client receives: the status code, the header fields the handler
set, and the body. -/
structure Response where
  status : Nat
  header : List (GoString × GoString)
  body : GoString
deriving DecidableEq

/-- Go `http.Error(w, msg, code)`: a plain-text reply holding `msg` and a
newline. -/
def httpError (msg : GoString) (code : Nat) : Response :=
  { status := code
    header := [(str "Content-Type", str "text/plain; charset=utf-8"),
               (str "X-Content-Type-Options", str "nosniff")]
    body := msg ++ str "\n" }

/-- The reply of a handler that returns without writing. -/
def emptyOK : Response := { status := 200, header := [], body := [] }

/-- The reply after `w.Write(data)` alone. -/
def writeRaw (data : GoString) : Response := { status := 200, header := [], body := data }

/-- The reply after `w.Header().Add("Content-type", "Application/json")` and
`w.Write(jsondat)`. -/
def writeJSON (jsondat : GoString) : Response :=
  { status := 200, header := [(str "Content-Type", str "Application/json")], body := jsondat }

/-- How handling a request ends: with a response, or with a run-time panic
(an index out of range), after which `net/http` drops the connection. -/
inductive Outcome
  | responded (r : Response)
  | panicked
deriving DecidableEq

/-- The status code of the response, if there is one. -/
def Outcome.status : Outcome → Option Nat
  | .responded r => some r.status
  | .panicked => none

/-- The body of the response, if there is one. -/
def Outcome.body : Outcome → Option GoString
  | .responded r => some r.body
  | .panicked => none

/-! ## The backing store -/

/-- A value of a query result row; `String` is the result of its `String()`
method. -/
structure VdlValue where
  String : GoString
deriving DecidableEq

/-- The result of a successful `db.Exec`: the headers, the rows the stream
yields before `Advance` returns false, and the stream's `Err()` after that. -/
structure QueryResult where
  headers : List GoString
  rows : List (List VdlValue)
  err : Option GoString
deriving DecidableEq

/-- The operations of the backing store the handlers use, over a store state
`σ`.  An error is represented by its message.  A scan returns the keys its
stream yields before `Advance` returns false and the stream's `Err()` after
that. -/
structure Backend (σ : Type) where
  dbExists : GoString → σ → Except GoString Bool × σ
  dbListTables : GoString → σ → Except GoString (List GoString) × σ
  dbCreate : GoString → σ → Except GoString Unit × σ
  dbExec : GoString → GoString → σ → Except GoString QueryResult × σ
  tableExists : GoString → GoString → σ → Except GoString Bool × σ
  tableScan : GoString → GoString → σ → (List GoString × Option GoString) × σ
  tableCreate : GoString → GoString → σ → Except GoString Unit × σ
  rowExists : GoString → GoString → GoString → σ → Except GoString Bool × σ
  rowGet : GoString → GoString → GoString → σ → Except GoString GoString × σ
  rowPut : GoString → GoString → GoString → GoString → σ → Except GoString Unit × σ
  rowDelete : GoString → GoString → GoString → σ → Except GoString Unit × σ

/-- A call to the backing store, with the names that address its target. -/
inductive Call
  | dbExists (db : GoString)
  | dbListTables (db : GoString)
  | dbCreate (db : GoString)
  | dbExec (db query : GoString)
  | tableExists (db table : GoString)
  | tableScan (db table : GoString)
  | tableCreate (db table : GoString)
  | rowExists (db table key : GoString)
  | rowGet (db table key : GoString)
  | rowPut (db table key value : GoString)
  | rowDelete (db table key : GoString)
deriving DecidableEq

/-- The outcome of a call: it returned an error; it returned a stream that
stopped with an error (`Advance` false, `Err` not nil); it answered an
existence check; or it succeeded otherwise. -/
inductive Result
  | failed
  | broke
  | answered (b : Bool)
  | done
deriving DecidableEq

/-- One backing-store call and its outcome. -/
structure Event where
  call : Call
  result : Result
deriving DecidableEq

/-- The state of the backing store and the calls made so far, oldest first. -/
structure World (σ : Type) where
  store : σ
  trace : List Event
deriving DecidableEq

/-- The calls that change the store. -/
def Call.mutating : Call → Bool
  | .dbCreate _ => true
  | .tableCreate _ _ => true
  | .rowPut _ _ _ _ => true
  | .rowDelete _ _ _ => true
  | _ => false

/-- The database existence check. -/
def Call.isDbExists : Call → Bool
  | .dbExists _ => true
  | _ => false

/-- The table existence check. -/
def Call.isTableExists : Call → Bool
  | .tableExists _ _ => true
  | _ => false

/-- The calls on a table: Exists, Scan, Create. -/
def Call.isTableCall : Call → Bool
  | .tableExists _ _ => true
  | .tableScan _ _ => true
  | .tableCreate _ _ => true
  | _ => false

/-- The calls on a row: Exists, Get, Put, Delete. -/
def Call.isRowCall : Call → Bool
  | .rowExists _ _ _ => true
  | .rowGet _ _ _ => true
  | .rowPut _ _ _ _ => true
  | .rowDelete _ _ _ => true
  | _ => false

/-- The outcome of an existence check. -/
def Result.ofExists : Except GoString Bool → Result
  | .error _ => .failed
  | .ok b => .answered b

/-- The outcome of a call that returns a value or only an error. -/
def Result.ofExcept {α : Type} : Except GoString α → Result
  | .error _ => .failed
  | .ok _ => .done

/-- The outcome of a scan, which returns no error of its own: its stream
breaks or runs to the end. -/
def Result.ofScan : List GoString × Option GoString → Result
  | (_, some _) => .broke
  | (_, none) => .done

/-- The outcome of a query: the call fails, or its result stream breaks, or
the stream runs to the end. -/
def Result.ofQuery : Except GoString QueryResult → Result
  | .error _ => .failed
  | .ok q => if q.err.isSome then .broke else .done

/-- The world after a call: the new store state, and the call appended to the
trace. -/
def World.after {σ : Type} (w : World σ) (c : Call) (r : Result) (s : σ) : World σ :=
  { store := s, trace := w.trace ++ [⟨c, r⟩] }

section calls
variable {σ : Type} (b : Backend σ)

/-- Call `db.Exists(ctx)`. -/
def Backend.DbExists (db : GoString) (w : World σ) : Except GoString Bool × World σ :=
  ((b.dbExists db w.store).1,
    w.after (.dbExists db) (.ofExists (b.dbExists db w.store).1) (b.dbExists db w.store).2)

/-- Call `db.ListTables(ctx)`. -/
def Backend.ListTables (db : GoString) (w : World σ) : Except GoString (List GoString) × World σ :=
  ((b.dbListTables db w.store).1,
    w.after (.dbListTables db) (.ofExcept (b.dbListTables db w.store).1) (b.dbListTables db w.store).2)

/-- Call `db.Create(ctx, nil)`. -/
def Backend.DbCreate (db : GoString) (w : World σ) : Except GoString Unit × World σ :=
  ((b.dbCreate db w.store).1,
    w.after (.dbCreate db) (.ofExcept (b.dbCreate db w.store).1) (b.dbCreate db w.store).2)

/-- Call `db.Exec(ctx, query)` and drain its result stream. -/
def Backend.Exec (db query : GoString) (w : World σ) : Except GoString QueryResult × World σ :=
  ((b.dbExec db query w.store).1,
    w.after (.dbExec db query) (.ofQuery (b.dbExec db query w.store).1) (b.dbExec db query w.store).2)

/-- Call `t.Exists(ctx)`. -/
def Backend.TableExists (db t : GoString) (w : World σ) : Except GoString Bool × World σ :=
  ((b.tableExists db t w.store).1,
    w.after (.tableExists db t) (.ofExists (b.tableExists db t w.store).1) (b.tableExists db t w.store).2)

/-- Call `t.Scan(ctx, nosql.Prefix(""))` and drain its stream. -/
def Backend.Scan (db t : GoString) (w : World σ) : (List GoString × Option GoString) × World σ :=
  ((b.tableScan db t w.store).1,
    w.after (.tableScan db t) (.ofScan (b.tableScan db t w.store).1) (b.tableScan db t w.store).2)

/-- Call `t.Create(ctx, nil)`. -/
def Backend.TableCreate (db t : GoString) (w : World σ) : Except GoString Unit × World σ :=
  ((b.tableCreate db t w.store).1,
    w.after (.tableCreate db t) (.ofExcept (b.tableCreate db t w.store).1) (b.tableCreate db t w.store).2)

/-- Call `row.Exists(ctx)`. -/
def Backend.RowExists (db t key : GoString) (w : World σ) : Except GoString Bool × World σ :=
  ((b.rowExists db t key w.store).1,
    w.after (.rowExists db t key) (.ofExists (b.rowExists db t key w.store).1)
      (b.rowExists db t key w.store).2)

/-- Call `row.Get(ctx, &str)`. -/
def Backend.Get (db t key : GoString) (w : World σ) : Except GoString GoString × World σ :=
  ((b.rowGet db t key w.store).1,
    w.after (.rowGet db t key) (.ofExcept (b.rowGet db t key w.store).1) (b.rowGet db t key w.store).2)

/-- Call `row.Put(ctx, body)`. -/
def Backend.Put (db t key value : GoString) (w : World σ) : Except GoString Unit × World σ :=
  ((b.rowPut db t key value w.store).1,
    w.after (.rowPut db t key value) (.ofExcept (b.rowPut db t key value w.store).1)
      (b.rowPut db t key value w.store).2)

/-- Call `row.Delete(ctx)`. -/
def Backend.Delete (db t key : GoString) (w : World σ) : Except GoString Unit × World σ :=
  ((b.rowDelete db t key w.store).1,
    w.after (.rowDelete db t key) (.ofExcept (b.rowDelete db t key w.store).1)
      (b.rowDelete db t key w.store).2)

end calls

/-! ## The handlers (`main.go`) -/

section handlers
variable {σ : Type} (lib : Stdlib) (b : Backend σ)

/-- Go `handleDatabase(w, db, method)`. -/
def handleDatabase (db method : GoString) (w : World σ) : Outcome × World σ :=
  if method = str "GET" then
    match b.DbExists db w with
    | (.error _, w1) => (.responded (httpError (str "error in db.Exists()") 500), w1)
    | (.ok false, w1) => (.responded (httpError (str "db doesn't exist") 404), w1)
    | (.ok true, w1) =>
      match b.ListTables db w1 with
      | (.error _, w2) => (.responded (httpError (str "error in db.ListTables()") 500), w2)
      | (.ok tables, w2) =>
        let urls := tables.map (fun tableName => str "//" ++ db ++ str "/" ++ tableName)
        (.responded (writeJSON (marshalStrings lib urls)), w2)
  else if method = str "POST" then
    match b.DbExists db w with
    | (.error _, w1) => (.responded (httpError (str "error in db.Exists()") 500), w1)
    | (.ok true, w1) => (.responded (httpError (str "database already exists") 409), w1)
    | (.ok false, w1) =>
      match b.DbCreate db w1 with
      | (.error _, w2) => (.responded (httpError (str "error creating database") 500), w2)
      | (.ok _, w2) => (.responded emptyOK, w2)
  else
    (.responded (httpError (str "unsupported method for database") 400), w)

/-- Go `handleTable(w, db, t, method)`; the table handle `t` is the pair of
the database name and the table name. -/
def handleTable (db t method : GoString) (w : World σ) : Outcome × World σ :=
  if method = str "GET" then
    match b.TableExists db t w with
    | (.error _, w1) => (.responded (httpError (str "error in table.Exists()") 500), w1)
    | (.ok false, w1) => (.responded (httpError (str "table doesn't exist") 404), w1)
    | (.ok true, w1) =>
      match b.Scan db t w1 with
      | ((keys, _), w2) =>
        let urls := keys.map (fun key => str "//" ++ db ++ str "/" ++ t ++ str "/" ++ key)
        (.responded (writeJSON (marshalStrings lib urls)), w2)
  else if method = str "POST" then
    match b.TableExists db t w with
    | (.error _, w1) => (.responded (httpError (str "error in table.Exists()") 500), w1)
    | (.ok true, w1) => (.responded (httpError (str "table already exists") 409), w1)
    | (.ok false, w1) =>
      match b.TableCreate db t w1 with
      | (.error _, w2) => (.responded (httpError (str "error creating table") 500), w2)
      | (.ok _, w2) => (.responded emptyOK, w2)
  else
    (.responded (httpError (str "unsupported method for database") 400), w)

/-- The first `switch` of `handleRow`, the existence gate: `some r` when it
answered `r` and returned, `none` when control goes on to the second
`switch`. -/
def rowGate (db t key method : GoString) (w : World σ) : Option Response × World σ :=
  if method = str "GET" ∨ method = str "PUT" ∨ method = str "DELETE" then
    match b.RowExists db t key w with
    | (.error _, w1) => (some (httpError (str "error in row.Exists()") 500), w1)
    | (.ok false, w1) => (some (httpError (str "specified row does not exist") 404), w1)
    | (.ok true, w1) => (none, w1)
  else if method = str "POST" then
    match b.RowExists db t key w with
    | (.error _, w1) => (some (httpError (str "error in row.Exists()") 500), w1)
    | (.ok true, w1) => (some (httpError (str "specified row already exists") 409), w1)
    | (.ok false, w1) => (none, w1)
  else (none, w)

/-- The second `switch` of `handleRow`: the operation itself. -/
def rowAct (db t key body method : GoString) (w : World σ) : Outcome × World σ :=
  if method = str "GET" then
    match b.Get db t key w with
    | (.error _, w1) => (.responded (httpError (str "error reading value from table") 500), w1)
    | (.ok value, w1) => (.responded (writeRaw value), w1)
  else if method = str "POST" ∨ method = str "PUT" then
    match b.Put db t key body w with
    | (.error _, w1) => (.responded (httpError (str "error putting to value") 500), w1)
    | (.ok _, w1) => (.responded emptyOK, w1)
  else if method = str "DELETE" then
    match b.Delete db t key w with
    | (.error _, w1) => (.responded (httpError (str "error deleting row") 500), w1)
    | (.ok _, w1) => (.responded emptyOK, w1)
  else (.responded emptyOK, w)

/-- Go `handleRow(w, row, key, body, method)`; the row handle is the triple
of the database name, the table name and the key. -/
def handleRow (db t key body method : GoString) (w : World σ) : Outcome × World σ :=
  match rowGate b db t key method w with
  | (some r, w1) => (.responded r, w1)
  | (none, w1) => rowAct b db t key body method w1

/-- Go `handleRest(w, db, remainder, r)`. -/
def handleRest (db remainder : GoString) (r : Request) (w : World σ) : Outcome × World σ :=
  let strs := SplitN slash remainder 2
  let method := r.Method
  match b.DbExists db w with
  | (.error _, w1) => (.responded (httpError (str "error in db.Exists()") 500), w1)
  | (.ok false, w1) => (.responded (httpError (str "database doesn't exist") 404), w1)
  | (.ok true, w1) =>
    match strs with
    | [] => (.panicked, w1)
    | [tableName] => handleTable lib b db tableName method w1
    | tableName :: key :: _ =>
      match b.TableExists db tableName w1 with
      | (.error _, w2) => (.responded (httpError (str "error in table.Exists()") 500), w2)
      | (.ok false, w2) => (.responded (httpError (str "table doesn't exist") 404), w2)
      | (.ok true, w2) =>
        match r.Body with
        | .error _ => (.responded (httpError (str "error reading message body") 500), w2)
        | .ok body => handleRow b db tableName key body method w2

/-- One step of the inner loop of `handleQuery`, from index `i`:
`result[headers[i]] = elem.String()` for each remaining value of the row;
`none` when `headers[i]` is out of range (a run-time panic). -/
def fillRow (headers : List GoString) : Nat → List VdlValue → GoMap → Option GoMap
  | _, [], result => some result
  | i, elem :: rest, result =>
    match headers.get? i with
    | none => none
    | some h => fillRow headers (i + 1) rest (GoMap.set h elem.String result)

/-- The outer loop of `handleQuery`: one map per result row, in stream order;
`none` when a row makes the inner loop panic. -/
def collectRows (headers : List GoString) : List (List VdlValue) → Option (List GoMap)
  | [] => some []
  | rowVals :: more =>
    match fillRow headers 0 rowVals [] with
    | none => none
    | some result =>
      match collectRows headers more with
      | none => none
      | some results => some (result :: results)

/-- Go `handleQuery(w, db, query, r)`. -/
def handleQuery (db query : GoString) (r : Request) (w : World σ) : Outcome × World σ :=
  if r.Method ≠ str "GET" then
    (.responded (httpError (str "unsupported HTTP method") 400), w)
  else
    match b.Exec db query w with
    | (.error err, w1) => (.responded (httpError (str "error in db.Exec(): " ++ err) 500), w1)
    | (.ok q, w1) =>
      match collectRows q.headers q.rows with
      | none => (.panicked, w1)
      | some results => (.responded (writeJSON (marshalMaps lib results)), w1)

/-- Go `handleSyncgroup(w, db, query, r)`. -/
def handleSyncgroup (_db _query : GoString) (_r : Request) (w : World σ) : Outcome × World σ :=
  (.responded (httpError (str "syncbase support not yet implemented") 500), w)

/-- Go `handler(w, r)`, the entry point for every request. -/
def handler (r : Request) (w : World σ) : Outcome × World σ :=
  let strs := SplitN slash (TrimLeft r.Path (str "/")) 3
  match strs with
  | [] =>
    (.responded
      (httpError (str "expected request of the form /[Database Name]/[Action Name]/...") 400), w)
  | [databaseName] => handleDatabase lib b databaseName r.Method w
  | databaseName :: second :: rest =>
    let action := ToLower lib second
    let remainder := rest.headD []
    if action = str "rest" then handleRest lib b databaseName remainder r w
    else if action = str "query" then handleQuery lib b databaseName remainder r w
    else if action = str "syncgroup" then handleSyncgroup databaseName remainder r w
    else (.responded (httpError (str "unknown action") 400), w)

end handlers

/-- Handle the requests one after the other, each on the world the previous
one left, starting from an empty trace; the outcomes in order and the final
store. -/
def serve {σ : Type} (lib : Stdlib) (b : Backend σ) : List Request → σ → List Outcome × σ
  | [], s => ([], s)
  | r :: rs, s =>
    ((handler lib b r ⟨s, []⟩).1 :: (serve lib b rs (handler lib b r ⟨s, []⟩).2.store).1,
      (serve lib b rs (handler lib b r ⟨s, []⟩).2.store).2)

/-! ## A reference in-memory backing store -/

/-- The value bound to key `k` in an association list. -/
def assocGet {β : Type} (k : GoString) : List (GoString × β) → Option β
  | [] => none
  | (k1, v1) :: l => if k1 = k then some v1 else assocGet k l

/-- Bind `k` to `v`: in place when `k` is bound already, at the end
otherwise. -/
def assocSet {β : Type} (k : GoString) (v : β) : List (GoString × β) → List (GoString × β)
  | [] => [(k, v)]
  | (k1, v1) :: l => if k1 = k then (k, v) :: l else (k1, v1) :: assocSet k v l

/-- Remove every binding of `k`. -/
def assocDel {β : Type} (k : GoString) : List (GoString × β) → List (GoString × β)
  | [] => []
  | (k1, v1) :: l => if k1 = k then assocDel k l else (k1, v1) :: assocDel k l

/-- The rows of a table: keys and values. -/
abbrev Rows := List (GoString × GoString)

/-- The tables of a database, by name. -/
abbrev Tables := List (GoString × Rows)

/-- The databases of the application, by name. -/
abbrev Store := List (GoString × Tables)

/-- The tables of database `db`, if it exists. -/
def Store.db (s : Store) (db : GoString) : Option Tables := assocGet db s

/-- The rows of table `t` of database `db`, if both exist. -/
def Store.table (s : Store) (db t : GoString) : Option Rows :=
  match s.db db with
  | none => none
  | some ts => assocGet t ts

/-- The value of row `key` of table `t` of database `db`, if all three
exist. -/
def Store.row (s : Store) (db t key : GoString) : Option GoString :=
  match s.table db t with
  | none => none
  | some rows => assocGet key rows

/-- The message of the error for a missing resource. -/
def errNoExist : GoString := str "does not exist"

/-- The message of the error for creating what exists. -/
def errExist : GoString := str "already exists"

/-- Modelled from the spec: the backing store (package `syncbase`, which is
not among the sources), as the hierarchy database, table, row of the data
model kept in memory.  Existence checks, listings and scans never fail;
Create fails on what exists or under a missing parent; Get fails on a missing
row; Put creates or overwrites a row of an existing table; Delete removes a
row of an existing table.  Queries are answered by the engine `eng`, which
reads the store. -/
def memBackend (eng : Store → GoString → GoString → Except GoString QueryResult) :
    Backend Store where
  dbExists db s := (.ok (s.db db).isSome, s)
  dbListTables db s :=
    match s.db db with
    | none => (.error errNoExist, s)
    | some ts => (.ok (ts.map Prod.fst), s)
  dbCreate db s :=
    match s.db db with
    | some _ => (.error errExist, s)
    | none => (.ok (), assocSet db [] s)
  dbExec db query s := (eng s db query, s)
  tableExists db t s := (.ok (s.table db t).isSome, s)
  tableScan db t s :=
    match s.table db t with
    | none => (([], some errNoExist), s)
    | some rows => ((rows.map Prod.fst, none), s)
  tableCreate db t s :=
    match s.db db with
    | none => (.error errNoExist, s)
    | some ts =>
      match assocGet t ts with
      | some _ => (.error errExist, s)
      | none => (.ok (), assocSet db (assocSet t [] ts) s)
  rowExists db t key s := (.ok (s.row db t key).isSome, s)
  rowGet db t key s :=
    match s.row db t key with
    | none => (.error errNoExist, s)
    | some v => (.ok v, s)
  rowPut db t key value s :=
    match s.db db with
    | none => (.error errNoExist, s)
    | some ts =>
      match assocGet t ts with
      | none => (.error errNoExist, s)
      | some rows => (.ok (), assocSet db (assocSet t (assocSet key value rows) ts) s)
  rowDelete db t key s :=
    match s.db db with
    | none => (.error errNoExist, s)
    | some ts =>
      match assocGet t ts with
      | none => (.error errNoExist, s)
      | some rows => (.ok (), assocSet db (assocSet t (assocDel key rows) ts) s)

/-- A query engine that rejects every query. -/
def noEngine : Store → GoString → GoString → Except GoString QueryResult :=
  fun _ _ _ => .error (str "no query engine")

/-- A standard library whose Unicode-dependent parts leave the string as it
is; used where only ASCII text occurs. -/
def asciiLib : Stdlib := { unicodeToLower := id, jsonQuote := id }

/-! ## Vocabulary of the statements -/

/-- On the store `s`, the backing store `b` answers request `r` with status
`code` without changing anything: the store after the request is `s`, and no
call made while handling it is a mutating one (Create, Put, Delete). -/
def Rejects (lib : Stdlib) (b : Backend Store) (r : Request) (s : Store) (code : Nat) : Prop :=
  (handler lib b r ⟨s, []⟩).1.status = some code ∧
  (handler lib b r ⟨s, []⟩).2.store = s ∧
  ∀ e ∈ (handler lib b r ⟨s, []⟩).2.trace, e.call.mutating = false

/-! ## Inputs used in the statements below -/

/-- The walk-through on database `d1`: create the database, create table
`t1`, write row `k1` with body `v1` using the verb `write`, list the tables,
list the rows, read the row, delete it, read it again. -/
def scenario (write : GoString) : List Request :=
  [ ⟨str "POST", str "/d1", .ok []⟩,
    ⟨str "POST", str "/d1/rest/t1", .ok []⟩,
    ⟨write, str "/d1/rest/t1/k1", .ok (str "v1")⟩,
    ⟨str "GET", str "/d1", .ok []⟩,
    ⟨str "GET", str "/d1/rest/t1", .ok []⟩,
    ⟨str "GET", str "/d1/rest/t1/k1", .ok []⟩,
    ⟨str "DELETE", str "/d1/rest/t1/k1", .ok []⟩,
    ⟨str "GET", str "/d1/rest/t1/k1", .ok []⟩ ]

/-- A store holding database `d1` with table `t1` and its row `k1` of value
`v1`. -/
def sampleStore : Store := [(str "d1", [(str "t1", [(str "k1", str "v1")])])]

/-- A query engine whose result stream yields one row and then stops with an
error. -/
def brokenEngine : Store → GoString → GoString → Except GoString QueryResult :=
  fun _ _ _ => .ok ⟨[str "k"], [[⟨str "k1"⟩]], some (str "stream broken")⟩

/-- The in-memory store behind a connection that breaks streams: a scan
yields the first key of the table and then stops with an error, and so does
the result stream of a query. -/
def brokenStreams : Backend Store :=
  { memBackend brokenEngine with
    tableScan := fun db t s =>
      (((((memBackend brokenEngine).tableScan db t s).1.1).take 1, some (str "stream broken")), s) }

/-- A query engine that answers every query with the headers `k`, `v` and
the one row `k1`, `v1`. -/
def sampleEngine : Store → GoString → GoString → Except GoString QueryResult :=
  fun _ _ _ => .ok ⟨[str "k", str "v"], [[⟨str "k1"⟩, ⟨str "v1"⟩]], none⟩

/-- A query engine whose one result row holds two values under the single
header `k`. -/
def longRowEngine : Store → GoString → GoString → Except GoString QueryResult :=
  fun _ _ _ => .ok ⟨[str "k"], [[⟨str "k1"⟩, ⟨str "v1"⟩]], none⟩

/-- The read operations of the backing store `b` (existence checks, listing,
scan, get, query) leave the store state as it is. -/
def ReadStable {σ : Type} (b : Backend σ) : Prop :=
  (∀ d s, (b.dbExists d s).2 = s) ∧ (∀ d s, (b.dbListTables d s).2 = s) ∧
  (∀ d q s, (b.dbExec d q s).2 = s) ∧ (∀ d t s, (b.tableExists d t s).2 = s) ∧
  (∀ d t s, (b.tableScan d t s).2 = s) ∧ (∀ d t k s, (b.rowExists d t k s).2 = s) ∧
  (∀ d t k s, (b.rowGet d t k s).2 = s)

/-- What a handler run `res`, started in the world `w` for the verb
`method`, does to the store.  Either none of the calls it added to the trace
is a mutating one, and then, the reads of `b` being stable, the store state
is the one of `w`; or it made a mutating call, and then the verb is not GET
and the answer is 200 or 500. -/
def QuietOrMutating {σ : Type} (b : Backend σ) (w : World σ) (method : GoString)
    (res : Outcome × World σ) : Prop :=
  ∃ ext, res.2.trace = w.trace ++ ext ∧
    (((∀ e ∈ ext, e.call.mutating = false) ∧ (ReadStable b → res.2.store = w.store)) ∨
      ((∃ e ∈ ext, e.call.mutating = true) ∧ method ≠ str "GET" ∧
        (res.1.status = some 200 ∨ res.1.status = some 500)))

/-- The path `/d/rest/t/k` of the row `k` of table `t` of database `d`. -/
def rowPath (d t k : GoString) : GoString :=
  str "/" ++ d ++ str "/rest/" ++ t ++ str "/" ++ k

/-- The upper-case form of an ASCII letter `a`..`z`; any other byte is left
as it is. -/
def upperByte (c : UInt8) : UInt8 := if 97 ≤ c ∧ c ≤ 122 then c - 32 else c

/-- Whether `a` spells the keyword `kw` up to the case of its letters: byte
by byte, `a` holds the byte of `kw` or its upper-case form. -/
def caseVariant : GoString → GoString → Bool
  | [], [] => true
  | y :: kw, x :: a => (x == y || x == upperByte y) && caseVariant kw a
  | _, _ => false

/-! ## Lemmas on strings -/

theorem str_slash : str "/" = [slash] := by decide

theorem TrimLeft_slashes (n : Nat) (s : GoString) :
    TrimLeft (List.replicate n slash ++ s) (str "/") = TrimLeft s (str "/") := by
  induction n with
  | zero => simp
  | succ n ih =>
    have h : decide (slash ∈ str "/") = true := by decide
    simp only [List.replicate_succ, List.cons_append]
    unfold TrimLeft at ih ⊢
    rw [List.dropWhile_cons, if_pos h]
    exact ih

theorem TrimLeft_segment (d s : GoString) (hne : d ≠ []) (hd : slash ∉ d) :
    TrimLeft (d ++ s) (str "/") = d ++ s := by
  cases d with
  | nil => exact absurd rfl hne
  | cons c cs =>
    have hc : c ≠ slash := fun h => hd (by simp [h])
    have h : ¬ (decide (c ∈ str "/") = true) := by
      rw [str_slash]; simpa using hc
    unfold TrimLeft
    rw [List.cons_append, List.dropWhile_cons, if_neg h]

theorem cut_segment (a rest : GoString) (ha : slash ∉ a) :
    cut slash (a ++ slash :: rest) = some (a, rest) := by
  induction a with
  | nil => simp [cut]
  | cons c cs ih =>
    have hc : c ≠ slash := fun h => ha (by simp [h])
    have hcs : slash ∉ cs := fun h => ha (by simp [h])
    simp [cut, hc, ih hcs]

theorem cut_none (a : GoString) (ha : slash ∉ a) : cut slash a = none := by
  induction a with
  | nil => simp [cut]
  | cons c cs ih =>
    have hc : c ≠ slash := fun h => ha (by simp [h])
    have hcs : slash ∉ cs := fun h => ha (by simp [h])
    simp [cut, hc, ih hcs]

theorem SplitN_ne_nil (sep : UInt8) (s : GoString) (n : Nat) : SplitN sep s (n + 1) ≠ [] := by
  cases n with
  | zero => simp [SplitN]
  | succ n =>
    unfold SplitN
    cases cut sep s with
    | none => simp
    | some p => simp

theorem SplitN_one_segment (a : GoString) (n : Nat) (ha : slash ∉ a) :
    SplitN slash a (n + 1) = [a] := by
  cases n with
  | zero => rfl
  | succ n => simp [SplitN, cut_none a ha]

theorem SplitN_cons_segment (a rest : GoString) (n : Nat) (ha : slash ∉ a) :
    SplitN slash (a ++ slash :: rest) (n + 2) = a :: SplitN slash rest (n + 1) := by
  simp [SplitN, cut_segment a rest ha]

theorem ToLower_rest (lib : Stdlib) : ToLower lib (str "rest") = str "rest" := by rfl
theorem ToLower_REST (lib : Stdlib) : ToLower lib (str "REST") = str "rest" := by rfl
theorem str_rest_path : str "/rest/" = slash :: (str "rest" ++ [slash]) := by decide

/-! ## Routing lemmas -/

section routing
variable {σ : Type} (lib : Stdlib) (b : Backend σ)

theorem handler_database_path (n : Nat) (d m : GoString) (body : Except GoString GoString)
    (w : World σ) (hne : d ≠ []) (hd : slash ∉ d) :
    handler lib b ⟨m, List.replicate n slash ++ d, body⟩ w = handleDatabase lib b d m w := by
  have h1 : TrimLeft (List.replicate n slash ++ d) (str "/") = d := by
    rw [TrimLeft_slashes]
    simpa using TrimLeft_segment d [] hne hd
  simp only [handler, h1, SplitN_one_segment d 2 hd]

theorem handler_rest_path (n : Nat) (d rem m : GoString) (body : Except GoString GoString)
    (w : World σ) (hne : d ≠ []) (hd : slash ∉ d) :
    handler lib b ⟨m, List.replicate n slash ++ d ++ str "/rest/" ++ rem, body⟩ w =
      handleRest lib b d rem ⟨m, List.replicate n slash ++ d ++ str "/rest/" ++ rem, body⟩ w := by
  have hr : slash ∉ str "rest" := by decide
  have h1 : TrimLeft (List.replicate n slash ++ d ++ str "/rest/" ++ rem) (str "/") =
      d ++ slash :: (str "rest" ++ slash :: rem) := by
    rw [List.append_assoc, List.append_assoc, TrimLeft_slashes, TrimLeft_segment d _ hne hd,
      str_rest_path]
    simp
  have h2 : SplitN slash (d ++ slash :: (str "rest" ++ slash :: rem)) 3 = [d, str "rest", rem] := by
    rw [SplitN_cons_segment d _ 1 hd, SplitN_cons_segment (str "rest") _ 0 hr]
    rfl
  simp only [handler, h1, h2, ToLower_rest, if_true, List.headD_cons]

theorem handleRest_table (d t : GoString) (r : Request) (w w1 : World σ) (ht : slash ∉ t)
    (h1 : b.DbExists d w = (.ok true, w1)) :
    handleRest lib b d t r w = handleTable lib b d t r.Method w1 := by
  simp only [handleRest, h1, SplitN_one_segment t 1 ht]

theorem handleRest_row (d t k body : GoString) (r : Request) (w w1 w2 : World σ)
    (ht : slash ∉ t) (h1 : b.DbExists d w = (.ok true, w1))
    (h2 : b.TableExists d t w1 = (.ok true, w2)) (hb : r.Body = .ok body) :
    handleRest lib b d (t ++ str "/" ++ k) r w = handleRow b d t k body r.Method w2 := by
  have hs : SplitN slash (t ++ str "/" ++ k) 2 = [t, k] := by
    rw [str_slash, List.append_assoc, List.singleton_append, SplitN_cons_segment t k 0 ht]
    rfl
  simp only [handleRest, h1, hs, h2, hb]

theorem handleRest_row_unreadable (d t k e : GoString) (r : Request) (w w1 w2 : World σ)
    (ht : slash ∉ t) (h1 : b.DbExists d w = (.ok true, w1))
    (h2 : b.TableExists d t w1 = (.ok true, w2)) (hb : r.Body = .error e) :
    handleRest lib b d (t ++ str "/" ++ k) r w =
      (.responded (httpError (str "error reading message body") 500), w2) := by
  have hs : SplitN slash (t ++ str "/" ++ k) 2 = [t, k] := by
    rw [str_slash, List.append_assoc, List.singleton_append, SplitN_cons_segment t k 0 ht]
    rfl
  simp only [handleRest, h1, hs, h2, hb]

end routing

/-! ## Lemmas on the in-memory store -/

theorem assocGet_assocSet_self {β : Type} (k : GoString) (v : β) (l : List (GoString × β)) :
    assocGet k (assocSet k v l) = some v := by
  induction l with
  | nil => simp [assocSet, assocGet]
  | cons p l ih =>
    obtain ⟨k1, v1⟩ := p
    by_cases h : k1 = k
    · simp [assocSet, assocGet, h]
    · simp [assocSet, assocGet, h, ih]

theorem Store.db_set (s : Store) (d : GoString) (ts : Tables) :
    Store.db (assocSet d ts s) d = some ts :=
  assocGet_assocSet_self d ts s

theorem Store.table_set (s : Store) (d t : GoString) (ts : Tables) (rows : Rows) :
    Store.table (assocSet d (assocSet t rows ts) s) d t = some rows := by
  simp only [Store.table, Store.db_set, assocGet_assocSet_self]

theorem Store.row_set (s : Store) (d t k v : GoString) (ts : Tables) (rows : Rows) :
    Store.row (assocSet d (assocSet t (assocSet k v rows) ts) s) d t k = some v := by
  simp only [Store.row, Store.table_set, assocGet_assocSet_self]

theorem Store.table_of_db {s : Store} {d t : GoString} {ts : Tables} (h : s.db d = some ts) :
    s.table d t = assocGet t ts := by
  simp only [Store.table, h]

theorem Store.row_of_table {s : Store} {d t k : GoString} {rows : Rows}
    (h : s.table d t = some rows) : s.row d t k = assocGet k rows := by
  simp only [Store.row, h]

theorem Store.table_isSome_of_row {s : Store} {d t k : GoString}
    (h : (s.row d t k).isSome = true) : (s.table d t).isSome = true := by
  unfold Store.row at h
  cases h2 : s.table d t with
  | none => rw [h2] at h; exact absurd h (by simp)
  | some rows => rfl

theorem Store.db_isSome_of_table {s : Store} {d t : GoString}
    (h : (s.table d t).isSome = true) : (s.db d).isSome = true := by
  unfold Store.table at h
  cases h2 : s.db d with
  | none => rw [h2] at h; exact absurd h (by simp)
  | some ts => rfl

section mem
variable (eng : Store → GoString → GoString → Except GoString QueryResult)

theorem mem_DbExists (d : GoString) (s : Store) (tr : List Event) :
    (memBackend eng).DbExists d ⟨s, tr⟩ =
      (.ok (s.db d).isSome, ⟨s, tr ++ [⟨.dbExists d, .answered (s.db d).isSome⟩]⟩) := rfl

theorem mem_TableExists (d t : GoString) (s : Store) (tr : List Event) :
    (memBackend eng).TableExists d t ⟨s, tr⟩ =
      (.ok (s.table d t).isSome, ⟨s, tr ++ [⟨.tableExists d t, .answered (s.table d t).isSome⟩]⟩) :=
  rfl

theorem mem_RowExists (d t k : GoString) (s : Store) (tr : List Event) :
    (memBackend eng).RowExists d t k ⟨s, tr⟩ =
      (.ok (s.row d t k).isSome, ⟨s, tr ++ [⟨.rowExists d t k, .answered (s.row d t k).isSome⟩]⟩) :=
  rfl

theorem mem_Get (d t k v : GoString) (s : Store) (tr : List Event) (h : s.row d t k = some v) :
    (memBackend eng).Get d t k ⟨s, tr⟩ = (.ok v, ⟨s, tr ++ [⟨.rowGet d t k, .done⟩]⟩) := by
  simp only [Backend.Get, memBackend, h, World.after, Result.ofExcept]

theorem mem_Put (d t k v : GoString) (s : Store) (tr : List Event) (ts : Tables) (rows : Rows)
    (h1 : s.db d = some ts) (h2 : assocGet t ts = some rows) :
    (memBackend eng).Put d t k v ⟨s, tr⟩ =
      (.ok (), ⟨assocSet d (assocSet t (assocSet k v rows) ts) s,
        tr ++ [⟨.rowPut d t k v, .done⟩]⟩) := by
  simp only [Backend.Put, memBackend, h1, h2, World.after, Result.ofExcept]

theorem mem_Delete (d t k : GoString) (s : Store) (tr : List Event) (ts : Tables) (rows : Rows)
    (h1 : s.db d = some ts) (h2 : assocGet t ts = some rows) :
    (memBackend eng).Delete d t k ⟨s, tr⟩ =
      (.ok (), ⟨assocSet d (assocSet t (assocDel k rows) ts) s,
        tr ++ [⟨.rowDelete d t k, .done⟩]⟩) := by
  simp only [Backend.Delete, memBackend, h1, h2, World.after, Result.ofExcept]

theorem mem_DbCreate (d : GoString) (s : Store) (tr : List Event) (h : s.db d = none) :
    (memBackend eng).DbCreate d ⟨s, tr⟩ =
      (.ok (), ⟨assocSet d [] s, tr ++ [⟨.dbCreate d, .done⟩]⟩) := by
  simp only [Backend.DbCreate, memBackend, h, World.after, Result.ofExcept]

theorem mem_TableCreate (d t : GoString) (s : Store) (tr : List Event) (ts : Tables)
    (h1 : s.db d = some ts) (h2 : assocGet t ts = none) :
    (memBackend eng).TableCreate d t ⟨s, tr⟩ =
      (.ok (), ⟨assocSet d (assocSet t [] ts) s, tr ++ [⟨.tableCreate d t, .done⟩]⟩) := by
  simp only [Backend.TableCreate, memBackend, h1, h2, World.after, Result.ofExcept]

theorem mem_ListTables (d : GoString) (s : Store) (tr : List Event) (ts : Tables)
    (h : s.db d = some ts) :
    (memBackend eng).ListTables d ⟨s, tr⟩ =
      (.ok (ts.map Prod.fst), ⟨s, tr ++ [⟨.dbListTables d, .done⟩]⟩) := by
  simp only [Backend.ListTables, memBackend, h, World.after, Result.ofExcept]

theorem mem_Scan (d t : GoString) (s : Store) (tr : List Event) (rows : Rows)
    (h : s.table d t = some rows) :
    (memBackend eng).Scan d t ⟨s, tr⟩ =
      ((rows.map Prod.fst, none), ⟨s, tr ++ [⟨.tableScan d t, .done⟩]⟩) := by
  simp only [Backend.Scan, memBackend, h, World.after, Result.ofScan]

end mem

theorem str_slash_replicate : str "/" = List.replicate 1 slash := by decide

section urls
variable {σ : Type} (lib : Stdlib) (b : Backend σ)

theorem handler_database_url (d m : GoString) (body : Except GoString GoString) (w : World σ)
    (hne : d ≠ []) (hd : slash ∉ d) :
    handler lib b ⟨m, str "/" ++ d, body⟩ w = handleDatabase lib b d m w := by
  rw [str_slash_replicate]
  exact handler_database_path lib b 1 d m body w hne hd

theorem handler_table_url (d t m : GoString) (body : Except GoString GoString) (w w1 : World σ)
    (hne : d ≠ []) (hd : slash ∉ d) (ht : slash ∉ t) (h1 : b.DbExists d w = (.ok true, w1)) :
    handler lib b ⟨m, str "/" ++ d ++ str "/rest/" ++ t, body⟩ w = handleTable lib b d t m w1 := by
  rw [str_slash_replicate, handler_rest_path lib b 1 d t m body w hne hd]
  exact handleRest_table lib b d t _ w w1 ht h1

theorem handler_row_url (d t k m body : GoString) (w w1 w2 : World σ)
    (hne : d ≠ []) (hd : slash ∉ d) (ht : slash ∉ t)
    (h1 : b.DbExists d w = (.ok true, w1)) (h2 : b.TableExists d t w1 = (.ok true, w2)) :
    handler lib b ⟨m, str "/" ++ d ++ str "/rest/" ++ t ++ str "/" ++ k, .ok body⟩ w =
      handleRow b d t k body m w2 := by
  have := handler_rest_path lib b 1 d (t ++ str "/" ++ k) m (.ok body) w hne hd
  simp only [← List.append_assoc, ← str_slash_replicate] at this
  rw [this]
  exact handleRest_row lib b d t k body _ w w1 w2 ht h1 h2 rfl

theorem handler_row_url_unreadable (d t k m e : GoString) (w w1 w2 : World σ)
    (hne : d ≠ []) (hd : slash ∉ d) (ht : slash ∉ t)
    (h1 : b.DbExists d w = (.ok true, w1)) (h2 : b.TableExists d t w1 = (.ok true, w2)) :
    handler lib b ⟨m, str "/" ++ d ++ str "/rest/" ++ t ++ str "/" ++ k, .error e⟩ w =
      (.responded (httpError (str "error reading message body") 500), w2) := by
  have := handler_rest_path lib b 1 d (t ++ str "/" ++ k) m (.error e) w hne hd
  simp only [← List.append_assoc, ← str_slash_replicate] at this
  rw [this]
  exact handleRest_row_unreadable lib b d t k e _ w w1 w2 ht h1 h2 rfl

end urls

section memrun
variable (lib : Stdlib) (eng : Store → GoString → GoString → Except GoString QueryResult)

theorem mem_row_url (d t k m body : GoString) (s : Store) (tr : List Event)
    (hne : d ≠ []) (hd : slash ∉ d) (ht : slash ∉ t) (htab : (s.table d t).isSome = true) :
    handler lib (memBackend eng)
        ⟨m, str "/" ++ d ++ str "/rest/" ++ t ++ str "/" ++ k, .ok body⟩ ⟨s, tr⟩ =
      handleRow (memBackend eng) d t k body m
        ⟨s, tr ++ [⟨.dbExists d, .answered true⟩, ⟨.tableExists d t, .answered true⟩]⟩ := by
  have hdb := Store.db_isSome_of_table htab
  refine handler_row_url lib _ d t k m body _
    ⟨s, tr ++ [⟨.dbExists d, .answered true⟩]⟩ _ hne hd ht ?_ ?_
  · rw [mem_DbExists, hdb]
  · rw [mem_TableExists]
    simp only [htab, List.append_assoc, List.singleton_append]

theorem mem_row_url_unreadable (d t k m e : GoString) (s : Store) (tr : List Event)
    (hne : d ≠ []) (hd : slash ∉ d) (ht : slash ∉ t) (htab : (s.table d t).isSome = true) :
    handler lib (memBackend eng)
        ⟨m, str "/" ++ d ++ str "/rest/" ++ t ++ str "/" ++ k, .error e⟩ ⟨s, tr⟩ =
      (.responded (httpError (str "error reading message body") 500),
        ⟨s, tr ++ [⟨.dbExists d, .answered true⟩, ⟨.tableExists d t, .answered true⟩]⟩) := by
  have hdb := Store.db_isSome_of_table htab
  refine handler_row_url_unreadable lib _ d t k m e _
    ⟨s, tr ++ [⟨.dbExists d, .answered true⟩]⟩ _ hne hd ht ?_ ?_
  · rw [mem_DbExists, hdb]
  · rw [mem_TableExists]
    simp only [htab, List.append_assoc, List.singleton_append]

theorem mem_row_put_existing (d t k B : GoString) (s : Store) (tr : List Event) (ts : Tables)
    (rows : Rows) (hts : s.db d = some ts) (hrows : assocGet t ts = some rows)
    (hrow : (s.row d t k).isSome = true) :
    handleRow (memBackend eng) d t k B (str "PUT") ⟨s, tr⟩ =
      (.responded emptyOK, ⟨assocSet d (assocSet t (assocSet k B rows) ts) s,
        tr ++ [⟨.rowExists d t k, .answered true⟩, ⟨.rowPut d t k B, .done⟩]⟩) := by
  have e1 : str "PUT" ≠ str "GET" := by decide
  simp only [handleRow, rowGate, true_or, or_true, if_true, mem_RowExists, hrow, rowAct, e1,
      if_false, mem_Put eng d t k B _ _ ts rows hts hrows, List.append_assoc,
      List.singleton_append]

theorem mem_row_get_existing (d t k g v : GoString) (s : Store) (tr : List Event)
    (hrow : s.row d t k = some v) :
    handleRow (memBackend eng) d t k g (str "GET") ⟨s, tr⟩ =
      (.responded (writeRaw v), ⟨s,
        tr ++ [⟨.rowExists d t k, .answered true⟩, ⟨.rowGet d t k, .done⟩]⟩) := by
  simp only [handleRow, rowGate, true_or, if_true, mem_RowExists, hrow, Option.isSome_some,
    rowAct, mem_Get eng d t k v _ _ hrow, List.append_assoc, List.singleton_append]

end memrun

/-! ## Runs of the handlers on the in-memory store -/

theorem POST_ne_GET : str "POST" ≠ str "GET" := by decide
theorem PUT_ne_GET : str "PUT" ≠ str "GET" := by decide
theorem PUT_ne_POST : str "PUT" ≠ str "POST" := by decide
theorem DELETE_ne_GET : str "DELETE" ≠ str "GET" := by decide
theorem DELETE_ne_POST : str "DELETE" ≠ str "POST" := by decide
theorem DELETE_ne_PUT : str "DELETE" ≠ str "PUT" := by decide
theorem POST_ne_PUT : str "POST" ≠ str "PUT" := by decide
theorem POST_ne_DELETE : str "POST" ≠ str "DELETE" := by decide

theorem assocGet_assocDel_self {β : Type} (k : GoString) (l : List (GoString × β)) :
    assocGet k (assocDel k l) = none := by
  induction l with
  | nil => rfl
  | cons p l ih =>
    obtain ⟨k1, v1⟩ := p
    by_cases h : k1 = k
    · simp only [assocDel, h, if_true, ih]
    · simp only [assocDel, h, if_false, assocGet, ih]

section memlevels
variable (lib : Stdlib) (eng : Store → GoString → GoString → Except GoString QueryResult)

/-! ### Database level -/

theorem mem_db_get_missing (d : GoString) (s : Store) (tr : List Event) (h : s.db d = none) :
    handleDatabase lib (memBackend eng) d (str "GET") ⟨s, tr⟩ =
      (.responded (httpError (str "db doesn't exist") 404),
        ⟨s, tr ++ [⟨.dbExists d, .answered false⟩]⟩) := by
  simp only [handleDatabase, if_true, mem_DbExists, h, Option.isSome_none]

theorem mem_db_get (d : GoString) (s : Store) (tr : List Event) (ts : Tables)
    (h : s.db d = some ts) :
    handleDatabase lib (memBackend eng) d (str "GET") ⟨s, tr⟩ =
      (.responded (writeJSON (marshalStrings lib
          ((ts.map Prod.fst).map (fun n => str "//" ++ d ++ str "/" ++ n)))),
        ⟨s, tr ++ [⟨.dbExists d, .answered true⟩, ⟨.dbListTables d, .done⟩]⟩) := by
  simp only [handleDatabase, if_true, mem_DbExists, h, Option.isSome_some,
    mem_ListTables eng d _ _ ts h, List.append_assoc, List.singleton_append]

theorem mem_db_post_missing (d : GoString) (s : Store) (tr : List Event) (h : s.db d = none) :
    handleDatabase lib (memBackend eng) d (str "POST") ⟨s, tr⟩ =
      (.responded emptyOK,
        ⟨assocSet d [] s, tr ++ [⟨.dbExists d, .answered false⟩, ⟨.dbCreate d, .done⟩]⟩) := by
  simp only [handleDatabase, POST_ne_GET, if_false, if_true, mem_DbExists, h,
    Option.isSome_none, mem_DbCreate eng d _ _ h, List.append_assoc, List.singleton_append]

theorem mem_db_post_existing (d : GoString) (s : Store) (tr : List Event)
    (h : (s.db d).isSome = true) :
    handleDatabase lib (memBackend eng) d (str "POST") ⟨s, tr⟩ =
      (.responded (httpError (str "database already exists") 409),
        ⟨s, tr ++ [⟨.dbExists d, .answered true⟩]⟩) := by
  simp only [handleDatabase, POST_ne_GET, if_false, if_true, mem_DbExists, h]

/-! ### The gates of the rest route -/

theorem mem_rest_db_missing (d rem m : GoString) (body : Except GoString GoString) (s : Store)
    (tr : List Event) (hne : d ≠ []) (hd : slash ∉ d) (h : s.db d = none) :
    handler lib (memBackend eng) ⟨m, str "/" ++ d ++ str "/rest/" ++ rem, body⟩ ⟨s, tr⟩ =
      (.responded (httpError (str "database doesn't exist") 404),
        ⟨s, tr ++ [⟨.dbExists d, .answered false⟩]⟩) := by
  rw [str_slash_replicate, handler_rest_path lib _ 1 d rem m body _ hne hd]
  simp only [handleRest, mem_DbExists, h, Option.isSome_none]

theorem mem_table_url (d t m : GoString) (body : Except GoString GoString) (s : Store)
    (tr : List Event) (hne : d ≠ []) (hd : slash ∉ d) (ht : slash ∉ t)
    (h : (s.db d).isSome = true) :
    handler lib (memBackend eng) ⟨m, str "/" ++ d ++ str "/rest/" ++ t, body⟩ ⟨s, tr⟩ =
      handleTable lib (memBackend eng) d t m ⟨s, tr ++ [⟨.dbExists d, .answered true⟩]⟩ := by
  refine handler_table_url lib _ d t m body _ _ hne hd ht ?_
  rw [mem_DbExists, h]

theorem mem_row_table_missing (d t k m : GoString) (body : Except GoString GoString)
    (s : Store) (tr : List Event) (hne : d ≠ []) (hd : slash ∉ d) (ht : slash ∉ t)
    (h1 : (s.db d).isSome = true) (h2 : s.table d t = none) :
    handler lib (memBackend eng)
        ⟨m, str "/" ++ d ++ str "/rest/" ++ t ++ str "/" ++ k, body⟩ ⟨s, tr⟩ =
      (.responded (httpError (str "table doesn't exist") 404),
        ⟨s, tr ++ [⟨.dbExists d, .answered true⟩, ⟨.tableExists d t, .answered false⟩]⟩) := by
  have hs : SplitN slash (t ++ str "/" ++ k) 2 = [t, k] := by
    rw [str_slash, List.append_assoc, List.singleton_append, SplitN_cons_segment t k 0 ht]
    rfl
  have := handler_rest_path lib (memBackend eng) 1 d (t ++ str "/" ++ k) m body ⟨s, tr⟩ hne hd
  simp only [← List.append_assoc, ← str_slash_replicate] at this
  rw [this]
  simp only [handleRest, mem_DbExists, h1, hs, mem_TableExists, h2, Option.isSome_none]
  simp only [List.append_assoc, List.singleton_append]

/-! ### Table level -/

theorem mem_table_get_missing (d t : GoString) (s : Store) (tr : List Event)
    (h : s.table d t = none) :
    handleTable lib (memBackend eng) d t (str "GET") ⟨s, tr⟩ =
      (.responded (httpError (str "table doesn't exist") 404),
        ⟨s, tr ++ [⟨.tableExists d t, .answered false⟩]⟩) := by
  simp only [handleTable, if_true, mem_TableExists, h, Option.isSome_none]

theorem mem_table_get (d t : GoString) (s : Store) (tr : List Event) (rows : Rows)
    (h : s.table d t = some rows) :
    handleTable lib (memBackend eng) d t (str "GET") ⟨s, tr⟩ =
      (.responded (writeJSON (marshalStrings lib
          ((rows.map Prod.fst).map (fun k => str "//" ++ d ++ str "/" ++ t ++ str "/" ++ k)))),
        ⟨s, tr ++ [⟨.tableExists d t, .answered true⟩, ⟨.tableScan d t, .done⟩]⟩) := by
  simp only [handleTable, if_true, mem_TableExists, h, Option.isSome_some,
    mem_Scan eng d t _ _ rows h, List.append_assoc, List.singleton_append]

theorem mem_table_post_missing (d t : GoString) (s : Store) (tr : List Event) (ts : Tables)
    (h1 : s.db d = some ts) (h2 : assocGet t ts = none) :
    handleTable lib (memBackend eng) d t (str "POST") ⟨s, tr⟩ =
      (.responded emptyOK, ⟨assocSet d (assocSet t [] ts) s,
        tr ++ [⟨.tableExists d t, .answered false⟩, ⟨.tableCreate d t, .done⟩]⟩) := by
  have h3 : s.table d t = none := by rw [Store.table_of_db h1, h2]
  simp only [handleTable, POST_ne_GET, if_false, if_true, mem_TableExists, h3,
    Option.isSome_none, mem_TableCreate eng d t _ _ ts h1 h2, List.append_assoc,
    List.singleton_append]

theorem mem_table_post_existing (d t : GoString) (s : Store) (tr : List Event)
    (h : (s.table d t).isSome = true) :
    handleTable lib (memBackend eng) d t (str "POST") ⟨s, tr⟩ =
      (.responded (httpError (str "table already exists") 409),
        ⟨s, tr ++ [⟨.tableExists d t, .answered true⟩]⟩) := by
  simp only [handleTable, POST_ne_GET, if_false, if_true, mem_TableExists, h]

/-! ### Row level -/

theorem mem_row_missing (d t k B m : GoString) (s : Store) (tr : List Event)
    (hm : m = str "GET" ∨ m = str "PUT" ∨ m = str "DELETE") (h : s.row d t k = none) :
    handleRow (memBackend eng) d t k B m ⟨s, tr⟩ =
      (.responded (httpError (str "specified row does not exist") 404),
        ⟨s, tr ++ [⟨.rowExists d t k, .answered false⟩]⟩) := by
  simp only [handleRow, rowGate, hm, if_true, mem_RowExists, h, Option.isSome_none]

theorem mem_row_post_existing (d t k B : GoString) (s : Store) (tr : List Event)
    (h : (s.row d t k).isSome = true) :
    handleRow (memBackend eng) d t k B (str "POST") ⟨s, tr⟩ =
      (.responded (httpError (str "specified row already exists") 409),
        ⟨s, tr ++ [⟨.rowExists d t k, .answered true⟩]⟩) := by
  simp only [handleRow, rowGate, POST_ne_GET, POST_ne_PUT, POST_ne_DELETE, or_self, if_false,
    if_true, mem_RowExists, h]

theorem mem_row_post_missing (d t k B : GoString) (s : Store) (tr : List Event) (ts : Tables)
    (rows : Rows) (hts : s.db d = some ts) (hrows : assocGet t ts = some rows)
    (hrow : s.row d t k = none) :
    handleRow (memBackend eng) d t k B (str "POST") ⟨s, tr⟩ =
      (.responded emptyOK, ⟨assocSet d (assocSet t (assocSet k B rows) ts) s,
        tr ++ [⟨.rowExists d t k, .answered false⟩, ⟨.rowPut d t k B, .done⟩]⟩) := by
  simp only [handleRow, rowGate, POST_ne_GET, POST_ne_PUT, POST_ne_DELETE, or_self, if_false,
    if_true, mem_RowExists, hrow, Option.isSome_none, rowAct, true_or,
    mem_Put eng d t k B _ _ ts rows hts hrows, List.append_assoc, List.singleton_append]

theorem mem_row_delete_existing (d t k B : GoString) (s : Store) (tr : List Event)
    (ts : Tables) (rows : Rows) (hts : s.db d = some ts) (hrows : assocGet t ts = some rows)
    (hrow : (s.row d t k).isSome = true) :
    handleRow (memBackend eng) d t k B (str "DELETE") ⟨s, tr⟩ =
      (.responded emptyOK, ⟨assocSet d (assocSet t (assocDel k rows) ts) s,
        tr ++ [⟨.rowExists d t k, .answered true⟩, ⟨.rowDelete d t k, .done⟩]⟩) := by
  simp only [handleRow, rowGate, or_true, if_true, mem_RowExists, hrow, rowAct, DELETE_ne_GET,
    DELETE_ne_POST, DELETE_ne_PUT, or_self, if_false,
    mem_Delete eng d t k _ _ ts rows hts hrows, List.append_assoc, List.singleton_append]

end memlevels

/-! ## Requests that are turned down -/

theorem handleDatabase_other {σ : Type} (lib : Stdlib) (b : Backend σ) (d m : GoString)
    (w : World σ) (h1 : m ≠ str "GET") (h2 : m ≠ str "POST") :
    handleDatabase lib b d m w =
      (.responded (httpError (str "unsupported method for database") 400), w) := by
  simp only [handleDatabase, h1, h2, if_false]

theorem handleTable_other {σ : Type} (lib : Stdlib) (b : Backend σ) (d t m : GoString)
    (w : World σ) (h1 : m ≠ str "GET") (h2 : m ≠ str "POST") :
    handleTable lib b d t m w =
      (.responded (httpError (str "unsupported method for database") 400), w) := by
  simp only [handleTable, h1, h2, if_false]

theorem Rejects_of_run {lib : Stdlib} {b : Backend Store} {r : Request} {s : Store} {code : Nat}
    {msg : GoString} {tr : List Event}
    (h : handler lib b r ⟨s, []⟩ = (.responded (httpError msg code), ⟨s, tr⟩))
    (htr : ∀ e ∈ tr, e.call.mutating = false) : Rejects lib b r s code := by
  unfold Rejects
  rw [h]
  exact ⟨rfl, rfl, htr⟩

theorem row_url_assoc (d t k : GoString) :
    str "/" ++ d ++ str "/rest/" ++ t ++ str "/" ++ k =
      str "/" ++ d ++ str "/rest/" ++ (t ++ str "/" ++ k) := by
  simp only [List.append_assoc]

/-! ## The calls a request makes, for an arbitrary backing store -/

section traces
variable {σ : Type} (lib : Stdlib) (b : Backend σ)

theorem DbExists_eq (d : GoString) (w : World σ) :
    ∃ r s1, b.DbExists d w = (r, ⟨s1, w.trace ++ [⟨.dbExists d, .ofExists r⟩]⟩) := ⟨_, _, rfl⟩

theorem ListTables_eq (d : GoString) (w : World σ) :
    ∃ r s1, b.ListTables d w = (r, ⟨s1, w.trace ++ [⟨.dbListTables d, .ofExcept r⟩]⟩) :=
  ⟨_, _, rfl⟩

theorem DbCreate_eq (d : GoString) (w : World σ) :
    ∃ r s1, b.DbCreate d w = (r, ⟨s1, w.trace ++ [⟨.dbCreate d, .ofExcept r⟩]⟩) := ⟨_, _, rfl⟩

theorem Exec_eq (d q : GoString) (w : World σ) :
    ∃ r s1, b.Exec d q w = (r, ⟨s1, w.trace ++ [⟨.dbExec d q, .ofQuery r⟩]⟩) := ⟨_, _, rfl⟩

theorem TableExists_eq (d t : GoString) (w : World σ) :
    ∃ r s1, b.TableExists d t w = (r, ⟨s1, w.trace ++ [⟨.tableExists d t, .ofExists r⟩]⟩) :=
  ⟨_, _, rfl⟩

theorem Scan_eq (d t : GoString) (w : World σ) :
    ∃ r s1, b.Scan d t w = (r, ⟨s1, w.trace ++ [⟨.tableScan d t, .ofScan r⟩]⟩) := ⟨_, _, rfl⟩

theorem TableCreate_eq (d t : GoString) (w : World σ) :
    ∃ r s1, b.TableCreate d t w = (r, ⟨s1, w.trace ++ [⟨.tableCreate d t, .ofExcept r⟩]⟩) :=
  ⟨_, _, rfl⟩

theorem RowExists_eq (d t k : GoString) (w : World σ) :
    ∃ r s1, b.RowExists d t k w = (r, ⟨s1, w.trace ++ [⟨.rowExists d t k, .ofExists r⟩]⟩) :=
  ⟨_, _, rfl⟩

theorem Get_eq (d t k : GoString) (w : World σ) :
    ∃ r s1, b.Get d t k w = (r, ⟨s1, w.trace ++ [⟨.rowGet d t k, .ofExcept r⟩]⟩) := ⟨_, _, rfl⟩

theorem Put_eq (d t k v : GoString) (w : World σ) :
    ∃ r s1, b.Put d t k v w = (r, ⟨s1, w.trace ++ [⟨.rowPut d t k v, .ofExcept r⟩]⟩) :=
  ⟨_, _, rfl⟩

theorem Delete_eq (d t k : GoString) (w : World σ) :
    ∃ r s1, b.Delete d t k w = (r, ⟨s1, w.trace ++ [⟨.rowDelete d t k, .ofExcept r⟩]⟩) :=
  ⟨_, _, rfl⟩

theorem rowAct_trace (d t k body m : GoString) (w : World σ) :
    ∃ ext, (rowAct b d t k body m w).2.trace = w.trace ++ ext ∧
      ∀ e ∈ ext, e.call.isRowCall = true := by
  unfold rowAct
  split_ifs
  · obtain ⟨r, s1, h⟩ := Get_eq b d t k w
    rw [h]
    cases r <;> exact ⟨_, rfl, by simp [Call.isRowCall]⟩
  · obtain ⟨r, s1, h⟩ := Put_eq b d t k body w
    rw [h]
    cases r <;> exact ⟨_, rfl, by simp [Call.isRowCall]⟩
  · obtain ⟨r, s1, h⟩ := Delete_eq b d t k w
    rw [h]
    cases r <;> exact ⟨_, rfl, by simp [Call.isRowCall]⟩
  · exact ⟨[], by simp, by simp⟩

/-- The existence gate of a row makes at most one call, the row existence
check, and lets control through only with no call or after that check
succeeded. -/
theorem rowGate_trace (d t k m : GoString) (w : World σ) :
    ∃ ext, (rowGate b d t k m w).2.trace = w.trace ++ ext ∧
      ∀ e ∈ ext, e.call.isRowCall = true := by
  unfold rowGate
  split_ifs
  · obtain ⟨r, s1, h⟩ := RowExists_eq b d t k w
    rw [h]
    rcases r with _ | _ | _ <;> exact ⟨_, rfl, by simp [Call.isRowCall]⟩
  · obtain ⟨r, s1, h⟩ := RowExists_eq b d t k w
    rw [h]
    rcases r with _ | _ | _ <;> exact ⟨_, rfl, by simp [Call.isRowCall]⟩
  · exact ⟨[], by simp, by simp⟩

theorem handleRow_trace (d t k body m : GoString) (w : World σ) :
    ∃ ext, (handleRow b d t k body m w).2.trace = w.trace ++ ext ∧
      ∀ e ∈ ext, e.call.isRowCall = true := by
  unfold handleRow
  obtain ⟨ext1, h1, p1⟩ := rowGate_trace b d t k m w
  rcases hg : rowGate b d t k m w with ⟨_ | r, w1⟩
  · rw [hg] at h1
    obtain ⟨ext2, h2, p2⟩ := rowAct_trace b d t k body m w1
    refine ⟨ext1 ++ ext2, ?_, ?_⟩
    · show (rowAct b d t k body m w1).2.trace = _
      rw [h2, h1, List.append_assoc]
    · intro e he
      rcases List.mem_append.mp he with he | he
      · exact p1 e he
      · exact p2 e he
  · rw [hg] at h1
    exact ⟨ext1, h1, p1⟩

theorem handleTable_trace (d t m : GoString) (w : World σ) :
    ∃ ext, (handleTable lib b d t m w).2.trace = w.trace ++ ext ∧
      ∀ e ∈ ext, e.call.isTableCall = true := by
  unfold handleTable
  split_ifs
  · obtain ⟨r, s1, h⟩ := TableExists_eq b d t w
    rw [h]
    rcases r with _ | _ | _
    · exact ⟨_, rfl, by simp [Call.isTableCall]⟩
    · exact ⟨_, rfl, by simp [Call.isTableCall]⟩
    · obtain ⟨⟨keys, err⟩, s2, h2⟩ :=
        Scan_eq b d t ⟨s1, w.trace ++ [⟨.tableExists d t, .ofExists (.ok true)⟩]⟩
      simp only [h2]
      exact ⟨[⟨.tableExists d t, .ofExists (.ok true)⟩, ⟨.tableScan d t, .ofScan (keys, err)⟩],
        by simp, by simp [Call.isTableCall]⟩
  · obtain ⟨r, s1, h⟩ := TableExists_eq b d t w
    rw [h]
    rcases r with _ | _ | _
    · exact ⟨_, rfl, by simp [Call.isTableCall]⟩
    · obtain ⟨r2, s2, h2⟩ :=
        TableCreate_eq b d t ⟨s1, w.trace ++ [⟨.tableExists d t, .ofExists (.ok false)⟩]⟩
      simp only [h2]
      refine ⟨[⟨.tableExists d t, .ofExists (.ok false)⟩, ⟨.tableCreate d t, .ofExcept r2⟩],
        ?_, by simp [Call.isTableCall]⟩
      cases r2 <;> simp
    · exact ⟨_, rfl, by simp [Call.isTableCall]⟩
  · exact ⟨[], by simp, by simp⟩

/-- The calls of a request on the rest route: first the database existence
check; then nothing more, or (the check having answered true) the calls of
`handleTable`, or the table existence check followed by nothing more or (that
check having answered true) by the calls of `handleRow`. -/
theorem handleRest_trace (d rem : GoString) (r : Request) (w : World σ) :
    ∃ res ext, (handleRest lib b d rem r w).2.trace = w.trace ++ ⟨.dbExists d, res⟩ :: ext ∧
      (ext ≠ [] → res = .answered true) ∧
      ((∀ e ∈ ext, e.call.isTableCall = true) ∨
        ∃ t res2 ext2, ext = ⟨.tableExists d t, res2⟩ :: ext2 ∧
          (ext2 ≠ [] → res2 = .answered true) ∧ ∀ e ∈ ext2, e.call.isRowCall = true) := by
  unfold handleRest
  obtain ⟨r1, s1, h1⟩ := DbExists_eq b d w
  simp only [h1]
  rcases r1 with _ | _ | _
  · exact ⟨_, [], rfl, by simp, Or.inl (by simp)⟩
  · exact ⟨_, [], rfl, by simp, Or.inl (by simp)⟩
  · rcases hs : SplitN slash rem 2 with _ | ⟨tableName, _ | ⟨key, more⟩⟩
    · exact ⟨_, [], rfl, by simp, Or.inl (by simp)⟩
    · obtain ⟨ext, he, pe⟩ := handleTable_trace lib b d tableName r.Method
        ⟨s1, w.trace ++ [⟨.dbExists d, .ofExists (.ok true)⟩]⟩
      exact ⟨.answered true, ext, he.trans (by simp [Result.ofExists]), fun _ => rfl, Or.inl pe⟩
    · obtain ⟨r2, s2, h2⟩ := TableExists_eq b d tableName
        ⟨s1, w.trace ++ [⟨.dbExists d, .ofExists (.ok true)⟩]⟩
      simp only [h2]
      rcases r2 with _ | _ | _
      · exact ⟨.answered true, [⟨.tableExists d tableName, .failed⟩], by simp [Result.ofExists],
          fun _ => rfl, Or.inr ⟨tableName, _, [], rfl, by simp, by simp⟩⟩
      · exact ⟨.answered true, [⟨.tableExists d tableName, .answered false⟩],
          by simp [Result.ofExists], fun _ => rfl, Or.inr ⟨tableName, _, [], rfl, by simp, by simp⟩⟩
      · rcases hb : r.Body with _ | body
        · exact ⟨.answered true, [⟨.tableExists d tableName, .answered true⟩],
            by simp [Result.ofExists], fun _ => rfl,
            Or.inr ⟨tableName, _, [], rfl, by simp, by simp⟩⟩
        · obtain ⟨ext, he, pe⟩ := handleRow_trace b d tableName key body r.Method
            ⟨s2, w.trace ++ [⟨.dbExists d, .ofExists (.ok true)⟩] ++
              [⟨.tableExists d tableName, .ofExists (.ok true)⟩]⟩
          exact ⟨.answered true, ⟨.tableExists d tableName, .answered true⟩ :: ext,
            he.trans (by simp [Result.ofExists]), fun _ => rfl,
            Or.inr ⟨tableName, _, ext, rfl, fun _ => rfl, pe⟩⟩

end traces

theorem Call.not_dbExists_of_tableCall {c : Call} (h : c.isTableCall = true) :
    c.isDbExists = false := by
  cases c <;> first | rfl | exact absurd h Bool.false_ne_true

theorem Call.not_dbExists_of_rowCall {c : Call} (h : c.isRowCall = true) :
    c.isDbExists = false := by
  cases c <;> first | rfl | exact absurd h Bool.false_ne_true

theorem Call.not_rowCall_of_tableCall {c : Call} (h : c.isTableCall = true) :
    c.isRowCall = false := by
  cases c <;> first | rfl | exact absurd h Bool.false_ne_true

/-! ## A call that returns an error is answered 500 -/

section failures
variable {σ : Type} (lib : Stdlib) (b : Backend σ)

theorem rowGate_failed (d t k m : GoString) (w : World σ) :
    ∃ ext, (rowGate b d t k m w).2.trace = w.trace ++ ext ∧
      ((∃ r, (rowGate b d t k m w).1 = some r ∧ r.status = 500) ∨
        ∀ e ∈ ext, e.result ≠ .failed) := by
  unfold rowGate
  split_ifs
  · obtain ⟨r, s1, h⟩ := RowExists_eq b d t k w
    rw [h]
    rcases r with _ | _ | _
    · exact ⟨_, rfl, Or.inl ⟨_, rfl, rfl⟩⟩
    · exact ⟨_, rfl, Or.inr (by simp [Result.ofExists])⟩
    · exact ⟨_, rfl, Or.inr (by simp [Result.ofExists])⟩
  · obtain ⟨r, s1, h⟩ := RowExists_eq b d t k w
    rw [h]
    rcases r with _ | _ | _
    · exact ⟨_, rfl, Or.inl ⟨_, rfl, rfl⟩⟩
    · exact ⟨_, rfl, Or.inr (by simp [Result.ofExists])⟩
    · exact ⟨_, rfl, Or.inr (by simp [Result.ofExists])⟩
  · exact ⟨[], by simp, Or.inr (by simp)⟩

theorem rowAct_failed (d t k body m : GoString) (w : World σ) :
    ∃ ext, (rowAct b d t k body m w).2.trace = w.trace ++ ext ∧
      ((rowAct b d t k body m w).1.status = some 500 ∨ ∀ e ∈ ext, e.result ≠ .failed) := by
  unfold rowAct
  split_ifs
  · obtain ⟨r, s1, h⟩ := Get_eq b d t k w
    rw [h]
    cases r
    · exact ⟨_, rfl, Or.inl rfl⟩
    · exact ⟨_, rfl, Or.inr (by simp [Result.ofExcept])⟩
  · obtain ⟨r, s1, h⟩ := Put_eq b d t k body w
    rw [h]
    cases r
    · exact ⟨_, rfl, Or.inl rfl⟩
    · exact ⟨_, rfl, Or.inr (by simp [Result.ofExcept])⟩
  · obtain ⟨r, s1, h⟩ := Delete_eq b d t k w
    rw [h]
    cases r
    · exact ⟨_, rfl, Or.inl rfl⟩
    · exact ⟨_, rfl, Or.inr (by simp [Result.ofExcept])⟩
  · exact ⟨[], by simp, Or.inr (by simp)⟩

theorem handleRow_failed (d t k body m : GoString) (w : World σ) :
    ∃ ext, (handleRow b d t k body m w).2.trace = w.trace ++ ext ∧
      ((handleRow b d t k body m w).1.status = some 500 ∨ ∀ e ∈ ext, e.result ≠ .failed) := by
  unfold handleRow
  obtain ⟨ext1, h1, p1⟩ := rowGate_failed b d t k m w
  rcases hg : rowGate b d t k m w with ⟨_ | r, w1⟩
  · rw [hg] at h1 p1
    have q1 : ∀ e ∈ ext1, e.result ≠ .failed := by
      rcases p1 with ⟨r, hr, _⟩ | p1
      · exact absurd hr (by simp)
      · exact p1
    obtain ⟨ext2, h2, p2⟩ := rowAct_failed b d t k body m w1
    refine ⟨ext1 ++ ext2, ?_, ?_⟩
    · show (rowAct b d t k body m w1).2.trace = _
      rw [h2, h1, List.append_assoc]
    · rcases p2 with p2 | p2
      · exact Or.inl p2
      · refine Or.inr (fun e he => ?_)
        rcases List.mem_append.mp he with he | he
        · exact q1 e he
        · exact p2 e he
  · rw [hg] at h1 p1
    refine ⟨ext1, h1, ?_⟩
    rcases p1 with ⟨r2, hr, hs⟩ | p1
    · simp only [Option.some.injEq] at hr
      subst hr
      exact Or.inl (congrArg some hs)
    · exact Or.inr p1

theorem handleTable_failed (d t m : GoString) (w : World σ) :
    ∃ ext, (handleTable lib b d t m w).2.trace = w.trace ++ ext ∧
      ((handleTable lib b d t m w).1.status = some 500 ∨ ∀ e ∈ ext, e.result ≠ .failed) := by
  unfold handleTable
  split_ifs
  · obtain ⟨r, s1, h⟩ := TableExists_eq b d t w
    rw [h]
    rcases r with _ | _ | _
    · exact ⟨_, rfl, Or.inl rfl⟩
    · exact ⟨_, rfl, Or.inr (by simp [Result.ofExists])⟩
    · obtain ⟨⟨keys, err⟩, s2, h2⟩ :=
        Scan_eq b d t ⟨s1, w.trace ++ [⟨.tableExists d t, .ofExists (.ok true)⟩]⟩
      simp only [h2]
      refine ⟨[⟨.tableExists d t, .ofExists (.ok true)⟩, ⟨.tableScan d t, .ofScan (keys, err)⟩],
        by simp, Or.inr ?_⟩
      cases err <;> simp [Result.ofExists, Result.ofScan]
  · obtain ⟨r, s1, h⟩ := TableExists_eq b d t w
    rw [h]
    rcases r with _ | _ | _
    · exact ⟨_, rfl, Or.inl rfl⟩
    · obtain ⟨r2, s2, h2⟩ :=
        TableCreate_eq b d t ⟨s1, w.trace ++ [⟨.tableExists d t, .ofExists (.ok false)⟩]⟩
      simp only [h2]
      cases r2
      · exact ⟨[⟨.tableExists d t, .ofExists (.ok false)⟩, ⟨.tableCreate d t, .failed⟩],
          by simp [Result.ofExcept], Or.inl rfl⟩
      · exact ⟨[⟨.tableExists d t, .ofExists (.ok false)⟩, ⟨.tableCreate d t, .done⟩],
          by simp [Result.ofExcept], Or.inr (by simp [Result.ofExists])⟩
    · exact ⟨_, rfl, Or.inr (by simp [Result.ofExists])⟩
  · exact ⟨[], by simp, Or.inr (by simp)⟩

theorem handleDatabase_failed (d m : GoString) (w : World σ) :
    ∃ ext, (handleDatabase lib b d m w).2.trace = w.trace ++ ext ∧
      ((handleDatabase lib b d m w).1.status = some 500 ∨ ∀ e ∈ ext, e.result ≠ .failed) := by
  unfold handleDatabase
  split_ifs
  · obtain ⟨r, s1, h⟩ := DbExists_eq b d w
    rw [h]
    rcases r with _ | _ | _
    · exact ⟨_, rfl, Or.inl rfl⟩
    · exact ⟨_, rfl, Or.inr (by simp [Result.ofExists])⟩
    · obtain ⟨r2, s2, h2⟩ :=
        ListTables_eq b d ⟨s1, w.trace ++ [⟨.dbExists d, .ofExists (.ok true)⟩]⟩
      simp only [h2]
      cases r2
      · exact ⟨[⟨.dbExists d, .ofExists (.ok true)⟩, ⟨.dbListTables d, .failed⟩],
          by simp [Result.ofExcept], Or.inl rfl⟩
      · exact ⟨[⟨.dbExists d, .ofExists (.ok true)⟩, ⟨.dbListTables d, .done⟩],
          by simp [Result.ofExcept], Or.inr (by simp [Result.ofExists])⟩
  · obtain ⟨r, s1, h⟩ := DbExists_eq b d w
    rw [h]
    rcases r with _ | _ | _
    · exact ⟨_, rfl, Or.inl rfl⟩
    · obtain ⟨r2, s2, h2⟩ :=
        DbCreate_eq b d ⟨s1, w.trace ++ [⟨.dbExists d, .ofExists (.ok false)⟩]⟩
      simp only [h2]
      cases r2
      · exact ⟨[⟨.dbExists d, .ofExists (.ok false)⟩, ⟨.dbCreate d, .failed⟩],
          by simp [Result.ofExcept], Or.inl rfl⟩
      · exact ⟨[⟨.dbExists d, .ofExists (.ok false)⟩, ⟨.dbCreate d, .done⟩],
          by simp [Result.ofExcept], Or.inr (by simp [Result.ofExists])⟩
    · exact ⟨_, rfl, Or.inr (by simp [Result.ofExists])⟩
  · exact ⟨[], by simp, Or.inr (by simp)⟩

theorem handleQuery_failed (d q : GoString) (r : Request) (w : World σ) :
    ∃ ext, (handleQuery lib b d q r w).2.trace = w.trace ++ ext ∧
      ((handleQuery lib b d q r w).1.status = some 500 ∨ ∀ e ∈ ext, e.result ≠ .failed) := by
  unfold handleQuery
  split_ifs
  · exact ⟨[], by simp, Or.inr (by simp)⟩
  · obtain ⟨r1, s1, h⟩ := Exec_eq b d q w
    rw [h]
    cases r1 with
    | error err => exact ⟨_, rfl, Or.inl rfl⟩
    | ok res =>
      have hq : ∀ e ∈ [(⟨.dbExec d q, .ofQuery (.ok res)⟩ : Event)], e.result ≠ .failed := by
        intro e he
        simp only [List.mem_singleton] at he
        subst he
        simp only [Result.ofQuery]
        split_ifs <;> simp
      cases hc : collectRows res.headers res.rows with
      | none => exact ⟨_, by simp only [hc], Or.inr hq⟩
      | some results => exact ⟨_, by simp only [hc], Or.inr hq⟩

theorem handleRest_failed (d rem : GoString) (r : Request) (w : World σ) :
    ∃ ext, (handleRest lib b d rem r w).2.trace = w.trace ++ ext ∧
      ((handleRest lib b d rem r w).1.status = some 500 ∨ ∀ e ∈ ext, e.result ≠ .failed) := by
  unfold handleRest
  obtain ⟨r1, s1, h1⟩ := DbExists_eq b d w
  simp only [h1]
  rcases r1 with _ | _ | _
  · exact ⟨_, rfl, Or.inl rfl⟩
  · exact ⟨_, rfl, Or.inr (by simp [Result.ofExists])⟩
  · rcases hs : SplitN slash rem 2 with _ | ⟨tableName, _ | ⟨key, more⟩⟩
    · exact ⟨_, rfl, Or.inr (by simp [Result.ofExists])⟩
    · obtain ⟨ext, he, pe⟩ := handleTable_failed lib b d tableName r.Method
        ⟨s1, w.trace ++ [⟨.dbExists d, .ofExists (.ok true)⟩]⟩
      refine ⟨⟨.dbExists d, .answered true⟩ :: ext, he.trans (by simp [Result.ofExists]), ?_⟩
      rcases pe with pe | pe
      · exact Or.inl pe
      · refine Or.inr (fun e he => ?_)
        rcases List.mem_cons.mp he with rfl | he
        · simp
        · exact pe e he
    · obtain ⟨r2, s2, h2⟩ := TableExists_eq b d tableName
        ⟨s1, w.trace ++ [⟨.dbExists d, .ofExists (.ok true)⟩]⟩
      simp only [h2]
      rcases r2 with _ | _ | _
      · exact ⟨[⟨.dbExists d, .answered true⟩, ⟨.tableExists d tableName, .failed⟩],
          by simp [Result.ofExists], Or.inl rfl⟩
      · exact ⟨[⟨.dbExists d, .answered true⟩, ⟨.tableExists d tableName, .answered false⟩],
          by simp [Result.ofExists], Or.inr (by simp)⟩
      · rcases hb : r.Body with _ | body
        · exact ⟨[⟨.dbExists d, .answered true⟩, ⟨.tableExists d tableName, .answered true⟩],
            by simp [Result.ofExists], Or.inl rfl⟩
        · obtain ⟨ext, he, pe⟩ := handleRow_failed b d tableName key body r.Method
            ⟨s2, w.trace ++ [⟨.dbExists d, .ofExists (.ok true)⟩] ++
              [⟨.tableExists d tableName, .ofExists (.ok true)⟩]⟩
          refine ⟨⟨.dbExists d, .answered true⟩ :: ⟨.tableExists d tableName, .answered true⟩ ::
            ext, he.trans (by simp [Result.ofExists]), ?_⟩
          rcases pe with pe | pe
          · exact Or.inl pe
          · refine Or.inr (fun e he => ?_)
            rcases List.mem_cons.mp he with rfl | he
            · simp
            · rcases List.mem_cons.mp he with rfl | he
              · simp
              · exact pe e he

/-- Whenever a backing-store call made while handling a request returns an
error (an existence check, a listing, a create, a get, a put, a delete or a
query call), the response is 500.  A stream that breaks after the call
returned is not covered: the handlers do not read its error. -/
theorem failed_call_is_answered_500 (r : Request) (s : σ) :
    ∀ e ∈ (handler lib b r ⟨s, []⟩).2.trace, e.result = .failed →
      (handler lib b r ⟨s, []⟩).1.status = some 500 := by
  have key : ∃ ext, (handler lib b r ⟨s, []⟩).2.trace = [] ++ ext ∧
      ((handler lib b r ⟨s, []⟩).1.status = some 500 ∨ ∀ e ∈ ext, e.result ≠ .failed) := by
    unfold handler
    rcases hs : SplitN slash (TrimLeft r.Path (str "/")) 3 with _ | ⟨d, _ | ⟨a, rest⟩⟩
    · exact ⟨[], rfl, Or.inr (by simp)⟩
    · exact handleDatabase_failed lib b d r.Method ⟨s, []⟩
    · simp only []
      split_ifs
      · exact handleRest_failed lib b d _ r ⟨s, []⟩
      · exact handleQuery_failed lib b d _ r ⟨s, []⟩
      · exact ⟨[], rfl, Or.inl rfl⟩
      · exact ⟨[], rfl, Or.inr (by simp)⟩
  obtain ⟨ext, he, pe⟩ := key
  rw [List.nil_append] at he
  intro e hmem hfail
  rcases pe with pe | pe
  · exact pe
  · rw [he] at hmem
    exact absurd hfail (pe e hmem)

end failures

/-! ## Lemmas on maps and on the loops of the query forwarder -/

theorem assocGet_eq_none_iff {β : Type} (k : GoString) (m : List (GoString × β)) :
    assocGet k m = none ↔ k ∉ m.map Prod.fst := by
  induction m with
  | nil => simp [assocGet]
  | cons p m ih =>
    obtain ⟨k1, v1⟩ := p
    by_cases h : k1 = k
    · simp [assocGet, h]
    · have h2 : ¬ k = k1 := fun e => h e.symm
      simp [assocGet, h, h2, ih]

theorem GoMap.get_set_self (k v : GoString) (m : GoMap) :
    assocGet k (GoMap.set k v m) = some v := by
  induction m with
  | nil => simp [GoMap.set, assocGet]
  | cons p m ih =>
    obtain ⟨k1, v1⟩ := p
    unfold GoMap.set
    split_ifs with h1 h2
    · simp [assocGet]
    · simp [assocGet]
    · have h3 : ¬ k1 = k := fun e => h1 e.symm
      simp [assocGet, h3, ih]

theorem GoMap.get_set_ne (k v k2 : GoString) (m : GoMap) (hne : k2 ≠ k) :
    assocGet k2 (GoMap.set k v m) = assocGet k2 m := by
  induction m with
  | nil => simp [GoMap.set, assocGet, hne.symm]
  | cons p m ih =>
    obtain ⟨k1, v1⟩ := p
    unfold GoMap.set
    split_ifs with h1 h2
    · subst h1
      simp [assocGet, hne.symm]
    · simp [assocGet, hne.symm]
    · by_cases h3 : k1 = k2
      · simp [assocGet, h3]
      · simp [assocGet, h3, ih]

theorem GoMap.keys_set (k v : GoString) (m : GoMap) (hk : k ∉ m.map Prod.fst) :
    ((GoMap.set k v m).map Prod.fst).Perm (k :: m.map Prod.fst) := by
  induction m with
  | nil => simp [GoMap.set]
  | cons p m ih =>
    obtain ⟨k1, v1⟩ := p
    have hk1 : k ≠ k1 := fun e => hk (by simp [e])
    have hk2 : k ∉ m.map Prod.fst := fun e => hk (by simp only [List.map_cons, List.mem_cons]; exact Or.inr e)
    unfold GoMap.set
    split_ifs with h2 h3
    · exact absurd h2 hk1
    · exact List.Perm.refl _
    · simp only [List.map_cons]
      exact ((ih hk2).cons k1).trans (List.Perm.swap k k1 _)

theorem fillRow_eq_none_iff (headers : List GoString) (vals : List VdlValue) (i : Nat)
    (result : GoMap) (hi : i ≤ headers.length) :
    fillRow headers i vals result = none ↔ headers.length < i + vals.length := by
  induction vals generalizing i result with
  | nil =>
    simp only [fillRow, List.length_nil, Nat.add_zero]
    constructor
    · intro h
      exact absurd h (by simp)
    · intro h
      omega
  | cons v vs ih =>
    unfold fillRow
    cases h : headers.get? i with
    | none =>
      have := List.get?_eq_none.mp h
      simp only [List.length_cons, true_iff]
      omega
    | some hd =>
      have hlt : i < headers.length := by
        by_contra hc
        rw [List.get?_eq_none.mpr (by omega)] at h
        exact absurd h (by simp)
      simp only [ih (i + 1) _ hlt, List.length_cons]
      omega

theorem collectRows_eq_none_iff (headers : List GoString) (rows : List (List VdlValue)) :
    collectRows headers rows = none ↔ ∃ row ∈ rows, headers.length < row.length := by
  induction rows with
  | nil => simp [collectRows]
  | cons row more ih =>
    have hfill := fillRow_eq_none_iff headers row 0 [] (Nat.zero_le _)
    rw [Nat.zero_add] at hfill
    unfold collectRows
    cases h : fillRow headers 0 row [] with
    | none =>
      simp only [List.mem_cons, exists_eq_or_imp, true_iff]
      exact Or.inl (hfill.mp h)
    | some result =>
      have hr : ¬ headers.length < row.length := by
        intro hc
        rw [hfill.mpr hc] at h
        exact absurd h (by simp)
      cases h2 : collectRows headers more with
      | none =>
        simp only [List.mem_cons, exists_eq_or_imp, true_iff]
        exact Or.inr (ih.mp h2)
      | some results =>
        constructor
        · intro hc
          exact absurd hc (by simp)
        · rintro ⟨r, hmem, hlen⟩
          rcases List.mem_cons.mp hmem with rfl | hmem
          · exact absurd hlen hr
          · have := ih.mpr ⟨r, hmem, hlen⟩
            rw [h2] at this
            exact absurd this (by simp)

theorem drop_cons_step {α : Type} (l : List α) (i : Nat) (h : α) (tl : List α)
    (hd : l.drop i = h :: tl) : l.get? i = some h ∧ l.drop (i + 1) = tl := by
  constructor
  · have := List.head?_drop l i
    rw [hd] at this
    simpa using this.symm
  · have := List.drop_drop 1 i l
    rw [hd] at this
    simpa [Nat.add_comm] using this.symm

theorem fillRow_spec (headers : List GoString) (vals : List VdlValue) (i : Nat) (result : GoMap)
    (hnd : (headers.drop i).Nodup) (hfresh : ∀ h ∈ headers.drop i, h ∉ result.map Prod.fst)
    (hlen : vals.length = (headers.drop i).length) :
    ∃ res, fillRow headers i vals result = some res ∧
      (res.map Prod.fst).Perm (headers.drop i ++ result.map Prod.fst) ∧
      (∀ h v, (h, v) ∈ (headers.drop i).zip vals → assocGet h res = some v.String) ∧
      (∀ k, k ∉ headers.drop i → assocGet k res = assocGet k result) := by
  induction vals generalizing i result with
  | nil =>
    have hnil : headers.drop i = [] := List.length_eq_zero.mp hlen.symm
    refine ⟨result, rfl, ?_, ?_, fun _ _ => rfl⟩
    · rw [hnil]
      exact List.Perm.refl _
    · intro h v hm
      simp at hm
  | cons v vs ih =>
    cases hdrop : headers.drop i with
    | nil =>
      rw [hdrop] at hlen
      simp at hlen
    | cons h tl =>
      obtain ⟨hget, hnext⟩ := drop_cons_step headers i h tl hdrop
      rw [hdrop] at hnd hfresh hlen
      have hh : h ∉ tl := (List.nodup_cons.mp hnd).1
      have hfr : h ∉ result.map Prod.fst := hfresh h (List.mem_cons_self _ _)
      have hkeys := GoMap.keys_set h v.String result hfr
      obtain ⟨res, hres, hperm, hlook, hkeep⟩ :=
        ih (i + 1) (GoMap.set h v.String result)
          (by rw [hnext]; exact (List.nodup_cons.mp hnd).2)
          (by
            rw [hnext]
            intro h2 hm hc
            rcases List.mem_cons.mp (hkeys.mem_iff.mp hc) with e | e
            · exact hh (e ▸ hm)
            · exact hfresh h2 (List.mem_cons_of_mem _ hm) e)
          (by rw [hnext]; simpa using hlen)
      rw [hnext] at hperm hlook hkeep
      refine ⟨res, ?_, ?_, ?_, ?_⟩
      · simp only [fillRow, hget, hres]
      · refine hperm.trans ?_
        refine (List.Perm.append_left tl hkeys).trans ?_
        exact List.perm_middle
      · intro h2 v2 hm
        simp only [List.zip_cons_cons, List.mem_cons, Prod.mk.injEq] at hm
        rcases hm with ⟨rfl, rfl⟩ | hm
        · rw [hkeep _ hh, GoMap.get_set_self]
        · exact hlook h2 v2 hm
      · intro k hk
        have hk1 : k ≠ h := fun e => hk (by simp [e])
        have hk2 : k ∉ tl := fun e => hk (List.mem_cons_of_mem _ e)
        rw [hkeep k hk2, GoMap.get_set_ne _ _ _ _ hk1]

/-- With distinct headers and rows as long as the header list, the loops of
`handleQuery` give one map per row, in order; the keys of each map are the
headers, and each header is bound to the string of the value at its
position in the row. -/
theorem collectRows_spec (headers : List GoString) (rows : List (List VdlValue))
    (hnd : headers.Nodup) (hrows : ∀ row ∈ rows, row.length = headers.length) :
    ∃ results, collectRows headers rows = some results ∧
      List.Forall₂ (fun row m => (m.map Prod.fst).Perm headers ∧
        ∀ h v, (h, v) ∈ headers.zip row → assocGet h m = some (VdlValue.String v)) rows results := by
  induction rows with
  | nil => exact ⟨[], rfl, List.Forall₂.nil⟩
  | cons row more ih =>
    obtain ⟨results, hres, hall⟩ := ih (fun r hr => hrows r (List.mem_cons_of_mem _ hr))
    obtain ⟨m, hm, hperm, hlook, _⟩ := fillRow_spec headers row 0 []
      (by simpa using hnd) (by simp) (by simpa using hrows row (List.mem_cons_self _ _))
    refine ⟨m :: results, ?_, List.Forall₂.cons ⟨?_, ?_⟩ hall⟩
    · simp only [collectRows, hm, hres]
    · simpa using hperm
    · simpa using hlook

/-! ## Paths with an action keyword -/

theorem split_three (n : Nat) (d a rem : GoString) (hne : d ≠ []) (hd : slash ∉ d)
    (ha : slash ∉ a) :
    SplitN slash (TrimLeft (List.replicate n slash ++ d ++ str "/" ++ a ++ str "/" ++ rem)
      (str "/")) 3 = [d, a, rem] := by
  have h1 : List.replicate n slash ++ d ++ str "/" ++ a ++ str "/" ++ rem =
      List.replicate n slash ++ (d ++ slash :: (a ++ slash :: rem)) := by
    simp [str_slash]
  rw [h1, TrimLeft_slashes, TrimLeft_segment d _ hne hd, SplitN_cons_segment d _ 1 hd,
    SplitN_cons_segment a _ 0 ha]
  rfl

theorem split_two (n : Nat) (d a : GoString) (hne : d ≠ []) (hd : slash ∉ d) (ha : slash ∉ a) :
    SplitN slash (TrimLeft (List.replicate n slash ++ d ++ str "/" ++ a) (str "/")) 3 =
      [d, a] := by
  have h1 : List.replicate n slash ++ d ++ str "/" ++ a =
      List.replicate n slash ++ (d ++ slash :: a) := by
    simp [str_slash]
  rw [h1, TrimLeft_slashes, TrimLeft_segment d _ hne hd, SplitN_cons_segment d _ 1 hd,
    SplitN_one_segment a 1 ha]

theorem ToLower_query (lib : Stdlib) : ToLower lib (str "query") = str "query" := by rfl

theorem handler_query_url {σ : Type} (lib : Stdlib) (b : Backend σ) (d q m : GoString)
    (body : Except GoString GoString) (w : World σ) (hne : d ≠ []) (hd : slash ∉ d) :
    handler lib b ⟨m, str "/" ++ d ++ str "/query/" ++ q, body⟩ w =
      handleQuery lib b d q ⟨m, str "/" ++ d ++ str "/query/" ++ q, body⟩ w := by
  have hq : slash ∉ str "query" := by decide
  have hp : str "/" ++ d ++ str "/query/" ++ q =
      List.replicate 1 slash ++ d ++ str "/" ++ str "query" ++ str "/" ++ q := by
    have e1 : str "/query/" = str "/" ++ str "query" ++ str "/" := by decide
    rw [e1, ← str_slash_replicate]
    simp only [List.append_assoc]
  have hs := split_three 1 d (str "query") q hne hd hq
  rw [← hp] at hs
  have e2 : str "query" ≠ str "rest" := by decide
  simp only [handler, hs, ToLower_query, e2, if_false, if_true, List.headD_cons]

/-! ## Which runs change the store -/

section quiet
variable {σ : Type} (lib : Stdlib) (b : Backend σ)

theorem DbExists_read (d : GoString) (w : World σ) :
    ∃ r s1, b.DbExists d w = (r, ⟨s1, w.trace ++ [⟨.dbExists d, .ofExists r⟩]⟩) ∧
      (ReadStable b → s1 = w.store) := ⟨_, _, rfl, fun hb => hb.1 d w.store⟩

theorem ListTables_read (d : GoString) (w : World σ) :
    ∃ r s1, b.ListTables d w = (r, ⟨s1, w.trace ++ [⟨.dbListTables d, .ofExcept r⟩]⟩) ∧
      (ReadStable b → s1 = w.store) := ⟨_, _, rfl, fun hb => hb.2.1 d w.store⟩

theorem Exec_read (d q : GoString) (w : World σ) :
    ∃ r s1, b.Exec d q w = (r, ⟨s1, w.trace ++ [⟨.dbExec d q, .ofQuery r⟩]⟩) ∧
      (ReadStable b → s1 = w.store) := ⟨_, _, rfl, fun hb => hb.2.2.1 d q w.store⟩

theorem TableExists_read (d t : GoString) (w : World σ) :
    ∃ r s1, b.TableExists d t w = (r, ⟨s1, w.trace ++ [⟨.tableExists d t, .ofExists r⟩]⟩) ∧
      (ReadStable b → s1 = w.store) := ⟨_, _, rfl, fun hb => hb.2.2.2.1 d t w.store⟩

theorem Scan_read (d t : GoString) (w : World σ) :
    ∃ r s1, b.Scan d t w = (r, ⟨s1, w.trace ++ [⟨.tableScan d t, .ofScan r⟩]⟩) ∧
      (ReadStable b → s1 = w.store) := ⟨_, _, rfl, fun hb => hb.2.2.2.2.1 d t w.store⟩

theorem RowExists_read (d t k : GoString) (w : World σ) :
    ∃ r s1, b.RowExists d t k w = (r, ⟨s1, w.trace ++ [⟨.rowExists d t k, .ofExists r⟩]⟩) ∧
      (ReadStable b → s1 = w.store) := ⟨_, _, rfl, fun hb => hb.2.2.2.2.2.1 d t k w.store⟩

theorem Get_read (d t k : GoString) (w : World σ) :
    ∃ r s1, b.Get d t k w = (r, ⟨s1, w.trace ++ [⟨.rowGet d t k, .ofExcept r⟩]⟩) ∧
      (ReadStable b → s1 = w.store) := ⟨_, _, rfl, fun hb => hb.2.2.2.2.2.2 d t k w.store⟩

/-- A run that only added the non-mutating calls `pre` and kept the store. -/
theorem quiet_run (w w1 : World σ) (m : GoString) (o : Outcome) (pre : List Event)
    (htr : w1.trace = w.trace ++ pre) (hpre : ∀ e ∈ pre, e.call.mutating = false)
    (hst : ReadStable b → w1.store = w.store) : QuietOrMutating b w m (o, w1) :=
  ⟨pre, htr, Or.inl ⟨hpre, hst⟩⟩

/-- A run that ended with the mutating call `c`, after the calls `pre`, for a
verb other than GET, and answered 200 or 500. -/
theorem mutating_run (w w1 : World σ) (m : GoString) (o : Outcome) (pre : List Event)
    (c : Event) (htr : w1.trace = w.trace ++ (pre ++ [c])) (hc : c.call.mutating = true)
    (hm : m ≠ str "GET") (ho : o.status = some 200 ∨ o.status = some 500) :
    QuietOrMutating b w m (o, w1) :=
  ⟨pre ++ [c], htr, Or.inr ⟨⟨c, by simp, hc⟩, hm, ho⟩⟩

/-- A run that starts after the non-mutating calls `pre`. -/
theorem after_reads (w w1 : World σ) (m : GoString) (res : Outcome × World σ)
    (pre : List Event) (htr : w1.trace = w.trace ++ pre)
    (hpre : ∀ e ∈ pre, e.call.mutating = false) (hst : ReadStable b → w1.store = w.store)
    (h : QuietOrMutating b w1 m res) : QuietOrMutating b w m res := by
  obtain ⟨ext, he, hcase⟩ := h
  refine ⟨pre ++ ext, by rw [he, htr, List.append_assoc], ?_⟩
  rcases hcase with ⟨hq, hs⟩ | ⟨⟨e, hmem, hmut⟩, hm, ho⟩
  · refine Or.inl ⟨fun e he2 => ?_, fun hb => (hs hb).trans (hst hb)⟩
    rcases List.mem_append.mp he2 with h1 | h1
    · exact hpre e h1
    · exact hq e h1
  · exact Or.inr ⟨⟨e, List.mem_append.mpr (Or.inr hmem), hmut⟩, hm, ho⟩

theorem rowAct_quiet (d t k body m : GoString) (w : World σ) :
    QuietOrMutating b w m (rowAct b d t k body m w) := by
  unfold rowAct
  split_ifs with h1 h2 h3
  · obtain ⟨r, s1, h, hs⟩ := Get_read b d t k w
    rw [h]
    cases r <;> exact quiet_run b w _ m _ _ rfl (by simp [Call.mutating]) hs
  · obtain ⟨r, s1, h⟩ := Put_eq b d t k body w
    rw [h]
    cases r
    · exact mutating_run b w _ m _ [] _ rfl rfl h1 (Or.inr rfl)
    · exact mutating_run b w _ m _ [] _ rfl rfl h1 (Or.inl rfl)
  · obtain ⟨r, s1, h⟩ := Delete_eq b d t k w
    rw [h]
    cases r
    · exact mutating_run b w _ m _ [] _ rfl rfl h1 (Or.inr rfl)
    · exact mutating_run b w _ m _ [] _ rfl rfl h1 (Or.inl rfl)
  · exact quiet_run b w w m _ [] (by simp) (by simp) (fun _ => rfl)

theorem handleRow_quiet (d t k body m : GoString) (w : World σ) :
    QuietOrMutating b w m (handleRow b d t k body m w) := by
  unfold handleRow rowGate
  split_ifs with h1 h2
  · obtain ⟨r, s1, h, hs⟩ := RowExists_read b d t k w
    rw [h]
    rcases r with _ | _ | _
    · exact quiet_run b w _ m _ _ rfl (by simp [Call.mutating]) hs
    · exact quiet_run b w _ m _ _ rfl (by simp [Call.mutating]) hs
    · exact after_reads b w _ m _ _ rfl (by simp [Call.mutating]) hs
        (rowAct_quiet b d t k body m _)
  · obtain ⟨r, s1, h, hs⟩ := RowExists_read b d t k w
    rw [h]
    rcases r with _ | _ | _
    · exact quiet_run b w _ m _ _ rfl (by simp [Call.mutating]) hs
    · exact after_reads b w _ m _ _ rfl (by simp [Call.mutating]) hs
        (rowAct_quiet b d t k body m _)
    · exact quiet_run b w _ m _ _ rfl (by simp [Call.mutating]) hs
  · exact rowAct_quiet b d t k body m w

theorem handleTable_quiet (d t m : GoString) (w : World σ) :
    QuietOrMutating b w m (handleTable lib b d t m w) := by
  unfold handleTable
  split_ifs with h1 h2
  · obtain ⟨r, s1, h, hs⟩ := TableExists_read b d t w
    rw [h]
    rcases r with _ | _ | _
    · exact quiet_run b w _ m _ _ rfl (by simp [Call.mutating]) hs
    · exact quiet_run b w _ m _ _ rfl (by simp [Call.mutating]) hs
    · obtain ⟨⟨keys, err⟩, s2, h2, hs2⟩ :=
        Scan_read b d t ⟨s1, w.trace ++ [⟨.tableExists d t, .ofExists (.ok true)⟩]⟩
      simp only [h2]
      exact after_reads b w _ m _ _ rfl (by simp [Call.mutating]) hs
        (quiet_run b _ _ m _ _ rfl (by simp [Call.mutating]) hs2)
  · obtain ⟨r, s1, h, hs⟩ := TableExists_read b d t w
    rw [h]
    rcases r with _ | _ | _
    · exact quiet_run b w _ m _ _ rfl (by simp [Call.mutating]) hs
    · obtain ⟨r2, s2, h2⟩ :=
        TableCreate_eq b d t ⟨s1, w.trace ++ [⟨.tableExists d t, .ofExists (.ok false)⟩]⟩
      simp only [h2]
      refine after_reads b w ⟨s1, w.trace ++ [⟨.tableExists d t, .ofExists (.ok false)⟩]⟩ m _
        [⟨.tableExists d t, .ofExists (.ok false)⟩] rfl (by simp [Call.mutating]) hs ?_
      cases r2
      · exact mutating_run b _ _ m _ [] _ rfl rfl h1 (Or.inr rfl)
      · exact mutating_run b _ _ m _ [] _ rfl rfl h1 (Or.inl rfl)
    · exact quiet_run b w _ m _ _ rfl (by simp [Call.mutating]) hs
  · exact quiet_run b w w m _ [] (by simp) (by simp) (fun _ => rfl)

theorem handleDatabase_quiet (d m : GoString) (w : World σ) :
    QuietOrMutating b w m (handleDatabase lib b d m w) := by
  unfold handleDatabase
  split_ifs with h1 h2
  · obtain ⟨r, s1, h, hs⟩ := DbExists_read b d w
    rw [h]
    rcases r with _ | _ | _
    · exact quiet_run b w _ m _ _ rfl (by simp [Call.mutating]) hs
    · exact quiet_run b w _ m _ _ rfl (by simp [Call.mutating]) hs
    · obtain ⟨r2, s2, h2, hs2⟩ :=
        ListTables_read b d ⟨s1, w.trace ++ [⟨.dbExists d, .ofExists (.ok true)⟩]⟩
      simp only [h2]
      refine after_reads b w ⟨s1, w.trace ++ [⟨.dbExists d, .ofExists (.ok true)⟩]⟩ m _
        [⟨.dbExists d, .ofExists (.ok true)⟩] rfl (by simp [Call.mutating]) hs ?_
      cases r2 <;> exact quiet_run b _ _ m _ _ rfl (by simp [Call.mutating]) hs2
  · obtain ⟨r, s1, h, hs⟩ := DbExists_read b d w
    rw [h]
    rcases r with _ | _ | _
    · exact quiet_run b w _ m _ _ rfl (by simp [Call.mutating]) hs
    · obtain ⟨r2, s2, h2⟩ :=
        DbCreate_eq b d ⟨s1, w.trace ++ [⟨.dbExists d, .ofExists (.ok false)⟩]⟩
      simp only [h2]
      refine after_reads b w ⟨s1, w.trace ++ [⟨.dbExists d, .ofExists (.ok false)⟩]⟩ m _
        [⟨.dbExists d, .ofExists (.ok false)⟩] rfl (by simp [Call.mutating]) hs ?_
      cases r2
      · exact mutating_run b _ _ m _ [] _ rfl rfl h1 (Or.inr rfl)
      · exact mutating_run b _ _ m _ [] _ rfl rfl h1 (Or.inl rfl)
    · exact quiet_run b w _ m _ _ rfl (by simp [Call.mutating]) hs
  · exact quiet_run b w w m _ [] (by simp) (by simp) (fun _ => rfl)

theorem handleQuery_quiet (d q : GoString) (r : Request) (w : World σ) :
    QuietOrMutating b w r.Method (handleQuery lib b d q r w) := by
  unfold handleQuery
  split_ifs with h1
  · exact quiet_run b w w _ _ [] (by simp) (by simp) (fun _ => rfl)
  · obtain ⟨r1, s1, h, hs⟩ := Exec_read b d q w
    rw [h]
    cases r1 with
    | error e => exact quiet_run b w _ _ _ _ rfl (by simp [Call.mutating]) hs
    | ok res =>
      cases hc : collectRows res.headers res.rows <;> simp only [hc] <;>
        exact quiet_run b w _ _ _ _ rfl (by simp [Call.mutating]) hs

theorem handleRest_quiet (d rem : GoString) (r : Request) (w : World σ) :
    QuietOrMutating b w r.Method (handleRest lib b d rem r w) := by
  unfold handleRest
  obtain ⟨r1, s1, h1, hs1⟩ := DbExists_read b d w
  simp only [h1]
  rcases r1 with _ | _ | _
  · exact quiet_run b w _ _ _ _ rfl (by simp [Call.mutating]) hs1
  · exact quiet_run b w _ _ _ _ rfl (by simp [Call.mutating]) hs1
  · rcases hsp : SplitN slash rem 2 with _ | ⟨tableName, _ | ⟨key, more⟩⟩
    · exact quiet_run b w _ _ _ _ rfl (by simp [Call.mutating]) hs1
    · exact after_reads b w _ _ _ _ rfl (by simp [Call.mutating]) hs1
        (handleTable_quiet lib b d tableName r.Method _)
    · refine after_reads b w ⟨s1, w.trace ++ [⟨.dbExists d, .ofExists (.ok true)⟩]⟩ _ _
        [⟨.dbExists d, .ofExists (.ok true)⟩] rfl (by simp [Call.mutating]) hs1 ?_
      obtain ⟨r2, s2, h2, hs2⟩ := TableExists_read b d tableName
        ⟨s1, w.trace ++ [⟨.dbExists d, .ofExists (.ok true)⟩]⟩
      simp only [h2]
      rcases r2 with _ | _ | _
      · exact quiet_run b _ _ _ _ _ rfl (by simp [Call.mutating]) hs2
      · exact quiet_run b _ _ _ _ _ rfl (by simp [Call.mutating]) hs2
      · rcases hb : r.Body with _ | body
        · exact quiet_run b _ _ _ _ _ rfl (by simp [Call.mutating]) hs2
        · exact after_reads b _ _ _ _ _ rfl (by simp [Call.mutating]) hs2
            (handleRow_quiet b d tableName key body r.Method _)

/-- Every run of `handler` either makes no mutating call, and then leaves
the store of a backing store with stable reads as it was, or makes one for a
verb other than GET and answers 200 or 500. -/
theorem handler_quiet (r : Request) (w : World σ) :
    QuietOrMutating b w r.Method (handler lib b r w) := by
  unfold handler
  rcases hs : SplitN slash (TrimLeft r.Path (str "/")) 3 with _ | ⟨d, _ | ⟨a, rest⟩⟩
  · exact quiet_run b w w _ _ [] (by simp) (by simp) (fun _ => rfl)
  · exact handleDatabase_quiet lib b d r.Method w
  · simp only []
    split_ifs
    · exact handleRest_quiet lib b d _ r w
    · exact handleQuery_quiet lib b d _ r w
    · exact quiet_run b w w _ _ [] (by simp) (by simp) (fun _ => rfl)
    · exact quiet_run b w w _ _ [] (by simp) (by simp) (fun _ => rfl)

theorem memBackend_readStable
    (eng : Store → GoString → GoString → Except GoString QueryResult) :
    ReadStable (memBackend eng) := by
  refine ⟨fun _ _ => rfl, ?_, fun _ _ _ => rfl, fun _ _ _ => rfl, ?_, fun _ _ _ _ => rfl, ?_⟩
  · intro d s
    simp only [memBackend]
    cases s.db d <;> rfl
  · intro d t s
    simp only [memBackend]
    cases s.table d t <;> rfl
  · intro d t k s
    simp only [memBackend]
    cases s.row d t k <;> rfl

end quiet

/-! ## Letter case of a keyword, and the two parts of a remainder -/

set_option maxRecDepth 100000 in
theorem lower_upperByte_fin : ∀ n : Fin 256, (UInt8.mk ⟨n⟩) < 128 →
    ¬ (65 ≤ (UInt8.mk ⟨n⟩) ∧ (UInt8.mk ⟨n⟩) ≤ 90) →
    upperByte (UInt8.mk ⟨n⟩) < 128 ∧
      (if 65 ≤ upperByte (UInt8.mk ⟨n⟩) ∧ upperByte (UInt8.mk ⟨n⟩) ≤ 90
        then upperByte (UInt8.mk ⟨n⟩) + 32 else upperByte (UInt8.mk ⟨n⟩)) = UInt8.mk ⟨n⟩ := by
  decide

theorem lower_upperByte (y : UInt8) (h1 : y < 128) (h2 : ¬ (65 ≤ y ∧ y ≤ 90)) :
    upperByte y < 128 ∧
      (if 65 ≤ upperByte y ∧ upperByte y ≤ 90 then upperByte y + 32 else upperByte y) = y := by
  obtain ⟨⟨n⟩⟩ := y
  exact lower_upperByte_fin n h1 h2

/-- A spelling of a lower-case ASCII keyword in any letter case lower-cases
to the keyword. -/
theorem ToLower_caseVariant (lib : Stdlib) (kw a : GoString)
    (hkw : ∀ y ∈ kw, y < 128 ∧ ¬ (65 ≤ y ∧ y ≤ 90)) (ha : caseVariant kw a = true) :
    ToLower lib a = kw := by
  have key : ∀ (kw a : GoString), (∀ y ∈ kw, y < 128 ∧ ¬ (65 ≤ y ∧ y ≤ 90)) →
      caseVariant kw a = true →
      a.all (fun c => decide (c < 128)) = true ∧
        a.map (fun c => if 65 ≤ c ∧ c ≤ 90 then c + 32 else c) = kw := by
    intro kw
    induction kw with
    | nil =>
      intro a _ h
      cases a with
      | nil => exact ⟨rfl, rfl⟩
      | cons x a => simp [caseVariant] at h
    | cons y kw ih =>
      intro a hk h
      cases a with
      | nil => simp [caseVariant] at h
      | cons x a =>
        simp only [caseVariant, Bool.and_eq_true, Bool.or_eq_true, beq_iff_eq] at h
        obtain ⟨hx, hrest⟩ := h
        obtain ⟨hy1, hy2⟩ := hk y (List.mem_cons_self _ _)
        obtain ⟨hall, hmap⟩ := ih a (fun z hz => hk z (List.mem_cons_of_mem _ hz)) hrest
        have hxy : x < 128 ∧ (if 65 ≤ x ∧ x ≤ 90 then x + 32 else x) = y := by
          rcases hx with rfl | rfl
          · exact ⟨hy1, by rw [if_neg hy2]⟩
          · exact lower_upperByte y hy1 hy2
        refine ⟨?_, ?_⟩
        · simp only [List.all_cons, Bool.and_eq_true, decide_eq_true_eq]
          exact ⟨hxy.1, hall⟩
        · simp only [List.map_cons, hxy.2, hmap]
  obtain ⟨h1, h2⟩ := key kw a hkw ha
  simp only [ToLower, h1, if_true, h2]

theorem cut_eq_none (s : GoString) (h : cut slash s = none) : slash ∉ s := by
  induction s with
  | nil => simp
  | cons c cs ih =>
    unfold cut at h
    split_ifs at h with hc
    cases h2 : cut slash cs with
    | none =>
      intro hm
      rcases List.mem_cons.mp hm with e | e
      · exact hc e.symm
      · exact ih h2 e
    | some p =>
      rw [h2] at h
      simp at h

theorem cut_eq_some (s a rest : GoString) (h : cut slash s = some (a, rest)) :
    slash ∉ a ∧ s = a ++ slash :: rest := by
  induction s generalizing a with
  | nil => simp [cut] at h
  | cons c cs ih =>
    unfold cut at h
    split_ifs at h with hc
    · simp only [Option.some.injEq, Prod.mk.injEq] at h
      obtain ⟨rfl, rfl⟩ := h
      exact ⟨by simp, by simp [hc]⟩
    · cases h2 : cut slash cs with
      | none =>
        rw [h2] at h
        simp at h
      | some p =>
        obtain ⟨a2, r2⟩ := p
        rw [h2] at h
        simp only [Option.some.injEq, Prod.mk.injEq] at h
        obtain ⟨rfl, rfl⟩ := h
        obtain ⟨h3, h4⟩ := ih a2 h2
        refine ⟨?_, by rw [h4]; rfl⟩
        intro hm
        rcases List.mem_cons.mp hm with e | e
        · exact hc e.symm
        · exact h3 e

/-- The split of the remainder in `handleRest`: the whole remainder when it
holds no separator, else the text before its first separator and the text
after it, either of which may be empty. -/
theorem SplitN_two_cases (rem : GoString) :
    (slash ∉ rem ∧ SplitN slash rem 2 = [rem]) ∨
      ∃ t k, slash ∉ t ∧ rem = t ++ slash :: k ∧ SplitN slash rem 2 = [t, k] := by
  cases h : cut slash rem with
  | none => exact Or.inl ⟨cut_eq_none rem h, by simp [SplitN, h]⟩
  | some p =>
    obtain ⟨t, k⟩ := p
    obtain ⟨h1, h2⟩ := cut_eq_some rem t k h
    exact Or.inr ⟨t, k, h1, h2, by simp [SplitN, h]⟩

theorem handler_rest_bare {σ : Type} (lib : Stdlib) (b : Backend σ) (n : Nat) (d m : GoString)
    (body : Except GoString GoString) (w : World σ) (hne : d ≠ []) (hd : slash ∉ d) :
    handler lib b ⟨m, List.replicate n slash ++ d ++ str "/rest", body⟩ w =
      handleRest lib b d [] ⟨m, List.replicate n slash ++ d ++ str "/rest", body⟩ w := by
  have hr : slash ∉ str "rest" := by decide
  have e1 : str "/rest" = str "/" ++ str "rest" := by decide
  have hp : List.replicate n slash ++ d ++ str "/rest" =
      List.replicate n slash ++ d ++ str "/" ++ str "rest" := by
    rw [e1]
    simp only [List.append_assoc]
  have hs := split_two n d (str "rest") hne hd hr
  rw [← hp] at hs
  simp only [handler, hs, ToLower_rest, if_true, List.headD_nil]

/-! ## The claims -/

/-- C1, as stated, fails: starting from the empty store, in which `d1` does
not exist, the third request of the walk-through, `PUT /d1/rest/t1/k1`, is
answered 404 and not 200, because `PUT` requires the row to exist. -/
theorem C1_counterexample :
    Store.db [] (str "d1") = none ∧
    ((serve asciiLib (memBackend noEngine) (scenario (str "PUT")) []).1.map Outcome.status).get? 2 =
      some (some 404) := by
  decide

/-- C1, amended: starting from a store in which database `d1` does not
exist, the walk-through with `PUT` as its third request is answered, in
order, 200, 200, 404 `specified row does not exist`, the body `["//d1/t1"]`,
the body `[]`, 404, 404, 404; with `POST` as its third request, which
creates the row, it is answered as the claim lists: 200, 200, 200, the body
`["//d1/t1"]`, the body `["//d1/t1/k1"]`, the body `v1`, 200, 404. -/
theorem C1_walkthrough (lib : Stdlib)
    (eng : Store → GoString → GoString → Except GoString QueryResult) (s : Store)
    (h : s.db (str "d1") = none) :
    (serve lib (memBackend eng) (scenario (str "PUT")) s).1.map (fun o => (o.status, o.body)) =
      [ (some 200, some []), (some 200, some []),
        (some 404, some (str "specified row does not exist\n")),
        (some 200, some (str "[\"//d1/t1\"]")),
        (some 200, some (str "[]")),
        (some 404, some (str "specified row does not exist\n")),
        (some 404, some (str "specified row does not exist\n")),
        (some 404, some (str "specified row does not exist\n")) ] ∧
    (serve lib (memBackend eng) (scenario (str "POST")) s).1.map (fun o => (o.status, o.body)) =
      [ (some 200, some []), (some 200, some []), (some 200, some []),
        (some 200, some (str "[\"//d1/t1\"]")),
        (some 200, some (str "[\"//d1/t1/k1\"]")),
        (some 200, some (str "v1")),
        (some 200, some []),
        (some 404, some (str "specified row does not exist\n")) ] := by
  have hne : str "d1" ≠ [] := by decide
  have hd : slash ∉ str "d1" := by decide
  have ht : slash ∉ str "t1" := by decide
  have p1 : str "/d1" = str "/" ++ str "d1" := by decide
  have p2 : str "/d1/rest/t1" = str "/" ++ str "d1" ++ str "/rest/" ++ str "t1" := by decide
  have p3 : str "/d1/rest/t1/k1" =
      str "/" ++ str "d1" ++ str "/rest/" ++ str "t1" ++ str "/" ++ str "k1" := by decide
  -- the two creations
  have e1 := fun tr => (handler_database_url lib (memBackend eng) (str "d1") (str "POST") (.ok [])
    ⟨s, tr⟩ hne hd).trans (mem_db_post_missing lib eng (str "d1") s tr h)
  have e2 := fun s0 tr => (mem_table_url lib eng (str "d1") (str "t1") (str "POST") (.ok [])
    (assocSet (str "d1") [] s0) tr hne hd ht (by rw [Store.db_set]; rfl)).trans
    (mem_table_post_missing lib eng (str "d1") (str "t1") _ _ [] (Store.db_set _ _ _) rfl)
  -- requests on a store whose database d1 has the tables ts
  have eList := fun (ts : Tables) s0 tr => (handler_database_url lib (memBackend eng) (str "d1")
    (str "GET") (.ok []) ⟨assocSet (str "d1") ts s0, tr⟩ hne hd).trans
    (mem_db_get lib eng (str "d1") _ tr ts (Store.db_set _ _ _))
  have eScan := fun (rows : Rows) (ts : Tables) s0 tr => (mem_table_url lib eng (str "d1")
    (str "t1") (str "GET") (.ok []) (assocSet (str "d1") (assocSet (str "t1") rows ts) s0) tr
    hne hd ht (by rw [Store.db_set]; rfl)).trans
    (mem_table_get lib eng (str "d1") (str "t1") _ _ rows (Store.table_set _ _ _ _ _))
  have eRow := fun (m B : GoString) (rows : Rows) (ts : Tables) s0 tr =>
    mem_row_url lib eng (str "d1") (str "t1") (str "k1") m B
      (assocSet (str "d1") (assocSet (str "t1") rows ts) s0) tr hne hd ht
      (by rw [Store.table_set]; rfl)
  have rowNone : ∀ (ts : Tables) s0, Store.row
      (assocSet (str "d1") (assocSet (str "t1") [] ts) s0) (str "d1") (str "t1") (str "k1") =
      none := by
    intro ts s0
    rw [Store.row_of_table (Store.table_set _ _ _ _ _)]
    rfl
  have rowDel : ∀ (rows : Rows) (ts : Tables) s0, Store.row
      (assocSet (str "d1") (assocSet (str "t1") (assocDel (str "k1") rows) ts) s0)
      (str "d1") (str "t1") (str "k1") = none := by
    intro rows ts s0
    rw [Store.row_of_table (Store.table_set _ _ _ _ _), assocGet_assocDel_self]
  have eMiss := fun (m : GoString) (hm : m = str "GET" ∨ m = str "PUT" ∨ m = str "DELETE")
      (B : GoString) (ts : Tables) s0 tr =>
    (eRow m B [] ts s0 tr).trans
      (mem_row_missing eng (str "d1") (str "t1") (str "k1") B m _ _ hm (rowNone ts s0))
  constructor
  · simp only [scenario, serve, List.map, p1, p2, p3, e1, e2,
      eMiss (str "PUT") (Or.inr (Or.inl rfl)), eMiss (str "GET") (Or.inl rfl),
      eMiss (str "DELETE") (Or.inr (Or.inr rfl)), eList, eScan]
    rfl
  · have ePost := fun (B : GoString) (ts : Tables) s0 tr =>
      (eRow (str "POST") B [] ts s0 tr).trans
        (mem_row_post_missing eng (str "d1") (str "t1") (str "k1") B _ _
          (assocSet (str "t1") [] ts) [] (Store.db_set _ _ _) (assocGet_assocSet_self _ _ _)
          (rowNone ts s0))
    have eGet := fun (g v : GoString) (rows : Rows) (ts : Tables) s0 tr =>
      (eRow (str "GET") g (assocSet (str "k1") v rows) ts s0 tr).trans
        (mem_row_get_existing eng (str "d1") (str "t1") (str "k1") g v _ _
          (Store.row_set _ _ _ _ _ _ _))
    have eDel := fun (B v : GoString) (rows : Rows) (ts : Tables) s0 tr =>
      (eRow (str "DELETE") B (assocSet (str "k1") v rows) ts s0 tr).trans
        (mem_row_delete_existing eng (str "d1") (str "t1") (str "k1") B _ _
          (assocSet (str "t1") (assocSet (str "k1") v rows) ts) (assocSet (str "k1") v rows)
          (Store.db_set _ _ _) (assocGet_assocSet_self _ _ _)
          (by rw [Store.row_set]; rfl))
    have eGone := fun (B : GoString) (rows : Rows) (ts : Tables) s0 tr =>
      (eRow (str "GET") B (assocDel (str "k1") rows) ts s0 tr).trans
        (mem_row_missing eng (str "d1") (str "t1") (str "k1") B (str "GET") _ _ (Or.inl rfl)
          (rowDel rows ts s0))
    simp only [scenario, serve, List.map, p1, p2, p3, e1, e2, ePost, eList, eScan, eGet, eDel,
      eGone]
    rfl

/-- Witness for C1 (amended): the walk-through from the empty store. -/
theorem C1_walkthrough_witness :
    Store.db [] (str "d1") = none ∧
    (serve asciiLib (memBackend noEngine) (scenario (str "POST")) []).1.map
        (fun o => (o.status, o.body)) =
      [ (some 200, some []), (some 200, some []), (some 200, some []),
        (some 200, some (str "[\"//d1/t1\"]")),
        (some 200, some (str "[\"//d1/t1/k1\"]")),
        (some 200, some (str "v1")),
        (some 200, some []),
        (some 404, some (str "specified row does not exist\n")) ] :=
  ⟨by decide, (C1_walkthrough asciiLib noEngine [] (by decide)).2⟩

/-- C2, as stated, fails: on the empty store database `d1` does not exist,
yet `PUT /d1` is answered 400, not 404, and so is `DELETE /d1`; with `d1`
present and table `t1` missing, `PUT /d1/rest/t1` is answered 400 as well. -/
theorem C2_counterexample :
    Store.db [] (str "d1") = none ∧
    (handler asciiLib (memBackend noEngine) ⟨str "PUT", str "/d1", .ok []⟩ ⟨[], []⟩).1.status =
      some 400 ∧
    (handler asciiLib (memBackend noEngine) ⟨str "DELETE", str "/d1", .ok []⟩
      ⟨[], []⟩).1.status = some 400 ∧
    Store.table [(str "d1", [])] (str "d1") (str "t1") = none ∧
    (handler asciiLib (memBackend noEngine) ⟨str "PUT", str "/d1/rest/t1", .ok []⟩
      ⟨[(str "d1", [])], []⟩).1.status = some 400 := by
  decide

/-- C2, amended: on the in-memory store, for a verb `m` among GET, PUT and
DELETE, a request that addresses a missing resource changes nothing (the
store stays as it was and no mutating call is made), and it is answered
* at database level: 404 for GET, 400 (unsupported method) for PUT and DELETE;
* at table level: 404 for GET, and for PUT and DELETE 404 when the database
  is missing and 400 when the database exists;
* at row level (whether the row, its table or its database is missing): 404
  for all three verbs.
The names are path segments (`d` non-empty, no separator in `d` or `t`), and
the row-level request carries a body `B`. -/
theorem C2_missing_resource (lib : Stdlib)
    (eng : Store → GoString → GoString → Except GoString QueryResult) (s : Store)
    (d t k m B : GoString) (body : Except GoString GoString)
    (hne : d ≠ []) (hd : slash ∉ d) (ht : slash ∉ t)
    (hm : m = str "GET" ∨ m = str "PUT" ∨ m = str "DELETE") :
    (s.db d = none →
      Rejects lib (memBackend eng) ⟨m, str "/" ++ d, body⟩ s
        (if m = str "GET" then 404 else 400)) ∧
    (s.table d t = none →
      Rejects lib (memBackend eng) ⟨m, str "/" ++ d ++ str "/rest/" ++ t, body⟩ s
        (if m = str "GET" ∨ s.db d = none then 404 else 400)) ∧
    (s.row d t k = none →
      Rejects lib (memBackend eng)
        ⟨m, str "/" ++ d ++ str "/rest/" ++ t ++ str "/" ++ k, .ok B⟩ s 404) := by
  have hP : m ≠ str "POST" := by
    rcases hm with rfl | rfl | rfl
    · exact fun h => POST_ne_GET h.symm
    · exact PUT_ne_POST
    · exact DELETE_ne_POST
  have one : ∀ (a : Event), ∀ e ∈ [] ++ [a], a.call.mutating = false → e.call.mutating = false := by
    intro a e he ha
    simp only [List.nil_append, List.mem_singleton] at he
    subst he
    exact ha
  have two : ∀ (a c : Event), ∀ e ∈ [] ++ [a, c], a.call.mutating = false →
      c.call.mutating = false → e.call.mutating = false := by
    intro a c e he ha hc
    simp only [List.nil_append, List.mem_cons, List.mem_singleton, List.not_mem_nil,
      or_false] at he
    rcases he with rfl | rfl
    · exact ha
    · exact hc
  refine ⟨?_, ?_, ?_⟩
  · intro h
    by_cases hG : m = str "GET"
    · subst hG
      rw [if_pos rfl]
      exact Rejects_of_run
        ((handler_database_url lib _ d _ body _ hne hd).trans (mem_db_get_missing lib eng d s [] h))
        (fun e he => one _ e he rfl)
    · rw [if_neg hG]
      exact Rejects_of_run
        ((handler_database_url lib _ d _ body _ hne hd).trans
          (handleDatabase_other lib _ d m _ hG hP))
        (fun e he => absurd he (List.not_mem_nil e))
  · intro h
    cases hdb : s.db d with
    | none =>
      rw [if_pos (Or.inr rfl)]
      exact Rejects_of_run (mem_rest_db_missing lib eng d t m body s [] hne hd hdb)
        (fun e he => one _ e he rfl)
    | some ts =>
      have hdb2 : (s.db d).isSome = true := by rw [hdb]; rfl
      by_cases hG : m = str "GET"
      · subst hG
        rw [if_pos (Or.inl rfl)]
        exact Rejects_of_run
          ((mem_table_url lib eng d t _ body s [] hne hd ht hdb2).trans
            (mem_table_get_missing lib eng d t s _ h))
          (fun e he => two _ _ e he rfl rfl)
      · rw [if_neg (by simp [hG])]
        exact Rejects_of_run
          ((mem_table_url lib eng d t _ body s [] hne hd ht hdb2).trans
            (handleTable_other lib _ d t m _ hG hP))
          (fun e he => one _ e he rfl)
  · intro h
    cases hdb : s.db d with
    | none =>
      rw [row_url_assoc]
      exact Rejects_of_run (mem_rest_db_missing lib eng d _ m (.ok B) s [] hne hd hdb)
        (fun e he => one _ e he rfl)
    | some ts =>
      have hdb2 : (s.db d).isSome = true := by rw [hdb]; rfl
      cases htab : s.table d t with
      | none =>
        exact Rejects_of_run
          (mem_row_table_missing lib eng d t k m (.ok B) s [] hne hd ht hdb2 htab)
          (fun e he => two _ _ e he rfl rfl)
      | some rows =>
        have htab2 : (s.table d t).isSome = true := by rw [htab]; rfl
        refine Rejects_of_run
          ((mem_row_url lib eng d t k m B s [] hne hd ht htab2).trans
            (mem_row_missing eng d t k B m s _ hm h)) ?_
        intro e he
        simp only [List.nil_append, List.cons_append, List.mem_cons, List.mem_singleton,
          List.not_mem_nil, or_false] at he
        rcases he with rfl | rfl | rfl <;> rfl

/-- Witness for C2 (amended) on the sample store: `DELETE` on the missing
row `k2` of table `t1` of database `d1`. -/
theorem C2_missing_resource_witness :
    str "d1" ≠ [] ∧ slash ∉ str "d1" ∧ slash ∉ str "t1" ∧
    sampleStore.row (str "d1") (str "t1") (str "k2") = none ∧
    Rejects asciiLib (memBackend noEngine) ⟨str "DELETE", str "/d1/rest/t1/k2", .ok []⟩
      sampleStore 404 :=
  ⟨by decide, by decide, by decide, by decide,
    (C2_missing_resource asciiLib noEngine sampleStore (str "d1") (str "t1") (str "k2")
      (str "DELETE") [] (.ok []) (by decide) (by decide) (by decide)
      (Or.inr (Or.inr rfl))).2.2 (by decide)⟩

/-- C3, as stated, fails at row level: on the sample store, whose database
`d1`, table `t1` and row `k1` exist, a `POST /d1/rest/t1/k1` whose body cannot
be read is answered 500 `error reading message body` after the database and
table existence checks (none of which fails), not 409. -/
theorem C3_counterexample :
    (sampleStore.row (str "d1") (str "t1") (str "k1")).isSome = true ∧
    handler asciiLib (memBackend noEngine)
        ⟨str "POST", str "/d1/rest/t1/k1", .error (str "unexpected EOF")⟩ ⟨sampleStore, []⟩ =
      (.responded (httpError (str "error reading message body") 500),
        ⟨sampleStore, [⟨.dbExists (str "d1"), .answered true⟩,
          ⟨.tableExists (str "d1") (str "t1"), .answered true⟩]⟩) ∧
    (handler asciiLib (memBackend noEngine)
        ⟨str "POST", str "/d1/rest/t1/k1", .error (str "unexpected EOF")⟩
        ⟨sampleStore, []⟩).1.status = some 500 ∧
    ¬ Rejects asciiLib (memBackend noEngine)
        ⟨str "POST", str "/d1/rest/t1/k1", .error (str "unexpected EOF")⟩ sampleStore 409 := by
  refine ⟨by decide, rfl, rfl, ?_⟩
  intro h
  have h1 : (500 : Nat) = 409 := Option.some.inj h.1
  exact absurd h1 (by decide)

/-- C3, amended: on the in-memory store, a POST that addresses a database or
a table which exists already, or a row which exists already with a request
body that can be read, is answered 409, leaves the store as it was (so the
value of the existing row is the one it had) and makes no mutating call.  At
row level the body is read after the database and table existence checks and
before the row is looked at: a row-level POST whose body cannot be read is
answered 500 `error reading message body` after those two checks, with no
row call, the store as it was and no mutating call.  The names are path
segments (`d` non-empty, no separator in `d` or `t`). -/
theorem C3_post_on_existing (lib : Stdlib)
    (eng : Store → GoString → GoString → Except GoString QueryResult) (s : Store)
    (d t k B e : GoString) (body : Except GoString GoString)
    (hne : d ≠ []) (hd : slash ∉ d) (ht : slash ∉ t) :
    ((s.db d).isSome = true →
      Rejects lib (memBackend eng) ⟨str "POST", str "/" ++ d, body⟩ s 409) ∧
    ((s.table d t).isSome = true →
      Rejects lib (memBackend eng) ⟨str "POST", str "/" ++ d ++ str "/rest/" ++ t, body⟩ s 409) ∧
    ((s.row d t k).isSome = true →
      Rejects lib (memBackend eng)
        ⟨str "POST", str "/" ++ d ++ str "/rest/" ++ t ++ str "/" ++ k, .ok B⟩ s 409) ∧
    ((s.table d t).isSome = true →
      handler lib (memBackend eng)
          ⟨str "POST", str "/" ++ d ++ str "/rest/" ++ t ++ str "/" ++ k, .error e⟩ ⟨s, []⟩ =
        (.responded (httpError (str "error reading message body") 500),
          ⟨s, [⟨.dbExists d, .answered true⟩, ⟨.tableExists d t, .answered true⟩]⟩) ∧
      Rejects lib (memBackend eng)
        ⟨str "POST", str "/" ++ d ++ str "/rest/" ++ t ++ str "/" ++ k, .error e⟩ s 500) := by
  refine ⟨?_, ?_, ?_, ?_⟩
  · intro h
    refine Rejects_of_run
      ((handler_database_url lib _ d _ body _ hne hd).trans
        (mem_db_post_existing lib eng d s [] h)) ?_
    intro e he
    simp only [List.nil_append, List.mem_singleton] at he
    subst he
    rfl
  · intro h
    have hdb := Store.db_isSome_of_table h
    refine Rejects_of_run
      ((mem_table_url lib eng d t _ body s [] hne hd ht hdb).trans
        (mem_table_post_existing lib eng d t s _ h)) ?_
    intro e he
    simp only [List.nil_append, List.singleton_append, List.mem_cons, List.mem_singleton,
      List.not_mem_nil, or_false] at he
    rcases he with rfl | rfl <;> rfl
  · intro h
    have htab := Store.table_isSome_of_row h
    refine Rejects_of_run
      ((mem_row_url lib eng d t k _ B s [] hne hd ht htab).trans
        (mem_row_post_existing eng d t k B s _ h)) ?_
    intro e he
    simp only [List.nil_append, List.cons_append, List.mem_cons, List.mem_singleton,
      List.not_mem_nil, or_false] at he
    rcases he with rfl | rfl | rfl <;> rfl
  · intro h
    have hrun := mem_row_url_unreadable lib eng d t k (str "POST") e s [] hne hd ht h
    rw [List.nil_append] at hrun
    refine ⟨hrun, Rejects_of_run hrun ?_⟩
    intro ev he
    simp only [List.mem_cons, List.mem_singleton, List.not_mem_nil, or_false] at he
    rcases he with rfl | rfl <;> rfl

/-- Witness for C3 (amended) on the sample store, whose database `d1`, table
`t1` and row `k1` exist: the three POSTs with a readable body, and the
row-level POST with a body that cannot be read. -/
theorem C3_post_on_existing_witness :
    str "d1" ≠ [] ∧ slash ∉ str "d1" ∧ slash ∉ str "t1" ∧
    Rejects asciiLib (memBackend noEngine) ⟨str "POST", str "/d1", .ok []⟩ sampleStore 409 ∧
    Rejects asciiLib (memBackend noEngine) ⟨str "POST", str "/d1/rest/t1", .ok []⟩
      sampleStore 409 ∧
    Rejects asciiLib (memBackend noEngine) ⟨str "POST", str "/d1/rest/t1/k1", .ok (str "v2")⟩
      sampleStore 409 ∧
    Rejects asciiLib (memBackend noEngine)
      ⟨str "POST", str "/d1/rest/t1/k1", .error (str "unexpected EOF")⟩ sampleStore 500 :=
  ⟨by decide, by decide, by decide,
    (C3_post_on_existing asciiLib noEngine sampleStore (str "d1") (str "t1") (str "k1")
      (str "v2") (str "unexpected EOF") (.ok []) (by decide) (by decide) (by decide)).1
      (by decide),
    (C3_post_on_existing asciiLib noEngine sampleStore (str "d1") (str "t1") (str "k1")
      (str "v2") (str "unexpected EOF") (.ok []) (by decide) (by decide) (by decide)).2.1
      (by decide),
    (C3_post_on_existing asciiLib noEngine sampleStore (str "d1") (str "t1") (str "k1")
      (str "v2") (str "unexpected EOF") (.ok []) (by decide) (by decide) (by decide)).2.2.1
      (by decide),
    ((C3_post_on_existing asciiLib noEngine sampleStore (str "d1") (str "t1") (str "k1")
      (str "v2") (str "unexpected EOF") (.ok []) (by decide) (by decide) (by decide)).2.2.2
      (by decide)).2⟩

/-- C4: on the in-memory store (no call fails), for every database `d`, table
`t`, key `k` and byte sequence `B` such that the row exists, `PUT /d/rest/t/k`
with body `B` is answered 200 with an empty body, and the `GET /d/rest/t/k`
that follows it is answered 200 with the body exactly `B`.  The names are
path segments: `d` is non-empty and neither `d` nor `t` holds a separator. -/
theorem C4_put_then_get (lib : Stdlib)
    (eng : Store → GoString → GoString → Except GoString QueryResult)
    (s : Store) (tr : List Event) (d t k B g : GoString)
    (hne : d ≠ []) (hd : slash ∉ d) (ht : slash ∉ t)
    (hrow : (s.row d t k).isSome = true) :
    (handler lib (memBackend eng)
        ⟨str "PUT", str "/" ++ d ++ str "/rest/" ++ t ++ str "/" ++ k, .ok B⟩ ⟨s, tr⟩).1
      = .responded ⟨200, [], []⟩ ∧
    (handler lib (memBackend eng)
        ⟨str "GET", str "/" ++ d ++ str "/rest/" ++ t ++ str "/" ++ k, .ok g⟩
        (handler lib (memBackend eng)
          ⟨str "PUT", str "/" ++ d ++ str "/rest/" ++ t ++ str "/" ++ k, .ok B⟩ ⟨s, tr⟩).2).1
      = .responded ⟨200, [], B⟩ := by
  have htab := Store.table_isSome_of_row hrow
  have hdb := Store.db_isSome_of_table htab
  obtain ⟨ts, hts⟩ := Option.isSome_iff_exists.mp hdb
  have htab2 := htab
  rw [Store.table_of_db hts] at htab2
  obtain ⟨rows, hrows⟩ := Option.isSome_iff_exists.mp htab2
  rw [mem_row_url lib eng d t k _ B s tr hne hd ht htab,
    mem_row_put_existing eng d t k B _ _ ts rows hts hrows hrow]
  refine ⟨rfl, ?_⟩
  rw [mem_row_url lib eng d t k _ g _ _ hne hd ht
      (by simp only [Store.table_set, Option.isSome_some]),
    mem_row_get_existing eng d t k g B _ _ (Store.row_set _ d t k B ts rows)]
  rfl

/-- Witness for C4: row `k1` of the sample store is overwritten with the
bytes 0, 255, 47 and read back. -/
theorem C4_put_then_get_witness :
    str "d1" ≠ [] ∧ slash ∉ str "d1" ∧ slash ∉ str "t1" ∧
    (sampleStore.row (str "d1") (str "t1") (str "k1")).isSome = true ∧
    (handler asciiLib (memBackend noEngine)
        ⟨str "PUT", str "/d1/rest/t1/k1", .ok [0, 255, 47]⟩ ⟨sampleStore, []⟩).1
      = .responded ⟨200, [], []⟩ ∧
    (handler asciiLib (memBackend noEngine) ⟨str "GET", str "/d1/rest/t1/k1", .ok []⟩
        (handler asciiLib (memBackend noEngine)
          ⟨str "PUT", str "/d1/rest/t1/k1", .ok [0, 255, 47]⟩ ⟨sampleStore, []⟩).2).1
      = .responded ⟨200, [], [0, 255, 47]⟩ :=
  ⟨by decide, by decide, by decide, by decide,
    C4_put_then_get asciiLib noEngine sampleStore [] (str "d1") (str "t1") (str "k1")
      [0, 255, 47] [] (by decide) (by decide) (by decide) (by decide)⟩

/-- C5 (the code at the inputs of the claim): no path takes the 400 branch
of `handler`, because `SplitN` never returns an empty list; a path that is
empty or holds only separators gives one empty component, and the request is
handled at database level for the database named by the empty string.  So,
whatever the backing store, a `GET` on such a path starts with the existence
check for that name.  On the empty in-memory store `GET /` is answered 404
after that check, and `POST /` creates a database with the empty name and is
answered 200. -/
theorem C5_empty_path_reaches_database_level {σ : Type} (lib : Stdlib) (b : Backend σ) (n : Nat)
    (m : GoString) (body : Except GoString GoString) (w : World σ) :
    (∀ p : GoString, SplitN slash (TrimLeft p (str "/")) 3 ≠ []) ∧
    handler lib b ⟨m, List.replicate n slash, body⟩ w = handleDatabase lib b [] m w ∧
    (∃ res rest, (handler lib b ⟨str "GET", List.replicate n slash, body⟩ w).2.trace =
      w.trace ++ ⟨.dbExists [], res⟩ :: rest) ∧
    handler asciiLib (memBackend noEngine) ⟨str "GET", str "/", .ok []⟩ ⟨[], []⟩ =
      (.responded (httpError (str "db doesn't exist") 404),
        ⟨[], [⟨.dbExists [], .answered false⟩]⟩) ∧
    handler asciiLib (memBackend noEngine) ⟨str "POST", str "/", .ok []⟩ ⟨[], []⟩ =
      (.responded ⟨200, [], []⟩,
        ⟨[([], [])], [⟨.dbExists [], .answered false⟩, ⟨.dbCreate [], .done⟩]⟩) := by
  have h1 : TrimLeft (List.replicate n slash) (str "/") = [] := by
    have := TrimLeft_slashes n []
    simpa [TrimLeft] using this
  have h2 : ∀ v : GoString, handler lib b ⟨v, List.replicate n slash, body⟩ w =
      handleDatabase lib b [] v w := by
    intro v
    simp only [handler, h1]
    rfl
  refine ⟨fun p => SplitN_ne_nil slash _ 2, h2 m, ?_, rfl, rfl⟩
  rw [h2]
  unfold handleDatabase
  simp only [if_true]
  obtain ⟨r1, s1, e1⟩ := DbExists_eq b [] w
  rw [e1]
  rcases r1 with _ | _ | _
  · exact ⟨_, [], rfl⟩
  · exact ⟨_, [], rfl⟩
  · obtain ⟨r2, s2, e2⟩ := ListTables_eq b [] ⟨s1, w.trace ++ [⟨.dbExists [], .ofExists (.ok true)⟩]⟩
    simp only [e2]
    refine ⟨.answered true, [⟨.dbListTables [], .ofExcept r2⟩], ?_⟩
    cases r2 <;> simp [Result.ofExists]

/-- C6 (the code at the failing input): on the sample store behind a
connection that breaks streams, the scan made for `GET /d1/rest/t1` stops
with an error after the key `k1`, and the request is answered 200 with the
keys read so far; the result stream of the query made for
`GET /d1/query/select k from t1` stops with an error after one row, and the
request is answered 200 with that row.  Neither is answered 500. -/
theorem C6_stream_error_is_answered_200 :
    handler asciiLib brokenStreams ⟨str "GET", str "/d1/rest/t1", .ok []⟩ ⟨sampleStore, []⟩ =
      (.responded ⟨200, [(str "Content-Type", str "Application/json")],
          str "[\"//d1/t1/k1\"]"⟩,
        ⟨sampleStore, [⟨.dbExists (str "d1"), .answered true⟩,
          ⟨.tableExists (str "d1") (str "t1"), .answered true⟩,
          ⟨.tableScan (str "d1") (str "t1"), .broke⟩]⟩) ∧
    handler asciiLib brokenStreams ⟨str "GET", str "/d1/query/select k from t1", .ok []⟩
        ⟨sampleStore, []⟩ =
      (.responded ⟨200, [(str "Content-Type", str "Application/json")],
          str "[\x7b\"k\":\"k1\"\x7d]"⟩,
        ⟨sampleStore, [⟨.dbExec (str "d1") (str "select k from t1"), .broke⟩]⟩) := by
  constructor <;> rfl

/-- C7: in the calls made for a request on the rest route (`handleRest`, for
any remainder, verb, body, backing store and call outcomes), the database
existence check is the first call and is made exactly once; every table call
(Exists, Scan, Create) comes after that check answered true; and every row
call (Exists, Get, Put, Delete) comes after a table existence check that
answered true. -/
theorem C7_existence_checks_gate_calls {σ : Type} (lib : Stdlib) (b : Backend σ)
    (d rem : GoString) (r : Request) (s : σ) :
    (∃ res rest, (handleRest lib b d rem r ⟨s, []⟩).2.trace = ⟨.dbExists d, res⟩ :: rest ∧
      ∀ e ∈ rest, e.call.isDbExists = false) ∧
    (∀ (i : Nat) (e : Event), (handleRest lib b d rem r ⟨s, []⟩).2.trace[i]? = some e →
      e.call.isTableCall = true →
      ∃ j, j < i ∧
        (handleRest lib b d rem r ⟨s, []⟩).2.trace[j]? =
          some (Event.mk (.dbExists d) (.answered true))) ∧
    (∀ (i : Nat) (e : Event), (handleRest lib b d rem r ⟨s, []⟩).2.trace[i]? = some e →
      e.call.isRowCall = true →
      ∃ j t, j < i ∧
        (handleRest lib b d rem r ⟨s, []⟩).2.trace[j]? =
          some (Event.mk (.tableExists d t) (.answered true))) := by
  obtain ⟨res, ext, hT, hres, hshape⟩ := handleRest_trace lib b d rem r ⟨s, []⟩
  simp only [List.nil_append] at hT
  rw [hT]
  refine ⟨⟨res, ext, rfl, ?_⟩, ?_, ?_⟩
  · intro e he
    rcases hshape with hall | ⟨t, res2, ext2, rfl, _, hall⟩
    · exact Call.not_dbExists_of_tableCall (hall e he)
    · rcases List.mem_cons.mp he with rfl | he2
      · rfl
      · exact Call.not_dbExists_of_rowCall (hall e he2)
  · intro i e hi htab
    cases i with
    | zero =>
      simp only [List.getElem?_cons_zero, Option.some.injEq] at hi
      subst hi
      exact absurd htab Bool.false_ne_true
    | succ i =>
      have hne : ext ≠ [] := by
        rintro rfl
        simp at hi
      refine ⟨0, Nat.succ_pos i, ?_⟩
      rw [hres hne, List.getElem?_cons_zero]
  · intro i e hi hrow
    cases i with
    | zero =>
      simp only [List.getElem?_cons_zero, Option.some.injEq] at hi
      subst hi
      exact absurd hrow Bool.false_ne_true
    | succ i =>
      simp only [List.getElem?_cons_succ] at hi
      rcases hshape with hall | ⟨t, res2, ext2, rfl, hres2, hall⟩
      · have hmem : e ∈ ext := List.getElem?_mem hi
        have := Call.not_rowCall_of_tableCall (hall e hmem)
        rw [hrow] at this
        exact absurd this.symm Bool.false_ne_true
      · cases i with
        | zero =>
          simp only [List.getElem?_cons_zero, Option.some.injEq] at hi
          subst hi
          exact absurd hrow Bool.false_ne_true
        | succ i =>
          have hne : ext2 ≠ [] := by
            rintro rfl
            simp at hi
          refine ⟨1, t, by omega, ?_⟩
          rw [hres2 hne, List.getElem?_cons_succ, List.getElem?_cons_zero]

/-- C8: when the path has at least two components `d`, `a`, the request goes
to `handleRest`, `handleQuery` or `handleSyncgroup` according to whether the
lower-cased `a` is `rest`, `query` or `syncgroup`, with the third component
(or the empty string) as remainder; for every other `a`, the empty one
included, the answer is 400 `unknown action` and the world is untouched (no
backing-store call).  `REST`, `Rest` and `rest` all lower-case to `rest`. -/
theorem C8_action_routing {σ : Type} (lib : Stdlib) (b : Backend σ) (r : Request) (w : World σ)
    (d a : GoString) (rest : List GoString)
    (h : SplitN slash (TrimLeft r.Path (str "/")) 3 = d :: a :: rest) :
    (ToLower lib a = str "rest" → handler lib b r w = handleRest lib b d (rest.headD []) r w) ∧
    (ToLower lib a = str "query" → handler lib b r w = handleQuery lib b d (rest.headD []) r w) ∧
    (ToLower lib a = str "syncgroup" →
      handler lib b r w = handleSyncgroup d (rest.headD []) r w) ∧
    (ToLower lib a ≠ str "rest" → ToLower lib a ≠ str "query" →
      ToLower lib a ≠ str "syncgroup" →
      handler lib b r w = (.responded (httpError (str "unknown action") 400), w)) ∧
    (a = [] → handler lib b r w = (.responded (httpError (str "unknown action") 400), w)) ∧
    ToLower lib (str "REST") = str "rest" ∧ ToLower lib (str "Rest") = str "rest" ∧
    ToLower lib (str "rest") = str "rest" := by
  have hq : str "query" ≠ str "rest" := by decide
  have hs1 : str "syncgroup" ≠ str "rest" := by decide
  have hs2 : str "syncgroup" ≠ str "query" := by decide
  refine ⟨?_, ?_, ?_, ?_, ?_, rfl, rfl, rfl⟩
  · intro ha
    simp only [handler, h, ha, if_true]
  · intro ha
    simp only [handler, h, ha, hq, if_false, if_true]
  · intro ha
    simp only [handler, h, ha, hs1, hs2, if_false, if_true]
  · intro h1 h2 h3
    simp only [handler, h, h1, h2, h3, if_false]
  · intro ha
    subst ha
    have e0 : ToLower lib [] = [] := rfl
    have e1 : ToLower lib [] ≠ str "rest" := by rw [e0]; decide
    have e2 : ToLower lib [] ≠ str "query" := by rw [e0]; decide
    have e3 : ToLower lib [] ≠ str "syncgroup" := by rw [e0]; decide
    simp only [handler, h, e1, e2, e3, if_false]

/-- Witness for C8: the path `/d1/REST/t1/k1`, whose components are `d1`,
`REST` and `t1/k1`. -/
theorem C8_action_routing_witness :
    SplitN slash (TrimLeft (str "/d1/REST/t1/k1") (str "/")) 3 =
      [str "d1", str "REST", str "t1/k1"] ∧
    handler asciiLib (memBackend noEngine) ⟨str "GET", str "/d1/REST/t1/k1", .ok []⟩
        ⟨sampleStore, []⟩ =
      handleRest asciiLib (memBackend noEngine) (str "d1") (str "t1/k1")
        ⟨str "GET", str "/d1/REST/t1/k1", .ok []⟩ ⟨sampleStore, []⟩ :=
  ⟨by decide,
    (C8_action_routing asciiLib (memBackend noEngine) ⟨str "GET", str "/d1/REST/t1/k1", .ok []⟩
      ⟨sampleStore, []⟩ (str "d1") (str "REST") [str "t1/k1"] (by decide)).1 rfl⟩

/-- C9: for every non-empty database name `d` without a separator, every
table name `t` without a separator, every row key `k` (separators allowed)
and any number `n` of leading separators, the path `/d` is handled by
`handleDatabase` for `d`; the path `/d/rest/t` is handled, once the database
existence check has answered true, by `handleTable` for `d` and `t`; and the
path `/d/rest/t/k` is handled, once the database and table existence checks
have answered true, by `handleRow` for `d`, `t` and the key exactly `k` (with
the bytes of the request body, which has been read).  The names are passed on
byte for byte. -/
theorem C9_dispatch_levels {σ : Type} (lib : Stdlib) (b : Backend σ) (n : Nat)
    (d t k m : GoString) (body : Except GoString GoString) (bytes : GoString)
    (w w1 w2 : World σ) (hne : d ≠ []) (hd : slash ∉ d) (ht : slash ∉ t) :
    handler lib b ⟨m, List.replicate n slash ++ d, body⟩ w = handleDatabase lib b d m w ∧
    (b.DbExists d w = (.ok true, w1) →
      handler lib b ⟨m, List.replicate n slash ++ d ++ str "/rest/" ++ t, body⟩ w =
        handleTable lib b d t m w1) ∧
    (b.DbExists d w = (.ok true, w1) → b.TableExists d t w1 = (.ok true, w2) →
      handler lib b ⟨m, List.replicate n slash ++ d ++ str "/rest/" ++ t ++ str "/" ++ k,
          .ok bytes⟩ w =
        handleRow b d t k bytes m w2) := by
  refine ⟨handler_database_path lib b n d m body w hne hd, ?_, ?_⟩
  · intro h1
    rw [handler_rest_path lib b n d t m body w hne hd]
    exact handleRest_table lib b d t _ w w1 ht h1
  · intro h1 h2
    have := handler_rest_path lib b n d (t ++ str "/" ++ k) m (.ok bytes) w hne hd
    simp only [← List.append_assoc] at this
    rw [this]
    exact handleRest_row lib b d t k bytes _ w w1 w2 ht h1 h2 rfl

/-- Witness for C9 on the sample store: two leading separators, database `d1`,
table `t1` and the key `a/b`. -/
theorem C9_dispatch_levels_witness :
    str "d1" ≠ [] ∧ slash ∉ str "d1" ∧ slash ∉ str "t1" ∧
    handler asciiLib (memBackend noEngine) ⟨str "GET", str "//d1", .ok []⟩ ⟨sampleStore, []⟩ =
      handleDatabase asciiLib (memBackend noEngine) (str "d1") (str "GET") ⟨sampleStore, []⟩ ∧
    handler asciiLib (memBackend noEngine) ⟨str "GET", str "//d1/rest/t1", .ok []⟩
        ⟨sampleStore, []⟩ =
      handleTable asciiLib (memBackend noEngine) (str "d1") (str "t1") (str "GET")
        ⟨sampleStore, [⟨.dbExists (str "d1"), .answered true⟩]⟩ ∧
    handler asciiLib (memBackend noEngine) ⟨str "GET", str "//d1/rest/t1/a/b", .ok []⟩
        ⟨sampleStore, []⟩ =
      handleRow (memBackend noEngine) (str "d1") (str "t1") (str "a/b") [] (str "GET")
        ⟨sampleStore, [⟨.dbExists (str "d1"), .answered true⟩,
          ⟨.tableExists (str "d1") (str "t1"), .answered true⟩]⟩ :=
  ⟨by decide, by decide, by decide,
    (C9_dispatch_levels asciiLib (memBackend noEngine) 2 (str "d1") (str "t1") (str "a/b")
      (str "GET") (.ok []) [] ⟨sampleStore, []⟩
      ⟨sampleStore, [⟨.dbExists (str "d1"), .answered true⟩]⟩
      ⟨sampleStore, [⟨.dbExists (str "d1"), .answered true⟩,
          ⟨.tableExists (str "d1") (str "t1"), .answered true⟩]⟩
      (by decide) (by decide) (by decide)).1,
    (C9_dispatch_levels asciiLib (memBackend noEngine) 2 (str "d1") (str "t1") (str "a/b")
      (str "GET") (.ok []) [] ⟨sampleStore, []⟩
      ⟨sampleStore, [⟨.dbExists (str "d1"), .answered true⟩]⟩
      ⟨sampleStore, [⟨.dbExists (str "d1"), .answered true⟩,
          ⟨.tableExists (str "d1") (str "t1"), .answered true⟩]⟩
      (by decide) (by decide) (by decide)).2.1 rfl,
    (C9_dispatch_levels asciiLib (memBackend noEngine) 2 (str "d1") (str "t1") (str "a/b")
      (str "GET") (.ok []) [] ⟨sampleStore, []⟩
      ⟨sampleStore, [⟨.dbExists (str "d1"), .answered true⟩]⟩
      ⟨sampleStore, [⟨.dbExists (str "d1"), .answered true⟩,
          ⟨.tableExists (str "d1") (str "t1"), .answered true⟩]⟩
      (by decide) (by decide) (by decide)).2.2 rfl rfl⟩

/-- C10: when the database existence check answers true and `ListTables`
returns the names `n1..nm`, `GET /d` is answered 200 with the JSON array of
the strings `//d/n1`, ..., `//d/nm`; when the database and table existence
checks answer true and the scan yields the keys `k1..km` without an error,
`GET /d/rest/t` is answered 200 with the JSON array of the strings
`//d/t/k1`, ..., `//d/t/km`.  The array holds one string per enumerated
name, in the order of the enumeration; the empty enumeration gives `[]`; and
a string of HTML-safe ASCII is encoded as itself between double quotes. -/
theorem C10_collection_listings {σ : Type} (lib : Stdlib) (b : Backend σ) (d t : GoString)
    (body : Except GoString GoString) (w w1 w2 w3 : World σ) (names keys : List GoString)
    (hne : d ≠ []) (hd : slash ∉ d) (ht : slash ∉ t) :
    (b.DbExists d w = (.ok true, w1) → b.ListTables d w1 = (.ok names, w2) →
      handler lib b ⟨str "GET", str "/" ++ d, body⟩ w =
        (.responded ⟨200, [(str "Content-Type", str "Application/json")],
          str "[" ++
            List.intercalate (str ",")
              (names.map (fun n => jsonString lib (str "//" ++ d ++ str "/" ++ n))) ++
            str "]"⟩, w2)) ∧
    (b.DbExists d w = (.ok true, w1) → b.TableExists d t w1 = (.ok true, w2) →
      b.Scan d t w2 = ((keys, none), w3) →
      handler lib b ⟨str "GET", str "/" ++ d ++ str "/rest/" ++ t, body⟩ w =
        (.responded ⟨200, [(str "Content-Type", str "Application/json")],
          str "[" ++
            List.intercalate (str ",")
              (keys.map (fun k =>
                jsonString lib (str "//" ++ d ++ str "/" ++ t ++ str "/" ++ k))) ++
            str "]"⟩, w3)) ∧
    str "[" ++ List.intercalate (str ",") (([] : List GoString).map (jsonString lib)) ++ str "]" =
      str "[]" ∧
    (∀ s : GoString, s.all htmlSafe = true → jsonString lib s = str "\"" ++ s ++ str "\"") := by
  refine ⟨?_, ?_, rfl, ?_⟩
  · intro h1 h2
    rw [handler_database_url lib b d _ body w hne hd]
    simp only [handleDatabase, if_true, h1, h2, writeJSON, marshalStrings, List.map_map]
    rfl
  · intro h1 h2 h3
    rw [handler_table_url lib b d t _ body w w1 hne hd ht h1]
    simp only [handleTable, if_true, h2, h3, writeJSON, marshalStrings, List.map_map]
    rfl
  · intro s hs
    simp only [jsonString, hs, if_true]

/-- Witness for C10 on the sample store: the one table `t1` of `d1` and its
one key `k1`. -/
theorem C10_collection_listings_witness :
    str "d1" ≠ [] ∧ slash ∉ str "d1" ∧ slash ∉ str "t1" ∧
    (handler asciiLib (memBackend noEngine) ⟨str "GET", str "/d1", .ok []⟩
        ⟨sampleStore, []⟩).1 =
      .responded ⟨200, [(str "Content-Type", str "Application/json")], str "[\"//d1/t1\"]"⟩ ∧
    (handler asciiLib (memBackend noEngine) ⟨str "GET", str "/d1/rest/t1", .ok []⟩
        ⟨sampleStore, []⟩).1 =
      .responded ⟨200, [(str "Content-Type", str "Application/json")],
        str "[\"//d1/t1/k1\"]"⟩ :=
  ⟨by decide, by decide, by decide,
    congrArg Prod.fst
      ((C10_collection_listings asciiLib (memBackend noEngine) (str "d1") (str "t1") (.ok [])
        ⟨sampleStore, []⟩ ⟨sampleStore, [⟨.dbExists (str "d1"), .answered true⟩]⟩
        ⟨sampleStore, [⟨.dbExists (str "d1"), .answered true⟩,
          ⟨.dbListTables (str "d1"), .done⟩]⟩
        ⟨sampleStore, []⟩ [str "t1"] [] (by decide) (by decide) (by decide)).1 rfl rfl),
    congrArg Prod.fst
      ((C10_collection_listings asciiLib (memBackend noEngine) (str "d1") (str "t1") (.ok [])
        ⟨sampleStore, []⟩ ⟨sampleStore, [⟨.dbExists (str "d1"), .answered true⟩]⟩
        ⟨sampleStore, [⟨.dbExists (str "d1"), .answered true⟩,
          ⟨.tableExists (str "d1") (str "t1"), .answered true⟩]⟩
        ⟨sampleStore, [⟨.dbExists (str "d1"), .answered true⟩,
          ⟨.tableExists (str "d1") (str "t1"), .answered true⟩,
          ⟨.tableScan (str "d1") (str "t1"), .done⟩]⟩
        [] [str "k1"] (by decide) (by decide) (by decide)).2.1 rfl rfl rfl)⟩

/-- C11: a `GET` on `/d/query/q` makes one call, `db.Exec` on database `d`
with exactly the text `q` (all that follows the second separator, separators
included); and when that call returns distinct headers and rows that each
hold as many values as there are headers, and its stream runs to the end, the
answer is 200 with the JSON array of one object per row, in the order of the
stream: the keys of each object are the headers, and each header is bound to
the string of the value at its position in the row.  With the headers `k`,
`v` and the one row `k1`, `v1` the body is `[{"k":"k1","v":"v1"}]`. -/
theorem C11_query_forwarding {σ : Type} (lib : Stdlib) (b : Backend σ) (d q : GoString)
    (body : Except GoString GoString) (w w1 : World σ) (headers : List GoString)
    (rows : List (List VdlValue)) (hne : d ≠ []) (hd : slash ∉ d) (hnd : headers.Nodup)
    (hrows : ∀ row ∈ rows, row.length = headers.length) :
    (handler lib b ⟨str "GET", str "/" ++ d ++ str "/query/" ++ q, body⟩ w).2.trace =
      w.trace ++ [⟨.dbExec d q, .ofQuery (b.Exec d q w).1⟩] ∧
    (b.Exec d q w = (.ok ⟨headers, rows, none⟩, w1) →
      ∃ results,
        handler lib b ⟨str "GET", str "/" ++ d ++ str "/query/" ++ q, body⟩ w =
          (.responded ⟨200, [(str "Content-Type", str "Application/json")],
            str "[" ++ List.intercalate (str ",") (results.map (marshalMap lib)) ++ str "]"⟩,
            w1) ∧
        List.Forall₂ (fun row m => (m.map Prod.fst).Perm headers ∧
          ∀ h v, (h, v) ∈ headers.zip row → assocGet h m = some (VdlValue.String v))
          rows results) ∧
    handler asciiLib (memBackend sampleEngine)
        ⟨str "GET", str "/d1/query/select k,v from t1", .ok []⟩ ⟨sampleStore, []⟩ =
      (.responded ⟨200, [(str "Content-Type", str "Application/json")],
        str "[\x7b\"k\":\"k1\",\"v\":\"v1\"\x7d]"⟩,
        ⟨sampleStore, [⟨.dbExec (str "d1") (str "select k,v from t1"), .done⟩]⟩) := by
  refine ⟨?_, ?_, rfl⟩
  · rw [handler_query_url lib b d q _ body w hne hd]
    simp only [handleQuery, ne_eq, not_true_eq_false, if_false]
    obtain ⟨r1, s1, h⟩ := Exec_eq b d q w
    rw [h]
    cases r1 with
    | error e => rfl
    | ok res =>
      cases hc : collectRows res.headers res.rows <;> simp only [hc]
  · intro hexec
    obtain ⟨results, hres, hall⟩ := collectRows_spec headers rows hnd hrows
    refine ⟨results, ?_, hall⟩
    rw [handler_query_url lib b d q _ body w hne hd]
    simp only [handleQuery, ne_eq, not_true_eq_false, if_false, hexec, hres, writeJSON,
      marshalMaps]

/-- Witness for C11: the sample engine, which returns the headers `k`, `v`
and the row `k1`, `v1`, behind the in-memory store. -/
theorem C11_query_forwarding_witness :
    str "d1" ≠ [] ∧ slash ∉ str "d1" ∧ [str "k", str "v"].Nodup ∧
    (∀ row ∈ [[(⟨str "k1"⟩ : VdlValue), ⟨str "v1"⟩]], row.length = [str "k", str "v"].length) ∧
    ∃ results,
      handler asciiLib (memBackend sampleEngine)
          ⟨str "GET", str "/d1/query/select k,v from t1", .ok []⟩ ⟨sampleStore, []⟩ =
        (.responded ⟨200, [(str "Content-Type", str "Application/json")],
          str "[" ++ List.intercalate (str ",") (results.map (marshalMap asciiLib)) ++ str "]"⟩,
          ⟨sampleStore, [⟨.dbExec (str "d1") (str "select k,v from t1"), .done⟩]⟩) ∧
      List.Forall₂ (fun row m => (m.map Prod.fst).Perm [str "k", str "v"] ∧
        ∀ h v, (h, v) ∈ [str "k", str "v"].zip row → assocGet h m = some (VdlValue.String v))
        [[(⟨str "k1"⟩ : VdlValue), ⟨str "v1"⟩]] results :=
  ⟨by decide, by decide, by decide, by decide,
    (C11_query_forwarding asciiLib (memBackend sampleEngine) (str "d1")
      (str "select k,v from t1") (.ok []) ⟨sampleStore, []⟩
      ⟨sampleStore, [⟨.dbExec (str "d1") (str "select k,v from t1"), .done⟩]⟩
      [str "k", str "v"] [[⟨str "k1"⟩, ⟨str "v1"⟩]] (by decide) (by decide) (by decide)
      (by decide)).2.1 rfl⟩

/-- C12: a request on a database with a verb other than GET and POST is
answered 400 with no backing-store call; a request on a table of an existing
database with such a verb is answered 400 after the database existence check
alone; and a query request with a verb other than GET is answered 400 with
no backing-store call. -/
theorem C12_unsupported_verbs {σ : Type} (lib : Stdlib) (b : Backend σ) (d t q m : GoString)
    (body : Except GoString GoString) (w w1 : World σ)
    (hne : d ≠ []) (hd : slash ∉ d) (ht : slash ∉ t) :
    (m ≠ str "GET" → m ≠ str "POST" →
      handler lib b ⟨m, str "/" ++ d, body⟩ w =
        (.responded (httpError (str "unsupported method for database") 400), w)) ∧
    (m ≠ str "GET" → m ≠ str "POST" → b.DbExists d w = (.ok true, w1) →
      handler lib b ⟨m, str "/" ++ d ++ str "/rest/" ++ t, body⟩ w =
        (.responded (httpError (str "unsupported method for database") 400), w1) ∧
      w1.trace = w.trace ++ [⟨.dbExists d, .answered true⟩]) ∧
    (m ≠ str "GET" →
      handler lib b ⟨m, str "/" ++ d ++ str "/query/" ++ q, body⟩ w =
        (.responded (httpError (str "unsupported HTTP method") 400), w)) := by
  refine ⟨?_, ?_, ?_⟩
  · intro h1 h2
    rw [handler_database_url lib b d m body w hne hd]
    exact handleDatabase_other lib b d m w h1 h2
  · intro h1 h2 h3
    constructor
    · rw [handler_table_url lib b d t m body w w1 hne hd ht h3]
      exact handleTable_other lib b d t m w1 h1 h2
    · obtain ⟨r, s1, e⟩ := DbExists_eq b d w
      rw [e] at h3
      simp only [Prod.mk.injEq] at h3
      obtain ⟨rfl, rfl⟩ := h3
      rfl
  · intro h1
    rw [handler_query_url lib b d q m body w hne hd]
    simp only [handleQuery, ne_eq, h1, not_false_eq_true, if_true]

/-- Witness for C12: the verb `PATCH` on database `d1` of the sample store,
on its table `t1`, and on a query. -/
theorem C12_unsupported_verbs_witness :
    str "d1" ≠ [] ∧ slash ∉ str "d1" ∧ slash ∉ str "t1" ∧
    handler asciiLib (memBackend noEngine) ⟨str "PATCH", str "/d1", .ok []⟩ ⟨sampleStore, []⟩ =
      (.responded (httpError (str "unsupported method for database") 400), ⟨sampleStore, []⟩) ∧
    handler asciiLib (memBackend noEngine) ⟨str "PATCH", str "/d1/rest/t1", .ok []⟩
        ⟨sampleStore, []⟩ =
      (.responded (httpError (str "unsupported method for database") 400),
        ⟨sampleStore, [⟨.dbExists (str "d1"), .answered true⟩]⟩) ∧
    handler asciiLib (memBackend noEngine) ⟨str "PATCH", str "/d1/query/select", .ok []⟩
        ⟨sampleStore, []⟩ =
      (.responded (httpError (str "unsupported HTTP method") 400), ⟨sampleStore, []⟩) :=
  ⟨by decide, by decide, by decide,
    (C12_unsupported_verbs asciiLib (memBackend noEngine) (str "d1") (str "t1") (str "select")
      (str "PATCH") (.ok []) ⟨sampleStore, []⟩
      ⟨sampleStore, [⟨.dbExists (str "d1"), .answered true⟩]⟩
      (by decide) (by decide) (by decide)).1 (by decide) (by decide),
    ((C12_unsupported_verbs asciiLib (memBackend noEngine) (str "d1") (str "t1") (str "select")
      (str "PATCH") (.ok []) ⟨sampleStore, []⟩
      ⟨sampleStore, [⟨.dbExists (str "d1"), .answered true⟩]⟩
      (by decide) (by decide) (by decide)).2.1 (by decide) (by decide) rfl).1,
    (C12_unsupported_verbs asciiLib (memBackend noEngine) (str "d1") (str "t1") (str "select")
      (str "PATCH") (.ok []) ⟨sampleStore, []⟩
      ⟨sampleStore, [⟨.dbExists (str "d1"), .answered true⟩]⟩
      (by decide) (by decide) (by decide)).2.2 (by decide)⟩

/-- C13, as stated, fails: on a store holding database `d1` with the empty
table `t1`, `POST /d1/rest` reaches the table level with the empty table
name (it checks and creates the table named by the empty string), and
`POST /d1/rest/t1/` reaches the row level with the empty row key (it checks
and puts the row whose key is the empty string). -/
theorem C13_counterexample :
    handler asciiLib (memBackend noEngine) ⟨str "POST", str "/d1/rest", .ok []⟩
        ⟨[(str "d1", [(str "t1", [])])], []⟩ =
      (.responded ⟨200, [], []⟩,
        ⟨[(str "d1", [(str "t1", []), ([], [])])],
          [⟨.dbExists (str "d1"), .answered true⟩,
            ⟨.tableExists (str "d1") [], .answered false⟩,
            ⟨.tableCreate (str "d1") [], .done⟩]⟩) ∧
    handler asciiLib (memBackend noEngine) ⟨str "POST", str "/d1/rest/t1/", .ok (str "v")⟩
        ⟨[(str "d1", [(str "t1", [])])], []⟩ =
      (.responded ⟨200, [], []⟩,
        ⟨[(str "d1", [(str "t1", [([], str "v")])])],
          [⟨.dbExists (str "d1"), .answered true⟩,
            ⟨.tableExists (str "d1") (str "t1"), .answered true⟩,
            ⟨.rowExists (str "d1") (str "t1") [], .answered false⟩,
            ⟨.rowPut (str "d1") (str "t1") [] (str "v"), .done⟩]⟩) := by
  constructor <;> rfl

/-- C13, amended: the segments of the remainder are passed on as they are
found, empty or not.  The paths `/d/rest` and `/d/rest/` are handled, once
the database existence check has answered true, by `handleTable` with the
empty table name; the path `/d/rest/t/` is handled, once the database and
table existence checks have answered true and the request body has been
read, by `handleRow` with the empty row key.  In general the table name is the whole remainder when it holds no
separator, and otherwise the table name is the text before the first
separator of the remainder and the row key the text after it. -/
theorem C13_segments_passed_as_found {σ : Type} (lib : Stdlib) (b : Backend σ) (n : Nat)
    (d t m : GoString) (body : Except GoString GoString) (bytes : GoString)
    (w w1 w2 : World σ) (hne : d ≠ []) (hd : slash ∉ d) (ht : slash ∉ t) :
    (b.DbExists d w = (.ok true, w1) →
      handler lib b ⟨m, List.replicate n slash ++ d ++ str "/rest", body⟩ w =
        handleTable lib b d [] m w1 ∧
      handler lib b ⟨m, List.replicate n slash ++ d ++ str "/rest/", body⟩ w =
        handleTable lib b d [] m w1) ∧
    (b.DbExists d w = (.ok true, w1) → b.TableExists d t w1 = (.ok true, w2) →
      handler lib b ⟨m, List.replicate n slash ++ d ++ str "/rest/" ++ t ++ str "/",
          .ok bytes⟩ w =
        handleRow b d t [] bytes m w2) ∧
    (∀ rem : GoString, (slash ∉ rem ∧ SplitN slash rem 2 = [rem]) ∨
      ∃ t k, slash ∉ t ∧ rem = t ++ slash :: k ∧ SplitN slash rem 2 = [t, k]) := by
  have hnil : slash ∉ ([] : GoString) := by simp
  refine ⟨?_, ?_, SplitN_two_cases⟩
  · intro h1
    constructor
    · rw [handler_rest_bare lib b n d m body w hne hd]
      exact handleRest_table lib b d [] _ w w1 hnil h1
    · have := handler_rest_path lib b n d [] m body w hne hd
      simp only [List.append_nil] at this
      rw [this]
      exact handleRest_table lib b d [] _ w w1 hnil h1
  · intro h1 h2
    have := handler_rest_path lib b n d (t ++ str "/" ++ []) m (.ok bytes) w hne hd
    simp only [List.append_nil, ← List.append_assoc] at this
    rw [this]
    have h3 := handleRest_row lib b d t [] bytes
      ⟨m, List.replicate n slash ++ d ++ str "/rest/" ++ t ++ str "/", .ok bytes⟩ w w1 w2 ht
      h1 h2 rfl
    simp only [List.append_nil] at h3
    exact h3

/-- Witness for C13 (amended) on the sample store: `GET /d1/rest` and
`GET /d1/rest/t1/`. -/
theorem C13_segments_passed_as_found_witness :
    str "d1" ≠ [] ∧ slash ∉ str "d1" ∧ slash ∉ str "t1" ∧
    handler asciiLib (memBackend noEngine) ⟨str "GET", str "/d1/rest", .ok []⟩
        ⟨sampleStore, []⟩ =
      handleTable asciiLib (memBackend noEngine) (str "d1") [] (str "GET")
        ⟨sampleStore, [⟨.dbExists (str "d1"), .answered true⟩]⟩ ∧
    handler asciiLib (memBackend noEngine) ⟨str "GET", str "/d1/rest/t1/", .ok []⟩
        ⟨sampleStore, []⟩ =
      handleRow (memBackend noEngine) (str "d1") (str "t1") [] [] (str "GET")
        ⟨sampleStore, [⟨.dbExists (str "d1"), .answered true⟩,
          ⟨.tableExists (str "d1") (str "t1"), .answered true⟩]⟩ :=
  ⟨by decide, by decide, by decide,
    ((C13_segments_passed_as_found asciiLib (memBackend noEngine) 1 (str "d1") (str "t1")
      (str "GET") (.ok []) [] ⟨sampleStore, []⟩
      ⟨sampleStore, [⟨.dbExists (str "d1"), .answered true⟩]⟩
      ⟨sampleStore, [⟨.dbExists (str "d1"), .answered true⟩,
          ⟨.tableExists (str "d1") (str "t1"), .answered true⟩]⟩
      (by decide) (by decide) (by decide)).1 rfl).1,
    (C13_segments_passed_as_found asciiLib (memBackend noEngine) 1 (str "d1") (str "t1")
      (str "GET") (.ok []) [] ⟨sampleStore, []⟩
      ⟨sampleStore, [⟨.dbExists (str "d1"), .answered true⟩]⟩
      ⟨sampleStore, [⟨.dbExists (str "d1"), .answered true⟩,
          ⟨.tableExists (str "d1") (str "t1"), .answered true⟩]⟩
      (by decide) (by decide) (by decide)).2.1 rfl rfl⟩

/-- C14: handling a `GET` request, whatever its path (database, table, row
or query route, or none of them), makes no mutating backing-store call; and
when the reads of the backing store are stable, as those of the in-memory
store are, the store is left as it was, so handling the same `GET` again
gives the same outcome: the same status and the same body. -/
theorem C14_get_is_repeatable {σ : Type} (lib : Stdlib) (b : Backend σ) (r : Request) (s : σ)
    (hm : r.Method = str "GET") :
    (∀ e ∈ (handler lib b r ⟨s, []⟩).2.trace, e.call.mutating = false) ∧
    (ReadStable b →
      (handler lib b r ⟨s, []⟩).2.store = s ∧
      (handler lib b r ⟨(handler lib b r ⟨s, []⟩).2.store, []⟩).1 =
        (handler lib b r ⟨s, []⟩).1) ∧
    (∀ eng, ReadStable (memBackend eng)) := by
  obtain ⟨ext, he, hcase⟩ := handler_quiet lib b r ⟨s, []⟩
  rw [List.nil_append] at he
  rcases hcase with ⟨hq, hs⟩ | ⟨_, hne, _⟩
  · refine ⟨?_, ?_, memBackend_readStable⟩
    · rw [he]
      exact hq
    · intro hb
      have hstore : (handler lib b r ⟨s, []⟩).2.store = s := hs hb
      exact ⟨hstore, by rw [hstore]⟩
  · exact absurd hm hne

/-- Witness for C14: `GET /d1/rest/t1/k1` on the sample store. -/
theorem C14_get_is_repeatable_witness :
    (handler asciiLib (memBackend noEngine) ⟨str "GET", str "/d1/rest/t1/k1", .ok []⟩
      ⟨sampleStore, []⟩).2.store = sampleStore ∧
    (handler asciiLib (memBackend noEngine) ⟨str "GET", str "/d1/rest/t1/k1", .ok []⟩
      ⟨(handler asciiLib (memBackend noEngine) ⟨str "GET", str "/d1/rest/t1/k1", .ok []⟩
        ⟨sampleStore, []⟩).2.store, []⟩).1 =
      (handler asciiLib (memBackend noEngine) ⟨str "GET", str "/d1/rest/t1/k1", .ok []⟩
        ⟨sampleStore, []⟩).1 :=
  (C14_get_is_repeatable asciiLib (memBackend noEngine)
    ⟨str "GET", str "/d1/rest/t1/k1", .ok []⟩ sampleStore rfl).2.1
    (memBackend_readStable noEngine)

/-- C15: a request whose path has the components `d`, `a` and any or no
third component, with `a` the keyword `syncgroup` in any letter case, is
answered 500 `syncbase support not yet implemented` whatever the database
name, the remainder, the verb, the body and the store, and the world is left
untouched (no backing-store call). -/
theorem C15_syncgroup_not_implemented {σ : Type} (lib : Stdlib) (b : Backend σ) (r : Request)
    (w : World σ) (d a : GoString) (rest : List GoString)
    (h : SplitN slash (TrimLeft r.Path (str "/")) 3 = d :: a :: rest)
    (ha : caseVariant (str "syncgroup") a = true) :
    handler lib b r w =
      (.responded (httpError (str "syncbase support not yet implemented") 500), w) := by
  have hkw : ∀ y ∈ str "syncgroup", y < 128 ∧ ¬ (65 ≤ y ∧ y ≤ 90) := by decide
  have hl := ToLower_caseVariant lib (str "syncgroup") a hkw ha
  have e1 : str "syncgroup" ≠ str "rest" := by decide
  have e2 : str "syncgroup" ≠ str "query" := by decide
  simp only [handler, h, hl, e1, e2, if_false, if_true, handleSyncgroup]

/-- Witness for C15: `DELETE /d1/SyncGroup/any/thing`, and `GET /d1/SYNCGROUP`
with no remainder, on the sample store. -/
theorem C15_syncgroup_not_implemented_witness :
    SplitN slash (TrimLeft (str "/d1/SyncGroup/any/thing") (str "/")) 3 =
      [str "d1", str "SyncGroup", str "any/thing"] ∧
    caseVariant (str "syncgroup") (str "SyncGroup") = true ∧
    handler asciiLib (memBackend noEngine) ⟨str "DELETE", str "/d1/SyncGroup/any/thing", .ok []⟩
        ⟨sampleStore, []⟩ =
      (.responded (httpError (str "syncbase support not yet implemented") 500),
        ⟨sampleStore, []⟩) ∧
    handler asciiLib (memBackend noEngine) ⟨str "GET", str "/d1/SYNCGROUP", .ok []⟩
        ⟨sampleStore, []⟩ =
      (.responded (httpError (str "syncbase support not yet implemented") 500),
        ⟨sampleStore, []⟩) :=
  ⟨by decide, by decide,
    C15_syncgroup_not_implemented asciiLib (memBackend noEngine)
      ⟨str "DELETE", str "/d1/SyncGroup/any/thing", .ok []⟩ ⟨sampleStore, []⟩ (str "d1")
      (str "SyncGroup") [str "any/thing"] (by decide) (by decide),
    C15_syncgroup_not_implemented asciiLib (memBackend noEngine)
      ⟨str "GET", str "/d1/SYNCGROUP", .ok []⟩ ⟨sampleStore, []⟩ (str "d1")
      (str "SYNCGROUP") [] (by decide) (by decide)⟩

/-- C16: whenever a request is answered 400, 404 or 409, no call made while
handling it is a Create, a Put or a Delete; and when the reads of the
backing store are stable, as those of the in-memory store are, the store is
exactly as it was before the request. -/
theorem C16_client_errors_change_nothing {σ : Type} (lib : Stdlib) (b : Backend σ)
    (r : Request) (s : σ)
    (hst : (handler lib b r ⟨s, []⟩).1.status = some 400 ∨
      (handler lib b r ⟨s, []⟩).1.status = some 404 ∨
      (handler lib b r ⟨s, []⟩).1.status = some 409) :
    (∀ e ∈ (handler lib b r ⟨s, []⟩).2.trace, e.call.mutating = false) ∧
    (ReadStable b → (handler lib b r ⟨s, []⟩).2.store = s) ∧
    (∀ eng, ReadStable (memBackend eng)) := by
  obtain ⟨ext, he, hcase⟩ := handler_quiet lib b r ⟨s, []⟩
  rw [List.nil_append] at he
  rcases hcase with ⟨hq, hs⟩ | ⟨_, _, ho⟩
  · refine ⟨?_, hs, memBackend_readStable⟩
    rw [he]
    exact hq
  · rcases ho with ho | ho <;> rw [ho] at hst <;> simp at hst

/-- Witness for C16: `PUT /d1/rest/t1/k2` on the sample store, whose table
`t1` has no row `k2`, is answered 404. -/
theorem C16_client_errors_change_nothing_witness :
    (handler asciiLib (memBackend noEngine) ⟨str "PUT", str "/d1/rest/t1/k2", .ok (str "v")⟩
      ⟨sampleStore, []⟩).1.status = some 404 ∧
    (∀ e ∈ (handler asciiLib (memBackend noEngine)
      ⟨str "PUT", str "/d1/rest/t1/k2", .ok (str "v")⟩ ⟨sampleStore, []⟩).2.trace,
      e.call.mutating = false) ∧
    (handler asciiLib (memBackend noEngine) ⟨str "PUT", str "/d1/rest/t1/k2", .ok (str "v")⟩
      ⟨sampleStore, []⟩).2.store = sampleStore :=
  ⟨rfl,
    (C16_client_errors_change_nothing asciiLib (memBackend noEngine)
      ⟨str "PUT", str "/d1/rest/t1/k2", .ok (str "v")⟩ sampleStore (Or.inr (Or.inl rfl))).1,
    (C16_client_errors_change_nothing asciiLib (memBackend noEngine)
      ⟨str "PUT", str "/d1/rest/t1/k2", .ok (str "v")⟩ sampleStore (Or.inr (Or.inl rfl))).2.1
      (memBackend_readStable noEngine)⟩

/-- C17, as stated, fails: on the sample store, whose database `d1` and table
`t1` exist, a `PATCH /d1/rest/t1/k1` whose body cannot be read is answered 500
`error reading message body` after the database and table existence checks:
an error is written and the answer is not 200 with an empty body. -/
theorem C17_counterexample :
    (sampleStore.table (str "d1") (str "t1")).isSome = true ∧
    handler asciiLib (memBackend noEngine)
        ⟨str "PATCH", str "/d1/rest/t1/k1", .error (str "unexpected EOF")⟩ ⟨sampleStore, []⟩ =
      (.responded (httpError (str "error reading message body") 500),
        ⟨sampleStore, [⟨.dbExists (str "d1"), .answered true⟩,
          ⟨.tableExists (str "d1") (str "t1"), .answered true⟩]⟩) ∧
    (handler asciiLib (memBackend noEngine)
        ⟨str "PATCH", str "/d1/rest/t1/k1", .error (str "unexpected EOF")⟩
        ⟨sampleStore, []⟩).1.status = some 500 ∧
    (handler asciiLib (memBackend noEngine)
        ⟨str "PATCH", str "/d1/rest/t1/k1", .error (str "unexpected EOF")⟩
        ⟨sampleStore, []⟩).1 ≠ .responded ⟨200, [], []⟩ := by
  refine ⟨by decide, rfl, rfl, ?_⟩
  intro h
  have h1 : (some 500 : Option Nat) = some 200 := congrArg Outcome.status h
  exact absurd (Option.some.inj h1) (by decide)

/-- C17, amended: a row-level request whose database and table exist, whose
body can be read and whose verb is none of GET, PUT, POST and DELETE is
answered 200 with an empty body and no header set; the only calls made are
the database and table existence checks, so no row call (Exists, Get, Put,
Delete) is made.  When the body of such a request cannot be read it is
answered 500 `error reading message body` after the same two checks, again
with no row call.  With the same verb the database level and the table level
answer 400. -/
theorem C17_row_unknown_verb {σ : Type} (lib : Stdlib) (b : Backend σ)
    (d t k m B e : GoString)
    (body : Except GoString GoString) (w w1 w2 : World σ)
    (hne : d ≠ []) (hd : slash ∉ d) (ht : slash ∉ t)
    (hG : m ≠ str "GET") (hPu : m ≠ str "PUT") (hPo : m ≠ str "POST")
    (hD : m ≠ str "DELETE")
    (h1 : b.DbExists d w = (.ok true, w1)) (h2 : b.TableExists d t w1 = (.ok true, w2)) :
    handler lib b ⟨m, str "/" ++ d ++ str "/rest/" ++ t ++ str "/" ++ k, .ok B⟩ w =
      (.responded ⟨200, [], []⟩, w2) ∧
    handler lib b ⟨m, str "/" ++ d ++ str "/rest/" ++ t ++ str "/" ++ k, .error e⟩ w =
      (.responded (httpError (str "error reading message body") 500), w2) ∧
    w2.trace = w.trace ++ [⟨.dbExists d, .answered true⟩, ⟨.tableExists d t, .answered true⟩] ∧
    handler lib b ⟨m, str "/" ++ d, body⟩ w =
      (.responded (httpError (str "unsupported method for database") 400), w) ∧
    handler lib b ⟨m, str "/" ++ d ++ str "/rest/" ++ t, body⟩ w =
      (.responded (httpError (str "unsupported method for database") 400), w1) := by
  refine ⟨?_, ?_, ?_, ?_, ?_⟩
  · rw [handler_row_url lib b d t k m B w w1 w2 hne hd ht h1 h2]
    simp only [handleRow, rowGate, rowAct, hG, hPu, hPo, hD, or_self, if_false]
    rfl
  · exact handler_row_url_unreadable lib b d t k m e w w1 w2 hne hd ht h1 h2
  · obtain ⟨r, s1, e⟩ := DbExists_eq b d w
    rw [e] at h1
    simp only [Prod.mk.injEq] at h1
    obtain ⟨rfl, rfl⟩ := h1
    obtain ⟨r2, s2, e2⟩ := TableExists_eq b d t
      ⟨s1, w.trace ++ [⟨.dbExists d, .ofExists (.ok true)⟩]⟩
    rw [e2] at h2
    simp only [Prod.mk.injEq] at h2
    obtain ⟨rfl, rfl⟩ := h2
    simp [Result.ofExists]
  · rw [handler_database_url lib b d m body w hne hd]
    exact handleDatabase_other lib b d m w hG hPo
  · rw [handler_table_url lib b d t m body w w1 hne hd ht h1]
    exact handleTable_other lib b d t m w1 hG hPo

/-- Witness for C17 (amended): the verb `PATCH` on row `k1` of the sample
store, with a body that can be read and with one that cannot. -/
theorem C17_row_unknown_verb_witness :
    str "d1" ≠ [] ∧ slash ∉ str "d1" ∧ slash ∉ str "t1" ∧
    handler asciiLib (memBackend noEngine) ⟨str "PATCH", str "/d1/rest/t1/k1", .ok (str "x")⟩
        ⟨sampleStore, []⟩ =
      (.responded ⟨200, [], []⟩,
        ⟨sampleStore, [⟨.dbExists (str "d1"), .answered true⟩,
          ⟨.tableExists (str "d1") (str "t1"), .answered true⟩]⟩) ∧
    handler asciiLib (memBackend noEngine)
        ⟨str "PATCH", str "/d1/rest/t1/k1", .error (str "unexpected EOF")⟩ ⟨sampleStore, []⟩ =
      (.responded (httpError (str "error reading message body") 500),
        ⟨sampleStore, [⟨.dbExists (str "d1"), .answered true⟩,
          ⟨.tableExists (str "d1") (str "t1"), .answered true⟩]⟩) :=
  ⟨by decide, by decide, by decide,
    (C17_row_unknown_verb asciiLib (memBackend noEngine) (str "d1") (str "t1") (str "k1")
      (str "PATCH") (str "x") (str "unexpected EOF") (.ok []) ⟨sampleStore, []⟩
      ⟨sampleStore, [⟨.dbExists (str "d1"), .answered true⟩]⟩
      ⟨sampleStore, [⟨.dbExists (str "d1"), .answered true⟩,
          ⟨.tableExists (str "d1") (str "t1"), .answered true⟩]⟩
      (by decide) (by decide) (by decide) (by decide) (by decide) (by decide) (by decide)
      rfl rfl).1,
    (C17_row_unknown_verb asciiLib (memBackend noEngine) (str "d1") (str "t1") (str "k1")
      (str "PATCH") (str "x") (str "unexpected EOF") (.ok []) ⟨sampleStore, []⟩
      ⟨sampleStore, [⟨.dbExists (str "d1"), .answered true⟩]⟩
      ⟨sampleStore, [⟨.dbExists (str "d1"), .answered true⟩,
          ⟨.tableExists (str "d1") (str "t1"), .answered true⟩]⟩
      (by decide) (by decide) (by decide) (by decide) (by decide) (by decide) (by decide)
      rfl rfl).2.1⟩

/-- C18: on the in-memory store, for a table `t` of database `d` that exists
and a key `k` that is not in it, `POST /d/rest/t/k` with body `B` is answered
200; the `GET` that follows is answered 200 with the body exactly `B`; the
`DELETE` that follows is answered 200; and the `GET` after it is answered
404.  The names are path segments (`d` non-empty, no separator in `d` or
`t`). -/
theorem C18_post_get_delete_get (lib : Stdlib)
    (eng : Store → GoString → GoString → Except GoString QueryResult) (s : Store)
    (d t k B g1 g2 g3 : GoString) (hne : d ≠ []) (hd : slash ∉ d) (ht : slash ∉ t)
    (htab : (s.table d t).isSome = true) (hrow : s.row d t k = none) :
    (serve lib (memBackend eng)
      [⟨str "POST", rowPath d t k, .ok B⟩, ⟨str "GET", rowPath d t k, .ok g1⟩,
        ⟨str "DELETE", rowPath d t k, .ok g2⟩, ⟨str "GET", rowPath d t k, .ok g3⟩] s).1 =
      [.responded ⟨200, [], []⟩, .responded ⟨200, [], B⟩, .responded ⟨200, [], []⟩,
        .responded (httpError (str "specified row does not exist") 404)] := by
  have hdb := Store.db_isSome_of_table htab
  obtain ⟨ts, hts⟩ := Option.isSome_iff_exists.mp hdb
  have htab2 := htab
  rw [Store.table_of_db hts] at htab2
  obtain ⟨rows, hrows⟩ := Option.isSome_iff_exists.mp htab2
  have eRow := fun (m body : GoString) (rs : Rows) (tb : Tables) s0 tr =>
    mem_row_url lib eng d t k m body (assocSet d (assocSet t rs tb) s0) tr hne hd ht
      (by rw [Store.table_set]; rfl)
  have e1 := fun tr => (mem_row_url lib eng d t k (str "POST") B s tr hne hd ht htab).trans
    (mem_row_post_missing eng d t k B s _ ts rows hts hrows hrow)
  have e2 := fun (g v : GoString) (rs : Rows) (tb : Tables) s0 tr =>
    (eRow (str "GET") g (assocSet k v rs) tb s0 tr).trans
      (mem_row_get_existing eng d t k g v _ _ (Store.row_set _ _ _ _ _ _ _))
  have e3 := fun (g v : GoString) (rs : Rows) (tb : Tables) s0 tr =>
    (eRow (str "DELETE") g (assocSet k v rs) tb s0 tr).trans
      (mem_row_delete_existing eng d t k g _ _ (assocSet t (assocSet k v rs) tb)
        (assocSet k v rs) (Store.db_set _ _ _) (assocGet_assocSet_self _ _ _)
        (by rw [Store.row_set]; rfl))
  have e4 := fun (g : GoString) (rs : Rows) (tb : Tables) s0 tr =>
    (eRow (str "GET") g (assocDel k rs) tb s0 tr).trans
      (mem_row_missing eng d t k g (str "GET") _ _ (Or.inl rfl)
        (by rw [Store.row_of_table (Store.table_set _ _ _ _ _), assocGet_assocDel_self]))
  simp only [serve, rowPath, e1, e2, e3, e4]
  rfl

/-- Witness for C18: the new key `k2` in table `t1` of the sample store. -/
theorem C18_post_get_delete_get_witness :
    str "d1" ≠ [] ∧ slash ∉ str "d1" ∧ slash ∉ str "t1" ∧
    (sampleStore.table (str "d1") (str "t1")).isSome = true ∧
    sampleStore.row (str "d1") (str "t1") (str "k2") = none ∧
    (serve asciiLib (memBackend noEngine)
      [⟨str "POST", rowPath (str "d1") (str "t1") (str "k2"), .ok (str "v2")⟩,
        ⟨str "GET", rowPath (str "d1") (str "t1") (str "k2"), .ok []⟩,
        ⟨str "DELETE", rowPath (str "d1") (str "t1") (str "k2"), .ok []⟩,
        ⟨str "GET", rowPath (str "d1") (str "t1") (str "k2"), .ok []⟩] sampleStore).1 =
      [.responded ⟨200, [], []⟩, .responded ⟨200, [], str "v2"⟩, .responded ⟨200, [], []⟩,
        .responded (httpError (str "specified row does not exist") 404)] :=
  ⟨by decide, by decide, by decide, by decide, by decide,
    C18_post_get_delete_get asciiLib noEngine sampleStore (str "d1") (str "t1") (str "k2")
      (str "v2") [] [] [] (by decide) (by decide) (by decide) (by decide) (by decide)⟩

/-- C19: in `handleQuery`, when the query call returns the headers `H` and
every result row has at most as many values as `H`, no lookup `headers[i]`
is out of range and the handler answers 200; the handler panics exactly when
some result row has more values than there are headers. -/
theorem C19_header_lookups_in_range {σ : Type} (lib : Stdlib) (b : Backend σ) (d q : GoString)
    (r : Request) (w w1 : World σ) (res : QueryResult) (hm : r.Method = str "GET")
    (hexec : b.Exec d q w = (.ok res, w1)) :
    ((∀ row ∈ res.rows, row.length ≤ res.headers.length) →
      (collectRows res.headers res.rows).isSome = true ∧
      (handleQuery lib b d q r w).1.status = some 200) ∧
    ((handleQuery lib b d q r w).1 = .panicked ↔
      ∃ row ∈ res.rows, res.headers.length < row.length) := by
  have hrun : handleQuery lib b d q r w =
      match collectRows res.headers res.rows with
      | none => (.panicked, w1)
      | some results => (.responded (writeJSON (marshalMaps lib results)), w1) := by
    simp only [handleQuery, hm, ne_eq, not_true_eq_false, if_false, hexec]
  have hiff := collectRows_eq_none_iff res.headers res.rows
  constructor
  · intro hle
    cases hc : collectRows res.headers res.rows with
    | none =>
      obtain ⟨row, hmem, hlt⟩ := hiff.mp hc
      exact absurd (hle row hmem) (by omega)
    | some results =>
      rw [hrun, hc]
      exact ⟨rfl, rfl⟩
  · rw [hrun]
    cases hc : collectRows res.headers res.rows with
    | none =>
      simp only [true_iff]
      exact hiff.mp hc
    | some results =>
      constructor
      · intro h
        exact absurd h (by simp)
      · intro h
        rw [hiff.mpr h] at hc
        exact absurd hc (by simp)

/-- Witness for C19: the sample engine (two headers, one row of two values)
is answered 200, and the engine with one header and a row of two values makes
the handler panic. -/
theorem C19_header_lookups_in_range_witness :
    (handleQuery asciiLib (memBackend sampleEngine) (str "d1") (str "q")
      ⟨str "GET", str "/d1/query/q", .ok []⟩ ⟨sampleStore, []⟩).1.status = some 200 ∧
    (handleQuery asciiLib (memBackend longRowEngine) (str "d1") (str "q")
      ⟨str "GET", str "/d1/query/q", .ok []⟩ ⟨sampleStore, []⟩).1 = .panicked :=
  ⟨((C19_header_lookups_in_range asciiLib (memBackend sampleEngine) (str "d1") (str "q")
      ⟨str "GET", str "/d1/query/q", .ok []⟩ ⟨sampleStore, []⟩
      ⟨sampleStore, [⟨.dbExec (str "d1") (str "q"), .done⟩]⟩
      ⟨[str "k", str "v"], [[⟨str "k1"⟩, ⟨str "v1"⟩]], none⟩ rfl rfl).1 (by decide)).2,
    (C19_header_lookups_in_range asciiLib (memBackend longRowEngine) (str "d1") (str "q")
      ⟨str "GET", str "/d1/query/q", .ok []⟩ ⟨sampleStore, []⟩
      ⟨sampleStore, [⟨.dbExec (str "d1") (str "q"), .done⟩]⟩
      ⟨[str "k"], [[⟨str "k1"⟩, ⟨str "v1"⟩]], none⟩ rfl rfl).2.mpr
      ⟨[⟨str "k1"⟩, ⟨str "v1"⟩], by decide, by decide⟩⟩

end RestSyncbase
